import Mathlib

/-!
# Executor start-up: `standard_ExecutorStart` and `InitPlan`

A shallow embedding of `src/ExecutorStart.c` and `src/InitPlan.c` over the records of
`src/dataStructure.c`.

* Heap records (`QueryDesc`, `EState`, ...) are structures; a nullable pointer is an `Option`.
* The code is stateful and can raise (`elog(ERROR, ...)`, a failed `Assert`, a collaborator that
  raises).  It is embedded in the monad `Exec`: a computation maps a `Machine` to a result that is
  either `ok` or `err`, and in both cases carries the machine as it is at that point.  Raising
  does not undo earlier writes, exactly like the non-local exit of `elog(ERROR)`.
* Functions called by the code but defined outside the three source files are either fields of
  `Env` (an arbitrary collaborator, quantified over in the theorems) or small definitions
  modelled from the specification; the latter say so in their doc comment.
* Every call to a collaborator appends an `Event` to `Machine.trace`, so that the order of calls
  is observable.
* `Assert(cond)` is embedded as a check that raises when `cond` is false, as in a build with
  assertion checking.  The macro expands to nothing in a build without it; the section on
  either build gives `InitPlan` for both expansions.
-/

namespace PGExecutor

/-! ## Data model -/

abbrev Oid := Nat
abbrev Index := Nat
abbrev CommandId := Nat
abbrev Snapshot := Nat
abbrev Relation := Nat
abbrev MemoryContext := Nat

/-- Command kind of a query descriptor; `other` stands for every value of the C enum that is not
one of the four the executor accepts. -/
inductive CmdType where
  | CMD_SELECT
  | CMD_INSERT
  | CMD_UPDATE
  | CMD_DELETE
  | other (code : Nat)
  deriving DecidableEq, Repr

/-- Lock kind of a row mark; `other` stands for every value of the C enum that is not one of
the six kinds `InitPlan` recognises. -/
inductive RowMarkType where
  | ROW_MARK_EXCLUSIVE
  | ROW_MARK_NOKEYEXCLUSIVE
  | ROW_MARK_SHARE
  | ROW_MARK_KEYSHARE
  | ROW_MARK_REFERENCE
  | ROW_MARK_COPY
  | other (code : Nat)
  deriving DecidableEq, Repr

/-- Which `Assert` of the source failed. -/
inductive AssertSite where
  | estateIsNull
  | rowMarkSlot
  | subplanStatesNil
  deriving DecidableEq, Repr

/-- Failures that abort the running call. -/
inductive ExecError where
  | readOnlyViolation
  | unrecognizedOperation (op : CmdType)
  | unrecognizedMarkType (markType : RowMarkType)
  | assertion (site : AssertSite)
  | nullPointer
  | outOfRange
  | collaborator (code : Nat)
  deriving DecidableEq, Repr

/-- Range-table entry.  `relid` is the field `InitPlan` reads; `requiresWrite` and `isTempTable`
carry what the transaction-mode guard of the specification looks at. -/
structure RangeTblEntry where
  relid : Oid
  requiresWrite : Bool
  isTempTable : Bool
  deriving DecidableEq, Repr

structure TargetEntry where
  expr : Nat
  resno : Nat
  resjunk : Bool
  deriving DecidableEq, Repr

/-- Plan node as far as this code looks into it: an identity and the top-level target list. -/
structure Plan where
  nodeId : Nat
  targetlist : List TargetEntry
  deriving DecidableEq, Repr

structure PlanRowMark where
  rti : Index
  prti : Index
  rowmarkId : Index
  markType : RowMarkType
  strength : Nat
  waitPolicy : Nat
  isParent : Bool
  deriving DecidableEq, Repr

structure PlannedStmt where
  hasModifyingCTE : Bool
  planTree : Plan
  rtable : List RangeTblEntry
  resultRelations : List Index
  rootResultRelations : List Index
  subplans : List Plan
  rewindPlanIDs : List Nat
  rowMarks : List PlanRowMark
  paramExecTypes : List Oid
  jitFlags : Nat
  deriving DecidableEq, Repr

/-- Row shape: one entry per column (the expression it comes from) and the `tdhasoid` bit. -/
structure TupleDesc where
  attrs : List Nat
  tdhasoid : Bool
  deriving DecidableEq, Repr

def TupleDesc.natts (t : TupleDesc) : Nat := t.attrs.length

structure TupleTableSlot where
  slotNo : Nat
  tts_tupleDescriptor : Option TupleDesc
  deriving DecidableEq, Repr

structure JunkFilter where
  jf_targetList : List TargetEntry
  jf_cleanTupType : TupleDesc
  jf_resultSlot : Option TupleTableSlot
  deriving DecidableEq, Repr

/-- Run-time state of a plan node, opaque apart from the plan node it belongs to. -/
structure PlanState where
  plan : Plan
  stateId : Nat
  deriving DecidableEq, Repr

structure ResultRelInfo where
  ri_RangeTableIndex : Index
  ri_RelationDesc : Relation
  ri_PartitionRoot : Option Relation
  ri_instrument : Nat
  deriving DecidableEq, Repr

/-- Row locator; `none` is the invalid locator. -/
abbrev ItemPointerData := Option (Nat × Nat)

structure ExecRowMark where
  relation : Option Relation
  relid : Oid
  rti : Index
  prti : Index
  rowmarkId : Index
  markType : RowMarkType
  strength : Nat
  waitPolicy : Nat
  ermActive : Bool
  curCtid : ItemPointerData
  ermExtra : Option Nat
  deriving DecidableEq, Repr

structure ParamExecData where
  execPlan : Option Nat
  value : Nat
  isnull : Bool
  deriving DecidableEq, Repr

/-- The fields of `EState` that `standard_ExecutorStart` and `InitPlan` read or write. -/
structure EState where
  es_snapshot : Option Snapshot
  es_crosscheck_snapshot : Option Snapshot
  es_range_table : List RangeTblEntry
  es_range_table_array : List RangeTblEntry
  es_range_table_size : Index
  es_rowmarks : Option (List (Option ExecRowMark))
  es_plannedstmt : Option PlannedStmt
  es_sourceText : Option String
  es_junkFilter : Option JunkFilter
  es_output_cid : CommandId
  es_result_relations : Option (List ResultRelInfo)
  es_num_result_relations : Nat
  es_result_relation_info : Option ResultRelInfo
  es_root_result_relations : Option (List ResultRelInfo)
  es_num_root_result_relations : Nat
  es_trig_tuple_slot : Option TupleTableSlot
  es_trig_oldtup_slot : Option TupleTableSlot
  es_trig_newtup_slot : Option TupleTableSlot
  es_param_list_info : Option Nat
  es_param_exec_vals : Option (List ParamExecData)
  es_queryEnv : Option Nat
  es_query_cxt : MemoryContext
  es_tupleTable : List TupleTableSlot
  es_top_eflags : Nat
  es_instrument : Nat
  es_subplanstates : List PlanState
  es_epqTuple : Option (List Nat)
  es_epqTupleSet : Option (List Bool)
  es_epqScanDone : Option (List Bool)
  es_jit_flags : Nat
  deriving DecidableEq, Repr

structure QueryDesc where
  operation : CmdType
  plannedstmt : PlannedStmt
  sourceText : Option String
  snapshot : Option Snapshot
  crosscheck_snapshot : Option Snapshot
  params : Option Nat
  queryEnv : Option Nat
  instrument_options : Nat
  tupDesc : Option TupleDesc
  estate : Option EState
  planstate : Option PlanState
  deriving DecidableEq, Repr

/-- One entry of the call log: a call to a collaborator, with what is needed to tell the calls
apart.  `ExecInitNode` carries the `EState` as it is when the call is made.  `UnregisterSnapshot`
is the other operation of the snapshot registry; the source never calls it, and it is part of
the vocabulary so that this can be stated. -/
inductive Event where
  | ExecCheckXactReadOnly
  | CreateExecutorState
  | GetCurrentCommandId (cid : CommandId)
  | RegisterSnapshot (snapshot : Option Snapshot) (handle : Option Snapshot)
  | AfterTriggerBeginQuery
  | ExecCheckRTPerms
  | ExecInitRangeTable
  | ExecGetRangeTableRelation (rti : Index) (result : Option Relation)
  | InitResultRelInfo (rti : Index)
  | CheckValidRowMarkRel (relation : Relation) (markType : RowMarkType)
  | ExecInitNode (node : Plan) (estate : EState) (eflags : Nat)
  | ExecInitExtraTupleSlot
  | ExecInitJunkFilter
  | UnregisterSnapshot (handle : Option Snapshot)
  deriving DecidableEq, Repr

structure Machine where
  queryDesc : QueryDesc
  CurrentMemoryContext : MemoryContext
  trace : List Event
  deriving DecidableEq, Repr

/-- Everything the code takes from outside the three source files and that the specification
leaves open: the two transaction-mode globals, the flag masks of `executor.h`, and the
collaborators, each an arbitrary function of its arguments that either returns or raises.

* `ExecCheckRTPerms` is called as a statement (its value is discarded), so the only failure it
  can report to `InitPlan` is a raised error.
* `ExecGetRangeTableRelation` returns the handle of an open table or raises.
* `ExecInitNode` reads the execution state it is given; the writes it may make to fields that
  `InitPlan` does not itself maintain are outside this model. -/
structure Env where
  XactReadOnly : Bool
  IsInParallelMode : Bool
  EXEC_FLAG_EXPLAIN_ONLY : Nat
  EXEC_FLAG_REWIND : Nat
  EXEC_FLAG_BACKWARD : Nat
  EXEC_FLAG_MARK : Nat
  EXEC_FLAG_SKIP_TRIGGERS : Nat
  EXEC_FLAG_WITH_NO_DATA : Nat
  newQueryContext : MemoryContext → MemoryContext
  GetCurrentCommandId : Bool → CommandId
  RegisterSnapshot : Option Snapshot → Option Snapshot
  ExecCheckRTPerms : List RangeTblEntry → Bool → Except ExecError Unit
  ExecGetRangeTableRelation : EState → Index → Except ExecError Relation
  CheckValidRowMarkRel : Relation → RowMarkType → Except ExecError Unit
  ExecInitNode : Plan → EState → Nat → Except ExecError PlanState
  ExecGetResultType : PlanState → TupleDesc

/-! ## The execution monad -/

/-- Outcome of a computation: a value or an error, and the machine at that point. -/
inductive Res (α : Type) where
  | ok (a : α) (m : Machine)
  | err (e : ExecError) (m : Machine)

def Res.machine {α : Type} : Res α → Machine
  | .ok _ m => m
  | .err _ m => m

def Res.isOk {α : Type} : Res α → Bool
  | .ok _ _ => true
  | .err _ _ => false

def Exec (α : Type) : Type := Machine → Res α

def Exec.pure {α : Type} (a : α) : Exec α := fun m => .ok a m

def Exec.bind {α β : Type} (x : Exec α) (f : α → Exec β) : Exec β := fun m =>
  match x m with
  | .ok a m1 => f a m1
  | .err e m1 => .err e m1

instance : Monad Exec where
  pure := Exec.pure
  bind := Exec.bind

/-- Raise: `elog(ERROR, ...)`. -/
def raise {α : Type} (e : ExecError) : Exec α := fun m => .err e m

/-- Append a call to the log. -/
def emit (ev : Event) : Exec Unit := fun m => .ok () { m with trace := m.trace ++ [ev] }

/-- Result of a collaborator: return its value or raise its error. -/
def ofExcept {α : Type} : Except ExecError α → Exec α
  | .ok a => Exec.pure a
  | .error e => raise e

def exceptToOption {α : Type} : Except ExecError α → Option α
  | .ok a => some a
  | .error _ => none

/-- The macro `Assert(cond)` in a build with assertion checking: a check that raises when `cond`
is false. -/
def Assert (cond : Bool) (site : AssertSite) : Exec Unit :=
  if cond then Exec.pure () else raise (.assertion site)

def getQueryDesc : Exec QueryDesc := fun m => .ok m.queryDesc m

def modifyQueryDesc (f : QueryDesc → QueryDesc) : Exec Unit := fun m =>
  .ok () { m with queryDesc := f m.queryDesc }

/-- Read through `queryDesc->estate`. -/
def getEState : Exec EState := fun m =>
  match m.queryDesc.estate with
  | some es => .ok es m
  | none => .err .nullPointer m

/-- Write through `queryDesc->estate`. -/
def modifyEState (f : EState → EState) : Exec Unit := fun m =>
  match m.queryDesc.estate with
  | some es => .ok () { m with queryDesc := { m.queryDesc with estate := some (f es) } }
  | none => .err .nullPointer m

/-- The call `MemoryContextSwitchTo(cxt)`: make `cxt` current and return the previous one. -/
def MemoryContextSwitchTo (cxt : MemoryContext) : Exec MemoryContext := fun m =>
  .ok m.CurrentMemoryContext { m with CurrentMemoryContext := cxt }

/-! ## Collaborators modelled from the specification -/

/-- Modelled from the spec: `ExecCheckXactReadOnly` is not among the source files.  The
transaction-mode guard rejects a statement that writes to a non-temporary table with a read-only
violation and accepts every other statement. -/
def ExecCheckXactReadOnly (plannedstmt : PlannedStmt) : Except ExecError Unit :=
  if plannedstmt.rtable.any (fun rte => rte.requiresWrite && !rte.isTempTable) then
    .error .readOnlyViolation
  else .ok ()

/-- Modelled from the spec: `CreateExecutorState` is not among the source files.  It allocates
the execution state in a new query-scoped region whose parent is the current allocation
context; every field is zero or absent. -/
def CreateExecutorState (c : Env) (parent : MemoryContext) : EState :=
  { es_snapshot := none
    es_crosscheck_snapshot := none
    es_range_table := []
    es_range_table_array := []
    es_range_table_size := 0
    es_rowmarks := none
    es_plannedstmt := none
    es_sourceText := none
    es_junkFilter := none
    es_output_cid := 0
    es_result_relations := none
    es_num_result_relations := 0
    es_result_relation_info := none
    es_root_result_relations := none
    es_num_root_result_relations := 0
    es_trig_tuple_slot := none
    es_trig_oldtup_slot := none
    es_trig_newtup_slot := none
    es_param_list_info := none
    es_param_exec_vals := none
    es_queryEnv := none
    es_query_cxt := c.newQueryContext parent
    es_tupleTable := []
    es_top_eflags := 0
    es_instrument := 0
    es_subplanstates := []
    es_epqTuple := none
    es_epqTupleSet := none
    es_epqScanDone := none
    es_jit_flags := 0 }

/-- Modelled from the spec: `ExecInitRangeTable` is not among the source files.  It stores the
table-reference list and builds the index-aligned array from it. -/
def ExecInitRangeTable (rangeTable : List RangeTblEntry) : Exec Unit := do
  emit .ExecInitRangeTable
  modifyEState (fun es =>
    { es with es_range_table := rangeTable
              es_range_table_array := rangeTable
              es_range_table_size := rangeTable.length })

/-- Modelled from the spec: `exec_rt_fetch` is not among the source files.  It reads entry
`rti - 1` of the index-aligned array; a position outside the array is an out-of-range failure. -/
def exec_rt_fetch (rti : Index) : Exec RangeTblEntry := do
  let estate ← getEState
  if rti = 0 then raise .outOfRange
  else
    match estate.es_range_table_array[rti - 1]? with
    | some rte => pure rte
    | none => raise .outOfRange

/-- Modelled from the spec: `InitResultRelInfo` is not among the source files.  The bookkeeping
entry holds the open table handle, its reference index, the partition root and the
instrumentation options it is given. -/
def InitResultRelInfo (resultRelationDesc : Relation) (resultRelationIndex : Index)
    (partition_root : Option Relation) (instrument_options : Nat) : ResultRelInfo :=
  { ri_RangeTableIndex := resultRelationIndex
    ri_RelationDesc := resultRelationDesc
    ri_PartitionRoot := partition_root
    ri_instrument := instrument_options }

/-- Modelled from the spec: `ExecInitExtraTupleSlot` is not among the source files.  It
allocates a fresh scratch row slot and adds it to the per-query list of temporary row slots. -/
def ExecInitExtraTupleSlot (tupledesc : Option TupleDesc) : Exec TupleTableSlot := do
  emit .ExecInitExtraTupleSlot
  let estate ← getEState
  let slot : TupleTableSlot :=
    { slotNo := estate.es_tupleTable.length, tts_tupleDescriptor := tupledesc }
  modifyEState (fun es => { es with es_tupleTable := es.es_tupleTable ++ [slot] })
  pure slot

/-- Modelled from the spec: `ExecInitJunkFilter` is not among the source files.  The filter is
built from the column list, the row-identity bit and the scratch slot; its cleaned shape is the
column list without the administrative columns. -/
def ExecInitJunkFilter (targetList : List TargetEntry) (hasoid : Bool)
    (slot : TupleTableSlot) : JunkFilter :=
  { jf_targetList := targetList
    jf_cleanTupType :=
      { attrs := (targetList.filter (fun tle => !tle.resjunk)).map (fun tle => tle.expr)
        tdhasoid := hasoid }
    jf_resultSlot := some slot }

/-- Modelled from the spec: `bms_is_member` is not among the source files; the set of rewindable
sub-plan numbers is a list. -/
def bms_is_member (i : Nat) (s : List Nat) : Bool := s.contains i

/-! ## Calls to the collaborators of `Env` -/

def callExecGetRangeTableRelation (c : Env) (rti : Index) : Exec Relation := do
  let estate ← getEState
  let r := c.ExecGetRangeTableRelation estate rti
  emit (.ExecGetRangeTableRelation rti (exceptToOption r))
  ofExcept r

def callCheckValidRowMarkRel (c : Env) (rel : Relation) (markType : RowMarkType) : Exec Unit := do
  emit (.CheckValidRowMarkRel rel markType)
  ofExcept (c.CheckValidRowMarkRel rel markType)

def callExecInitNode (c : Env) (node : Plan) (eflags : Nat) : Exec PlanState := do
  let estate ← getEState
  emit (.ExecInitNode node estate eflags)
  ofExcept (c.ExecInitNode node estate eflags)

def callGetCurrentCommandId (c : Env) (used : Bool) : Exec CommandId := do
  let cid := c.GetCurrentCommandId used
  emit (.GetCurrentCommandId cid)
  pure cid

def callRegisterSnapshot (c : Env) (snapshot : Option Snapshot) : Exec (Option Snapshot) := do
  let h := c.RegisterSnapshot snapshot
  emit (.RegisterSnapshot snapshot h)
  pure h

/-! ## `InitPlan` (src/InitPlan.c) -/

/-- The two `foreach` loops of lines 50-63 and 85-98: open each target table and fill one
bookkeeping entry per target, in list order. -/
def buildResultRelInfos (c : Env) : List Index → Exec (List ResultRelInfo)
  | [] => pure []
  | resultRelationIndex :: rest => do
      let resultRelation ← callExecGetRangeTableRelation c resultRelationIndex
      let estate ← getEState
      emit (.InitResultRelInfo resultRelationIndex)
      let resultRelInfo :=
        InitResultRelInfo resultRelation resultRelationIndex none estate.es_instrument
      let infos ← buildResultRelInfos c rest
      pure (resultRelInfo :: infos)

/-- Lines 40-120: write-target bookkeeping. -/
def initResultRelations (c : Env) (plannedstmt : PlannedStmt) : Exec Unit := do
  if plannedstmt.resultRelations ≠ [] then
    let resultRelations := plannedstmt.resultRelations
    let numResultRelations := resultRelations.length
    let resultRelInfos ← buildResultRelInfos c resultRelations
    modifyEState (fun es =>
      { es with es_result_relations := some resultRelInfos
                es_num_result_relations := numResultRelations
                es_result_relation_info := none })
    if plannedstmt.rootResultRelations ≠ [] then
      let num_roots := plannedstmt.rootResultRelations.length
      let rootInfos ← buildResultRelInfos c plannedstmt.rootResultRelations
      modifyEState (fun es =>
        { es with es_root_result_relations := some rootInfos
                  es_num_root_result_relations := num_roots })
    else
      modifyEState (fun es =>
        { es with es_root_result_relations := none
                  es_num_root_result_relations := 0 })
  else
    modifyEState (fun es =>
      { es with es_result_relations := none
                es_num_result_relations := 0
                es_result_relation_info := none
                es_root_result_relations := none
                es_num_root_result_relations := 0 })

/-- Lines 145-162: open the relation if the mark type needs it. -/
def openRowMarkRelation (c : Env) (rc : PlanRowMark) : Exec (Option Relation) :=
  match rc.markType with
  | .ROW_MARK_EXCLUSIVE | .ROW_MARK_NOKEYEXCLUSIVE | .ROW_MARK_SHARE
  | .ROW_MARK_KEYSHARE | .ROW_MARK_REFERENCE => do
      let relation ← callExecGetRangeTableRelation c rc.rti
      pure (some relation)
  | .ROW_MARK_COPY => pure none
  | .other code => raise (.unrecognizedMarkType (.other code))

/-- Lines 164-166: check the relation, when one was opened. -/
def checkRowMarkRel (c : Env) (relation : Option Relation) (markType : RowMarkType) :
    Exec Unit :=
  match relation with
  | some rel => callCheckValidRowMarkRel c rel markType
  | none => pure ()

/-- Lines 168-179: the descriptor built for a request. -/
def newExecRowMark (rc : PlanRowMark) (relation : Option Relation) (relid : Oid) : ExecRowMark :=
  { relation := relation
    relid := relid
    rti := rc.rti
    prti := rc.prti
    rowmarkId := rc.rowmarkId
    markType := rc.markType
    strength := rc.strength
    waitPolicy := rc.waitPolicy
    ermActive := false
    curCtid := none
    ermExtra := none }

/-- Lines 181-184: the assertion on the slot and the store into `es_rowmarks`. -/
def storeRowMark (erm : ExecRowMark) : Exec Unit := do
  let estate ← getEState
  match estate.es_rowmarks with
  | none => raise .nullPointer
  | some rowmarks =>
      Assert (decide (erm.rti > 0) && decide (erm.rti ≤ estate.es_range_table_size) &&
                (rowmarks[erm.rti - 1]? == some none)) .rowMarkSlot
      modifyEState (fun es =>
        { es with es_rowmarks := some (rowmarks.set (erm.rti - 1) (some erm)) })

/-- Lines 132-184: the body of the row-mark loop for one request. -/
def initRowMark (c : Env) (rc : PlanRowMark) : Exec Unit := do
  if rc.isParent then
    pure ()
  else
    let rte ← exec_rt_fetch rc.rti
    let relid := rte.relid
    let relation ← openRowMarkRelation c rc
    checkRowMarkRel c relation rc.markType
    storeRowMark (newExecRowMark rc relation relid)

/-- The `foreach` of line 130. -/
def initRowMarks (c : Env) : List PlanRowMark → Exec Unit
  | [] => pure ()
  | rc :: rest => do
      initRowMark c rc
      initRowMarks c rest

/-- Lines 126-186: the row-mark array, when the plan has row marks. -/
def initRowMarksIfAny (c : Env) (plannedstmt : PlannedStmt) : Exec Unit := do
  if plannedstmt.rowMarks ≠ [] then
    modifyEState (fun es =>
      { es with es_rowmarks := some (List.replicate es.es_range_table_size none) })
    initRowMarks c plannedstmt.rowMarks
  else pure ()

/-- Lines 192-201: empty tuple table, no trigger slots, EvalPlanQual not active. -/
def resetAuxiliaryState : Exec Unit :=
  modifyEState (fun es =>
    { es with es_tupleTable := []
              es_trig_tuple_slot := none
              es_trig_oldtup_slot := none
              es_trig_newtup_slot := none
              es_epqTuple := none
              es_epqTupleSet := none
              es_epqScanDone := none })

/-- Lines 211-236: initialise the sub-plans, numbered from `i`. -/
def initSubPlans (c : Env) (plannedstmt : PlannedStmt) (eflags : Nat) :
    List Plan → Nat → Exec Unit
  | [], _ => pure ()
  | subplan :: rest, i => do
      let sp_eflags := eflags &&& (c.EXEC_FLAG_EXPLAIN_ONLY ||| c.EXEC_FLAG_WITH_NO_DATA)
      let sp_eflags :=
        if bms_is_member i plannedstmt.rewindPlanIDs then sp_eflags ||| c.EXEC_FLAG_REWIND
        else sp_eflags
      let subplanstate ← callExecInitNode c subplan sp_eflags
      modifyEState (fun es => { es with es_subplanstates := es.es_subplanstates ++ [subplanstate] })
      initSubPlans c plannedstmt eflags rest (i + 1)

/-- Lines 263-272: is some entry of the target list marked `resjunk`? -/
def junkFilterNeeded : List TargetEntry → Bool
  | [] => false
  | tle :: rest => if tle.resjunk then true else junkFilterNeeded rest

/-- Lines 258-287: the tuple descriptor to return, building the junk filter when needed. -/
def resolveTupType (operation : CmdType) (plan : Plan) (planstate : PlanState)
    (tupType : TupleDesc) : Exec TupleDesc := do
  if operation = .CMD_SELECT then
    if junkFilterNeeded plan.targetlist then
      let slot ← ExecInitExtraTupleSlot none
      emit .ExecInitJunkFilter
      let j := ExecInitJunkFilter planstate.plan.targetlist tupType.tdhasoid slot
      modifyEState (fun es => { es with es_junkFilter := some j })
      pure j.jf_cleanTupType
    else pure tupType
  else pure tupType

/-- Lines 210-287 of `InitPlan` for the query descriptor `queryDesc`: the sub-plans, the main
plan tree and the tuple descriptor; returns the root state and the tuple descriptor. -/
def InitPlanFromSubPlans (c : Env) (queryDesc : QueryDesc) (eflags : Nat) :
    Exec (PlanState × TupleDesc) := do
  let operation := queryDesc.operation
  let plannedstmt := queryDesc.plannedstmt
  let plan := plannedstmt.planTree
  let estate ← getEState
  Assert (estate.es_subplanstates == []) .subplanStatesNil
  initSubPlans c plannedstmt eflags plannedstmt.subplans 1
  let planstate ← callExecInitNode c plan eflags
  let tupType := c.ExecGetResultType planstate
  let tupType ← resolveTupType operation plan planstate tupType
  pure (planstate, tupType)

/-- Lines 122-287 of `InitPlan`: the row marks, the auxiliary state, then the rest. -/
def InitPlanFromRowMarks (c : Env) (queryDesc : QueryDesc) (eflags : Nat) :
    Exec (PlanState × TupleDesc) := do
  initRowMarksIfAny c queryDesc.plannedstmt
  resetAuxiliaryState
  InitPlanFromSubPlans c queryDesc eflags

/-- Lines 28-287 of `InitPlan` for the query descriptor `queryDesc`: everything between the
permission check and the two final stores into the descriptor. -/
def InitPlanAfterPermissions (c : Env) (queryDesc : QueryDesc) (eflags : Nat) :
    Exec (PlanState × TupleDesc) := do
  let plannedstmt := queryDesc.plannedstmt
  let rangeTable := plannedstmt.rtable
  ExecInitRangeTable rangeTable
  modifyEState (fun es => { es with es_plannedstmt := some plannedstmt })
  initResultRelations c plannedstmt
  InitPlanFromRowMarks c queryDesc eflags

/-- Lines 12-287 of `InitPlan`: the permission check, then everything else before the two
results are stored in the descriptor. -/
def InitPlanSteps (c : Env) (queryDesc : QueryDesc) (eflags : Nat) :
    Exec (PlanState × TupleDesc) := do
  emit .ExecCheckRTPerms
  ofExcept (c.ExecCheckRTPerms queryDesc.plannedstmt.rtable true)
  InitPlanAfterPermissions c queryDesc eflags

/-- The function `InitPlan`. -/
def InitPlan (c : Env) (eflags : Nat) : Exec Unit := do
  let queryDesc ← getQueryDesc
  let r ← InitPlanSteps c queryDesc eflags
  modifyQueryDesc (fun qd => { qd with tupDesc := some r.2, planstate := some r.1 })

/-! ## `standard_ExecutorStart` (src/ExecutorStart.c) -/

/-- Lines 125 and 142: `estate->es_output_cid = GetCurrentCommandId(true)`. -/
def setOutputCid (c : Env) : Exec Unit := do
  let cid ← callGetCurrentCommandId c true
  modifyEState (fun es => { es with es_output_cid := cid })

/-- Lines 123-125: a SELECT marks tuples only with row marks or a modifying CTE. -/
def selectOutputCid (c : Env) (queryDesc : QueryDesc) : Exec Unit :=
  if queryDesc.plannedstmt.rowMarks ≠ [] ∨ queryDesc.plannedstmt.hasModifyingCTE = true then
    setOutputCid c
  else pure ()

/-- Lines 114-149: the switch on the command kind; returns the value of `eflags` after it. -/
def commandIdPolicy (c : Env) (queryDesc : QueryDesc) (eflags : Nat) : Exec Nat :=
  match queryDesc.operation with
  | .CMD_SELECT => do
      selectOutputCid c queryDesc
      if !queryDesc.plannedstmt.hasModifyingCTE then
        pure (eflags ||| c.EXEC_FLAG_SKIP_TRIGGERS)
      else pure eflags
  | .CMD_INSERT | .CMD_DELETE | .CMD_UPDATE => do
      setOutputCid c
      pure eflags
  | .other code => raise (.unrecognizedOperation (.other code))

/-- Lines 73-75: the transaction-mode guard. -/
def transactionModeGuard (c : Env) (queryDesc : QueryDesc) (eflags : Nat) : Exec Unit :=
  if (c.XactReadOnly || c.IsInParallelMode) && (eflags &&& c.EXEC_FLAG_EXPLAIN_ONLY == 0) then do
    emit .ExecCheckXactReadOnly
    ofExcept (ExecCheckXactReadOnly queryDesc.plannedstmt)
  else pure ()

/-- Lines 81-84: create the execution state, store it in the query descriptor and switch to its
memory context; returns the previous context. -/
def createEState (c : Env) : Exec MemoryContext := do
  emit .CreateExecutorState
  let parent ← (fun m => Res.ok m.CurrentMemoryContext m : Exec MemoryContext)
  let estate := CreateExecutorState c parent
  modifyQueryDesc (fun qd => { qd with estate := some estate })
  MemoryContextSwitchTo estate.es_query_cxt

/-- Lines 93-100: workspace for the internal parameters. -/
def allocParamExecVals (queryDesc : QueryDesc) : Exec Unit :=
  if queryDesc.plannedstmt.paramExecTypes ≠ [] then
    modifyEState (fun es =>
      { es with es_param_exec_vals :=
                  some (List.replicate queryDesc.plannedstmt.paramExecTypes.length
                    { execPlan := none, value := 0, isnull := false }) })
  else pure ()

/-- Lines 91-108: parameters, source text and query environment. -/
def fillParameters (queryDesc : QueryDesc) : Exec Unit := do
  modifyEState (fun es => { es with es_param_list_info := queryDesc.params })
  allocParamExecVals queryDesc
  modifyEState (fun es => { es with es_sourceText := queryDesc.sourceText })
  modifyEState (fun es => { es with es_queryEnv := queryDesc.queryEnv })

/-- Lines 155-159: snapshots, flags and instrumentation options. -/
def copyIntoEState (c : Env) (queryDesc : QueryDesc) (eflags : Nat) : Exec Unit := do
  let snap ← callRegisterSnapshot c queryDesc.snapshot
  modifyEState (fun es => { es with es_snapshot := snap })
  let csnap ← callRegisterSnapshot c queryDesc.crosscheck_snapshot
  modifyEState (fun es => { es with es_crosscheck_snapshot := csnap })
  modifyEState (fun es =>
    { es with es_top_eflags := eflags
              es_instrument := queryDesc.instrument_options
              es_jit_flags := queryDesc.plannedstmt.jitFlags })

/-- Lines 166-167: the AFTER-trigger statement context. -/
def beginTriggerContext (c : Env) (eflags : Nat) : Exec Unit :=
  if eflags &&& (c.EXEC_FLAG_SKIP_TRIGGERS ||| c.EXEC_FLAG_EXPLAIN_ONLY) == 0 then
    emit .AfterTriggerBeginQuery
  else pure ()

/-- Lines 81-173, from the creation of the execution state to the call of `InitPlan`. -/
def startAfterGuard (c : Env) (queryDesc : QueryDesc) (eflags : Nat) : Exec MemoryContext := do
  let oldcontext ← createEState c
  fillParameters queryDesc
  let eflags ← commandIdPolicy c queryDesc eflags
  copyIntoEState c queryDesc eflags
  beginTriggerContext c eflags
  InitPlan c eflags
  pure oldcontext

/-- The function `standard_ExecutorStart`. -/
def standard_ExecutorStart (c : Env) (eflags : Nat) : Exec Unit := do
  let queryDesc ← getQueryDesc
  Assert queryDesc.estate.isNone .estateIsNull
  transactionModeGuard c queryDesc eflags
  let oldcontext ← startAfterGuard c queryDesc eflags
  let _ ← MemoryContextSwitchTo oldcontext
  pure ()

/-! ## Relations between the machine before and after a computation -/

/-- The relation `R` holds between the machine before and after `x`, whatever the outcome. -/
def Frame (R : Machine → Machine → Prop) {α : Type} (x : Exec α) : Prop :=
  ∀ m, R m (x m).machine

/-- Reflexive and transitive relations on machines: those that compose along a sequence. -/
structure FrameRel (R : Machine → Machine → Prop) : Prop where
  refl : ∀ m, R m m
  trans : ∀ m1 m2 m3, R m1 m2 → R m2 m3 → R m1 m3

/-- The relation `R` survives every logged call that satisfies `E` and every write to the
execution state that satisfies `F`. -/
structure Tolerant (R : Machine → Machine → Prop) (E : Event → Prop)
    (F : (EState → EState) → Prop) : Prop where
  rel : FrameRel R
  onEmit : ∀ ev, E ev → Frame R (emit ev)
  onModify : ∀ f, F f → Frame R (modifyEState f)

/-- The computation leaves the machine as it is. -/
def Silent {α : Type} (x : Exec α) : Prop := ∀ m, (x m).machine = m

/-- The relation `R` holds between the machine before `x` and the machine at the point where
`x` fails. -/
def FrameErr (R : Machine → Machine → Prop) {α : Type} (x : Exec α) : Prop :=
  ∀ m e m1, x m = .err e m1 → R m m1

/-- The computation never fails. -/
def NeverFails {α : Type} (x : Exec α) : Prop := ∀ m, (x m).isOk = true

/-- The log after is the log before followed by events that all satisfy `Q`. -/
def TraceRel (Q : Event → Prop) (m m1 : Machine) : Prop :=
  ∃ l, m1.trace = m.trace ++ l ∧ ∀ e ∈ l, Q e

/-- The part `g` of the execution state is the same before and after. -/
def KeepsField {β : Type} (g : EState → β) (m m1 : Machine) : Prop :=
  m1.queryDesc.estate.map g = m.queryDesc.estate.map g

/-- The two results `InitPlan` stores in the query descriptor are the same before and after. -/
def KeepsResults (m m1 : Machine) : Prop :=
  m1.queryDesc.planstate = m.queryDesc.planstate ∧ m1.queryDesc.tupDesc = m.queryDesc.tupDesc

/-- The queryDesc is untouched and the log only grows. -/
def OnlyLogs (m m1 : Machine) : Prop :=
  m1.queryDesc = m.queryDesc ∧ ∃ l, m1.trace = m.trace ++ l

/-! ## The calls each part of the code can make -/

/-- The calls `InitPlan` can make for a given planned statement. -/
def InitPlanEvent (stmt : PlannedStmt) : Event → Prop
  | .ExecCheckRTPerms => True
  | .ExecInitRangeTable => True
  | .ExecGetRangeTableRelation rti _ =>
      (stmt.resultRelations ≠ [] ∧ (rti ∈ stmt.resultRelations ∨ rti ∈ stmt.rootResultRelations))
        ∨ ∃ rc ∈ stmt.rowMarks, rc.isParent = false ∧ rc.rti = rti
  | .InitResultRelInfo rti =>
      stmt.resultRelations ≠ [] ∧ (rti ∈ stmt.resultRelations ∨ rti ∈ stmt.rootResultRelations)
  | .CheckValidRowMarkRel _ markType =>
      ∃ rc ∈ stmt.rowMarks, rc.isParent = false ∧ rc.markType = markType
  | .ExecInitNode _ _ _ => True
  | .ExecInitExtraTupleSlot => True
  | .ExecInitJunkFilter => True
  | _ => False

/-- The calls made by lines 22-120 of `InitPlan`. -/
def ResultRelEvent (stmt : PlannedStmt) : Event → Prop
  | .ExecCheckRTPerms => True
  | .ExecInitRangeTable => True
  | .ExecGetRangeTableRelation rti _ =>
      stmt.resultRelations ≠ [] ∧ (rti ∈ stmt.resultRelations ∨ rti ∈ stmt.rootResultRelations)
  | .InitResultRelInfo rti =>
      stmt.resultRelations ≠ [] ∧ (rti ∈ stmt.resultRelations ∨ rti ∈ stmt.rootResultRelations)
  | _ => False

/-- The calls made by lines 126-186 of `InitPlan`. -/
def RowMarkEvent (stmt : PlannedStmt) : Event → Prop
  | .ExecGetRangeTableRelation rti _ => ∃ rc ∈ stmt.rowMarks, rc.isParent = false ∧ rc.rti = rti
  | .CheckValidRowMarkRel _ markType =>
      ∃ rc ∈ stmt.rowMarks, rc.isParent = false ∧ rc.markType = markType
  | _ => False

/-- The calls made by lines 122-287 of `InitPlan`. -/
def RowMarksOnwardEvent (stmt : PlannedStmt) : Event → Prop
  | .ExecGetRangeTableRelation rti _ => ∃ rc ∈ stmt.rowMarks, rc.isParent = false ∧ rc.rti = rti
  | .CheckValidRowMarkRel _ markType =>
      ∃ rc ∈ stmt.rowMarks, rc.isParent = false ∧ rc.markType = markType
  | .ExecInitNode _ _ _ => True
  | .ExecInitExtraTupleSlot => True
  | .ExecInitJunkFilter => True
  | _ => False

/-- The calls made by lines 81-167 of `standard_ExecutorStart`. -/
def StartEvent : Event → Prop
  | .CreateExecutorState => True
  | .GetCurrentCommandId _ => True
  | .RegisterSnapshot _ _ => True
  | .AfterTriggerBeginQuery => True
  | _ => False

/-- The calls made by lines 151-167 of `standard_ExecutorStart`. -/
def StartTailEvent : Event → Prop
  | .RegisterSnapshot _ _ => True
  | .AfterTriggerBeginQuery => True
  | _ => False

/-- The event is a call of the node initializer. -/
def Event.isExecInitNode : Event → Bool
  | .ExecInitNode _ _ _ => true
  | _ => false

/-- The event is a request for a command identifier. -/
def Event.isGetCurrentCommandId : Event → Bool
  | .GetCurrentCommandId _ => true
  | _ => false

/-! ## The writes each part of the code can make to the execution state -/

/-- Writes of lines 32-34 of `InitPlan`: the range table and the planned statement. -/
inductive WriteRangeTable : (EState → EState) → Prop where
  | table (rangeTable : List RangeTblEntry) :
      WriteRangeTable (fun es =>
        { es with es_range_table := rangeTable
                  es_range_table_array := rangeTable
                  es_range_table_size := rangeTable.length })
  | stmt (plannedstmt : PlannedStmt) :
      WriteRangeTable (fun es => { es with es_plannedstmt := some plannedstmt })

/-- Writes of lines 40-120 of `InitPlan`: the write-target bookkeeping. -/
inductive WriteResultRel : (EState → EState) → Prop where
  | targets (infos : List ResultRelInfo) (n : Nat) :
      WriteResultRel (fun es =>
        { es with es_result_relations := some infos
                  es_num_result_relations := n
                  es_result_relation_info := none })
  | roots (infos : List ResultRelInfo) (n : Nat) :
      WriteResultRel (fun es =>
        { es with es_root_result_relations := some infos
                  es_num_root_result_relations := n })
  | noRoots :
      WriteResultRel (fun es =>
        { es with es_root_result_relations := none
                  es_num_root_result_relations := 0 })
  | noTargets :
      WriteResultRel (fun es =>
        { es with es_result_relations := none
                  es_num_result_relations := 0
                  es_result_relation_info := none
                  es_root_result_relations := none
                  es_num_root_result_relations := 0 })

/-- Writes of lines 126-186 of `InitPlan`: the row-mark array. -/
inductive WriteRowMarks : (EState → EState) → Prop where
  | alloc :
      WriteRowMarks (fun es =>
        { es with es_rowmarks := some (List.replicate es.es_range_table_size none) })
  | store (rowmarks : List (Option ExecRowMark)) :
      WriteRowMarks (fun es => { es with es_rowmarks := some rowmarks })

/-- Writes of lines 192-236 of `InitPlan`: the auxiliary state and the sub-plan states. -/
inductive WriteAux : (EState → EState) → Prop where
  | reset :
      WriteAux (fun es =>
        { es with es_tupleTable := []
                  es_trig_tuple_slot := none
                  es_trig_oldtup_slot := none
                  es_trig_newtup_slot := none
                  es_epqTuple := none
                  es_epqTupleSet := none
                  es_epqScanDone := none })
  | subplan (subplanstate : PlanState) :
      WriteAux (fun es => { es with es_subplanstates := es.es_subplanstates ++ [subplanstate] })

/-- Writes of lines 274-286 of `InitPlan`: the scratch slot and the junk filter. -/
inductive WriteJunk : (EState → EState) → Prop where
  | slot (slot : TupleTableSlot) :
      WriteJunk (fun es => { es with es_tupleTable := es.es_tupleTable ++ [slot] })
  | filter (j : JunkFilter) :
      WriteJunk (fun es => { es with es_junkFilter := some j })

/-- Writes of lines 122-287 of `InitPlan`. -/
def WriteRowMarksOnward (f : EState → EState) : Prop :=
  WriteRowMarks f ∨ WriteAux f ∨ WriteJunk f

/-- Writes of `InitPlan`. -/
def InitPlanWrite (f : EState → EState) : Prop :=
  WriteRangeTable f ∨ WriteResultRel f ∨ WriteRowMarksOnward f

/-- Writes of lines 91-108 of `standard_ExecutorStart`: parameters, text and environment. -/
inductive WriteParams : (EState → EState) → Prop where
  | params (p : Option Nat) : WriteParams (fun es => { es with es_param_list_info := p })
  | execVals (v : List ParamExecData) :
      WriteParams (fun es => { es with es_param_exec_vals := some v })
  | sourceText (t : Option String) : WriteParams (fun es => { es with es_sourceText := t })
  | queryEnv (q : Option Nat) : WriteParams (fun es => { es with es_queryEnv := q })

/-- Write of lines 125 and 142 of `standard_ExecutorStart`: the command identifier. -/
inductive WriteCid : (EState → EState) → Prop where
  | cid (cid : CommandId) : WriteCid (fun es => { es with es_output_cid := cid })

/-- Writes of lines 155-159 of `standard_ExecutorStart`. -/
inductive WriteCopy : (EState → EState) → Prop where
  | snapshot (s : Option Snapshot) : WriteCopy (fun es => { es with es_snapshot := s })
  | crosscheck (s : Option Snapshot) :
      WriteCopy (fun es => { es with es_crosscheck_snapshot := s })
  | flags (eflags instrument jit : Nat) :
      WriteCopy (fun es =>
        { es with es_top_eflags := eflags
                  es_instrument := instrument
                  es_jit_flags := jit })

/-! ## Vocabulary of the claims on `InitPlan` -/

/-- What `InitPlan` puts in the `relation` field for the request `rc`, given the calls `evs` it
logged: nothing for a copy mark, the handle returned by opening `rc.rti` for the five kinds
that need the table; no descriptor is built for an unrecognised kind. -/
def RelationFor (rc : PlanRowMark) (evs : List Event) (relation : Option Relation) : Prop :=
  match rc.markType with
  | .ROW_MARK_COPY => relation = none
  | .other _ => False
  | _ => ∃ rel, relation = some rel ∧ Event.ExecGetRangeTableRelation rc.rti (some rel) ∈ evs

/-- The descriptor `erm` is the one lines 168-179 build for the request `rc`. -/
def DescriptorFor (rc : PlanRowMark) (evs : List Event) (erm : ExecRowMark) : Prop :=
  ∃ relid relation, erm = newExecRowMark rc relation relid ∧ RelationFor rc evs relation

/-- What C4 says of the descriptor `erm` built for the request `rc`, `evs` being the calls
logged meanwhile: the relation handle is absent for a copy mark and is the handle returned by
opening `rc.rti` for the five kinds that need the table; the descriptor is not active, its
cached row locator is invalid and it has no extra storage. -/
def RowMarkDescriptorOk (rc : PlanRowMark) (evs : List Event) (erm : ExecRowMark) : Prop :=
  (rc.markType = .ROW_MARK_COPY → erm.relation = none) ∧
  (rc.markType ∈ [RowMarkType.ROW_MARK_EXCLUSIVE, .ROW_MARK_NOKEYEXCLUSIVE, .ROW_MARK_SHARE,
      .ROW_MARK_KEYSHARE, .ROW_MARK_REFERENCE] →
    ∃ rel, erm.relation = some rel ∧
      Event.ExecGetRangeTableRelation rc.rti (some rel) ∈ evs) ∧
  erm.rti = rc.rti ∧ erm.markType = rc.markType ∧
  erm.ermActive = false ∧ erm.curCtid = none ∧ erm.ermExtra = none

/-- The flags lines 225-228 of `InitPlan` compute for sub-plan number `i`. -/
def subPlanEflags (c : Env) (plannedstmt : PlannedStmt) (eflags : Nat) (i : Nat) : Nat :=
  if bms_is_member i plannedstmt.rewindPlanIDs then
    (eflags &&& (c.EXEC_FLAG_EXPLAIN_ONLY ||| c.EXEC_FLAG_WITH_NO_DATA)) ||| c.EXEC_FLAG_REWIND
  else eflags &&& (c.EXEC_FLAG_EXPLAIN_ONLY ||| c.EXEC_FLAG_WITH_NO_DATA)

/-- The intermediate machines of a run of `InitPlan` that goes from `m` to `m1` without
failing, one per stage, with the equation of each stage. -/
structure InitPlanStages (c : Env) (eflags : Nat) (m m1 : Machine) where
  ma : Machine
  mb : Machine
  mc : Machine
  md : Machine
  me : Machine
  mg : Machine
  mh : Machine
  mf : Machine
  es5 : EState
  ps : PlanState
  td : TupleDesc
  perms : c.ExecCheckRTPerms m.queryDesc.plannedstmt.rtable true = .ok ()
  rangeTable : ExecInitRangeTable m.queryDesc.plannedstmt.rtable
    { m with trace := m.trace ++ [.ExecCheckRTPerms] } = .ok () ma
  stmt : modifyEState (fun es => { es with es_plannedstmt := some m.queryDesc.plannedstmt }) ma =
    .ok () mb
  resultRels : initResultRelations c m.queryDesc.plannedstmt mb = .ok () mc
  rowMarks : initRowMarksIfAny c m.queryDesc.plannedstmt mc = .ok () md
  reset : resetAuxiliaryState md = .ok () me
  estate : me.queryDesc.estate = some es5
  noSubplanStates : es5.es_subplanstates = []
  subPlans : initSubPlans c m.queryDesc.plannedstmt eflags m.queryDesc.plannedstmt.subplans 1 me =
    .ok () mg
  root : callExecInitNode c m.queryDesc.plannedstmt.planTree eflags mg = .ok ps mh
  tupType : resolveTupType m.queryDesc.operation m.queryDesc.plannedstmt.planTree ps
    (c.ExecGetResultType ps) mh = .ok td mf
  final : m1 = { mf with queryDesc :=
    { mf.queryDesc with tupDesc := some td, planstate := some ps } }

/-- The slot `ExecInitExtraTupleSlot` allocates when the execution state is `es`. -/
def scratchSlot (es : EState) : TupleTableSlot :=
  { slotNo := es.es_tupleTable.length, tts_tupleDescriptor := none }

/-- The filter lines 278-280 of `InitPlan` build when the execution state is `es`. -/
def topJunkFilter (es : EState) (planstate : PlanState) (tupType : TupleDesc) : JunkFilter :=
  ExecInitJunkFilter planstate.plan.targetlist tupType.tdhasoid (scratchSlot es)

/-- The execution state after lines 278-281 of `InitPlan`. -/
def withJunkFilter (es : EState) (planstate : PlanState) (tupType : TupleDesc) : EState :=
  { es with es_tupleTable := es.es_tupleTable ++ [scratchSlot es]
            es_junkFilter := some (topJunkFilter es planstate tupType) }

/-! ## Vocabulary of the claims on `standard_ExecutorStart` -/

/-- The execution state after lines 91-108 of `standard_ExecutorStart`. -/
def filledEState (queryDesc : QueryDesc) (es : EState) : EState :=
  { es with
    es_param_list_info := queryDesc.params
    es_param_exec_vals :=
      if queryDesc.plannedstmt.paramExecTypes ≠ [] then
        some (List.replicate queryDesc.plannedstmt.paramExecTypes.length
          { execPlan := none, value := 0, isnull := false })
      else es.es_param_exec_vals
    es_sourceText := queryDesc.sourceText
    es_queryEnv := queryDesc.queryEnv }

/-- The machine after lines 81-108 of `standard_ExecutorStart`, started on `m`. -/
def filledMachine (c : Env) (queryDesc : QueryDesc) (m : Machine) : Machine :=
  { queryDesc :=
      { m.queryDesc with
        estate := some (filledEState queryDesc (CreateExecutorState c m.CurrentMemoryContext)) }
    CurrentMemoryContext := c.newQueryContext m.CurrentMemoryContext
    trace := m.trace ++ [.CreateExecutorState] }

/-- Lines 151-173 of `standard_ExecutorStart`, with the flags `eflags` left by the switch. -/
def startTail (c : Env) (queryDesc : QueryDesc) (eflags : Nat) (oldcontext : MemoryContext) :
    Exec MemoryContext :=
  copyIntoEState c queryDesc eflags >>= fun _ =>
    beginTriggerContext c eflags >>= fun _ =>
      InitPlan c eflags >>= fun _ => pure oldcontext

/-- The command kinds for which lines 114-149 obtain a command identifier. -/
def needsCommandId (queryDesc : QueryDesc) : Prop :=
  queryDesc.operation = .CMD_INSERT ∨ queryDesc.operation = .CMD_UPDATE ∨
    queryDesc.operation = .CMD_DELETE ∨
    (queryDesc.operation = .CMD_SELECT ∧
      (queryDesc.plannedstmt.rowMarks ≠ [] ∨ queryDesc.plannedstmt.hasModifyingCTE = true))

instance (queryDesc : QueryDesc) : Decidable (needsCommandId queryDesc) := by
  unfold needsCommandId
  infer_instance

/-- The flags after lines 114-149: the skip-triggers flag is added for a SELECT without a
modifying common table expression. -/
def effectiveEflags (c : Env) (queryDesc : QueryDesc) (eflags : Nat) : Nat :=
  if queryDesc.operation = .CMD_SELECT ∧ queryDesc.plannedstmt.hasModifyingCTE = false then
    eflags ||| c.EXEC_FLAG_SKIP_TRIGGERS
  else eflags

/-- The machine after `estate->es_output_cid = GetCurrentCommandId(true)`, started on `m` whose
execution state is `es`. -/
def cidMachine (c : Env) (m : Machine) (es : EState) : Machine :=
  { m with
    queryDesc := { m.queryDesc with
      estate := some { es with es_output_cid := c.GetCurrentCommandId true } }
    trace := m.trace ++ [.GetCurrentCommandId (c.GetCurrentCommandId true)] }

/-- The execution state after lines 155-159 of `standard_ExecutorStart`. -/
def copiedEState (c : Env) (queryDesc : QueryDesc) (eflags : Nat) (es : EState) : EState :=
  { es with
    es_snapshot := c.RegisterSnapshot queryDesc.snapshot
    es_crosscheck_snapshot := c.RegisterSnapshot queryDesc.crosscheck_snapshot
    es_top_eflags := eflags
    es_instrument := queryDesc.instrument_options
    es_jit_flags := queryDesc.plannedstmt.jitFlags }

/-- The two registrations logged by lines 155-156 of `standard_ExecutorStart`. -/
def registrationEvents (c : Env) (queryDesc : QueryDesc) : List Event :=
  [.RegisterSnapshot queryDesc.snapshot (c.RegisterSnapshot queryDesc.snapshot),
   .RegisterSnapshot queryDesc.crosscheck_snapshot
     (c.RegisterSnapshot queryDesc.crosscheck_snapshot)]

/-- What line 167 of `standard_ExecutorStart` logs for the flags `eflags`: the opening of the
trigger context when the flags contain neither the skip-triggers nor the explain-only flag. -/
def triggerEvents (c : Env) (eflags : Nat) : List Event :=
  if eflags &&& c.EXEC_FLAG_SKIP_TRIGGERS = 0 ∧ eflags &&& c.EXEC_FLAG_EXPLAIN_ONLY = 0 then
    [.AfterTriggerBeginQuery]
  else []

/-- The machine on which line 173 of `standard_ExecutorStart` calls `InitPlan`, `mq` being the
machine after the switch on the command kind and `esq` its execution state. -/
def initPlanCallMachine (c : Env) (queryDesc : QueryDesc) (eflags : Nat) (mq : Machine)
    (esq : EState) : Machine :=
  { queryDesc := { mq.queryDesc with estate := some (copiedEState c queryDesc eflags esq) }
    CurrentMemoryContext := mq.CurrentMemoryContext
    trace := mq.trace ++ registrationEvents c queryDesc ++ triggerEvents c eflags }

/-! ## Sample inputs -/

/-- An environment in which every collaborator succeeds; the flag bits are distinct. -/
def sampleEnv : Env :=
  { XactReadOnly := false
    IsInParallelMode := false
    EXEC_FLAG_EXPLAIN_ONLY := 1
    EXEC_FLAG_REWIND := 2
    EXEC_FLAG_BACKWARD := 4
    EXEC_FLAG_MARK := 8
    EXEC_FLAG_SKIP_TRIGGERS := 16
    EXEC_FLAG_WITH_NO_DATA := 128
    newQueryContext := fun parent => parent + 1
    GetCurrentCommandId := fun _ => 7
    RegisterSnapshot := fun s => s
    ExecCheckRTPerms := fun _ _ => .ok ()
    ExecGetRangeTableRelation := fun _ rti => .ok (100 + rti)
    CheckValidRowMarkRel := fun _ _ => .ok ()
    ExecInitNode := fun node es _ => .ok { plan := node, stateId := es.es_subplanstates.length }
    ExecGetResultType := fun ps =>
      { attrs := ps.plan.targetlist.map (fun tle => tle.expr), tdhasoid := false } }

/-- The sample environment inside a read-only transaction. -/
def readOnlyEnv : Env := { sampleEnv with XactReadOnly := true }

/-- The sample environment with a permission check that refuses. -/
def noPermissionEnv : Env :=
  { sampleEnv with ExecCheckRTPerms := fun _ _ => .error (.collaborator 1) }

/-- A statement over two tables, the second of which is written. -/
def sampleStmt : PlannedStmt :=
  { hasModifyingCTE := false
    planTree := { nodeId := 0, targetlist := [] }
    rtable := [{ relid := 10, requiresWrite := false, isTempTable := false },
               { relid := 11, requiresWrite := true, isTempTable := false }]
    resultRelations := []
    rootResultRelations := []
    subplans := []
    rewindPlanIDs := []
    rowMarks := []
    paramExecTypes := []
    jitFlags := 0 }

def sampleQueryDesc (operation : CmdType) (stmt : PlannedStmt) : QueryDesc :=
  { operation := operation
    plannedstmt := stmt
    sourceText := none
    snapshot := some 1
    crosscheck_snapshot := none
    params := none
    queryEnv := none
    instrument_options := 0
    tupDesc := none
    estate := none
    planstate := none }

def sampleMachine (operation : CmdType) (stmt : PlannedStmt) : Machine :=
  { queryDesc := sampleQueryDesc operation stmt, CurrentMemoryContext := 0, trace := [] }

/-- An INSERT on the sample statement. -/
def insertQueryMachine : Machine := sampleMachine .CMD_INSERT sampleStmt

/-- A plain SELECT: no row marks, no modifying common table expression. -/
def selectQueryMachine : Machine := sampleMachine .CMD_SELECT sampleStmt

/-- A query descriptor with a command kind the executor does not recognise. -/
def unrecognizedMachine : Machine := sampleMachine (.other 5) sampleStmt

/-- A machine whose query descriptor already carries a fresh execution state, as
`standard_ExecutorStart` leaves it when it calls `InitPlan`. -/
def startedMachine (operation : CmdType) (stmt : PlannedStmt) : Machine :=
  { queryDesc :=
      { sampleQueryDesc operation stmt with estate := some (CreateExecutorState sampleEnv 0) }
    CurrentMemoryContext := 1
    trace := [] }

/-- Three requests on the two tables of the sample statement: a share lock on the first, a copy
mark on the second and a parent marker. -/
def sampleRowMarks : List PlanRowMark :=
  [{ rti := 1, prti := 1, rowmarkId := 1, markType := .ROW_MARK_SHARE, strength := 0,
     waitPolicy := 0, isParent := false },
   { rti := 2, prti := 2, rowmarkId := 2, markType := .ROW_MARK_COPY, strength := 0,
     waitPolicy := 0, isParent := false },
   { rti := 1, prti := 1, rowmarkId := 3, markType := .ROW_MARK_EXCLUSIVE, strength := 0,
     waitPolicy := 0, isParent := true }]

def rowMarkStmt : PlannedStmt := { sampleStmt with rowMarks := sampleRowMarks }

/-- The share request of the sample row marks. -/
def shareRowMark : PlanRowMark :=
  { rti := 1, prti := 1, rowmarkId := 1, markType := .ROW_MARK_SHARE, strength := 0,
    waitPolicy := 0, isParent := false }

/-- The copy request of the sample row marks. -/
def copyRowMark : PlanRowMark :=
  { rti := 2, prti := 2, rowmarkId := 2, markType := .ROW_MARK_COPY, strength := 0,
    waitPolicy := 0, isParent := false }

/-- The execution state at the head of the row-mark loop for the sample statement. -/
def rowMarkLoopEState : EState :=
  { CreateExecutorState sampleEnv 0 with
    es_range_table := rowMarkStmt.rtable
    es_range_table_array := rowMarkStmt.rtable
    es_range_table_size := 2
    es_rowmarks := some [none, none] }

def rowMarkLoopMachine : Machine :=
  { queryDesc := { sampleQueryDesc .CMD_SELECT rowMarkStmt with estate := some rowMarkLoopEState }
    CurrentMemoryContext := 1
    trace := [] }

/-- A statement of five output columns, two of them junk, for a SELECT. -/
def junkStmt : PlannedStmt :=
  { sampleStmt with
    planTree :=
      { nodeId := 0
        targetlist := [{ expr := 1, resno := 1, resjunk := false },
                       { expr := 2, resno := 2, resjunk := true },
                       { expr := 3, resno := 3, resjunk := false },
                       { expr := 4, resno := 4, resjunk := true },
                       { expr := 5, resno := 5, resjunk := false }] } }

/-- A statement with three sub-plans, the second of which is rewindable. -/
def subPlanStmt : PlannedStmt :=
  { sampleStmt with
    subplans := [{ nodeId := 1, targetlist := [] }, { nodeId := 2, targetlist := [] },
                 { nodeId := 3, targetlist := [] }]
    rewindPlanIDs := [2] }

/-- A statement without write targets that still names a partition root. -/
def rootOnlyStmt : PlannedStmt := { sampleStmt with rootResultRelations := [2] }

/-- A machine whose execution state has stale write-target bookkeeping. -/
def staleMachine : Machine :=
  { queryDesc :=
      { sampleQueryDesc .CMD_SELECT rootOnlyStmt with
        estate := some
          { CreateExecutorState sampleEnv 0 with
            es_result_relations := some [InitResultRelInfo 7 1 none 0]
            es_num_result_relations := 1
            es_root_result_relations := some [InitResultRelInfo 8 2 none 0]
            es_num_root_result_relations := 1 } }
    CurrentMemoryContext := 1
    trace := [] }


/-! ## Vocabulary of the claims on unrecognised values -/

/-- The six lock kinds the switch of lines 145-162 of `InitPlan` recognises. -/
def RowMarkType.isRecognized : RowMarkType → Bool
  | .other _ => false
  | _ => true

/-- The array `es_rowmarks` of the machine: absent when there is no execution state. -/
def rowMarksOf (m : Machine) : Option (Option (List (Option ExecRowMark))) :=
  m.queryDesc.estate.map (fun es => es.es_rowmarks)

/-- Every descriptor in `es_rowmarks` is of a recognised lock kind. -/
def RecognizedRowMarks (m : Machine) : Prop :=
  ∀ arr erm, rowMarksOf m = some (some arr) → some erm ∈ arr →
    erm.markType.isRecognized = true

/-- Either `es_rowmarks` is what it was, or each of its descriptors is of a recognised kind. -/
def NoUnrecognizedRowMark (m m1 : Machine) : Prop :=
  rowMarksOf m1 = rowMarksOf m ∨ RecognizedRowMarks m1

/-- A request of a lock kind `InitPlan` does not recognise, on the second table. -/
def unrecognizedRowMark : PlanRowMark :=
  { rti := 2, prti := 2, rowmarkId := 2, markType := .other 9, strength := 0,
    waitPolicy := 0, isParent := false }

/-- A statement whose second row mark is of an unrecognised kind. -/
def unrecognizedRowMarkStmt : PlannedStmt :=
  { sampleStmt with rowMarks := [shareRowMark, unrecognizedRowMark] }

/-! ## Vocabulary of the claim on the snapshot registry -/

/-- The event is a call of the snapshot registry: a registration or an unregistration. -/
def Event.isRegistryCall : Event → Bool
  | .RegisterSnapshot _ _ => true
  | .UnregisterSnapshot _ => true
  | _ => false

/-! ## Vocabulary of the claim on the flags of the sub-plans -/

/-- The node and the flags of a call of the node initializer. -/
def Event.nodeCall : Event → Option (Plan × Nat)
  | .ExecInitNode node _ eflags => some (node, eflags)
  | _ => none

/-- The calls of the node initializer in a log, in order: the node and the flags of each. -/
def nodeCalls (l : List Event) : List (Plan × Nat) := l.filterMap Event.nodeCall

/-- The calls of the node initializer lines 211-236 of `InitPlan` make for the sub-plans `l`,
the first of which has number `i`: each sub-plan with the flags of its number. -/
def subPlanCalls (c : Env) (plannedstmt : PlannedStmt) (eflags : Nat) :
    List Plan → Nat → List (Plan × Nat)
  | [], _ => []
  | subplan :: rest, i =>
      (subplan, subPlanEflags c plannedstmt eflags i) ::
        subPlanCalls c plannedstmt eflags rest (i + 1)

/-- The computation logs calls of the node initializer that form a prefix of `S`, and all of
`S` when it succeeds. -/
def Calls (S : List (Plan × Nat)) {α : Type} (x : Exec α) : Prop :=
  ∀ m, ∃ l, (x m).machine.trace = m.trace ++ l ∧ nodeCalls l <+: S ∧
    ((x m).isOk = true → nodeCalls l = S)

/-- The flag masks of `executor.h` that matter for a sub-plan share no bit: the rewind mask is
not empty and is apart from the two masks a sub-plan inherits, and the backward-scan,
mark/restore and skip-triggers masks are apart from those two and from the rewind mask. -/
def SubPlanFlagsDisjoint (c : Env) : Prop :=
  c.EXEC_FLAG_REWIND ≠ 0 ∧
  c.EXEC_FLAG_REWIND &&& (c.EXEC_FLAG_EXPLAIN_ONLY ||| c.EXEC_FLAG_WITH_NO_DATA) = 0 ∧
  c.EXEC_FLAG_BACKWARD &&&
    ((c.EXEC_FLAG_EXPLAIN_ONLY ||| c.EXEC_FLAG_WITH_NO_DATA) ||| c.EXEC_FLAG_REWIND) = 0 ∧
  c.EXEC_FLAG_MARK &&&
    ((c.EXEC_FLAG_EXPLAIN_ONLY ||| c.EXEC_FLAG_WITH_NO_DATA) ||| c.EXEC_FLAG_REWIND) = 0 ∧
  c.EXEC_FLAG_SKIP_TRIGGERS &&&
    ((c.EXEC_FLAG_EXPLAIN_ONLY ||| c.EXEC_FLAG_WITH_NO_DATA) ||| c.EXEC_FLAG_REWIND) = 0

/-! ## Vocabulary of the claim on the write targets -/

/-- The calls lines 50-63 and 85-98 of `InitPlan` log while they build the entries `infos`: for
each entry, the opening of its table and then its initialisation. -/
def resultRelCalls : List ResultRelInfo → List Event
  | [] => []
  | info :: rest =>
      .ExecGetRangeTableRelation info.ri_RangeTableIndex (some info.ri_RelationDesc) ::
        .InitResultRelInfo info.ri_RangeTableIndex :: resultRelCalls rest

/-- The entries `infos` are those built for the targets `rtis` when the execution state is
`es`: one per target, the `k`-th initialised from the table `ExecGetRangeTableRelation` returns
for the `k`-th index, with that index, no partition root and `es_instrument`. -/
def BuiltFrom (c : Env) (es : EState) (rtis : List Index) (infos : List ResultRelInfo) : Prop :=
  infos.length = rtis.length ∧
  ∀ (k : Nat) (rti : Index), rtis[k]? = some rti →
    ∃ rel, c.ExecGetRangeTableRelation es rti = .ok rel ∧
      infos[k]? = some (InitResultRelInfo rel rti none es.es_instrument)

/-- The execution state after lines 32-34 of `InitPlan`. -/
def rangeTableEState (plannedstmt : PlannedStmt) (es : EState) : EState :=
  { es with es_range_table := plannedstmt.rtable
            es_range_table_array := plannedstmt.rtable
            es_range_table_size := plannedstmt.rtable.length
            es_plannedstmt := some plannedstmt }

/-- The execution state after lines 64-69 of `InitPlan`, `es` being the state before them. -/
def targetsEState (plannedstmt : PlannedStmt) (infos : List ResultRelInfo) (es : EState) :
    EState :=
  { es with
    es_result_relations := some infos
    es_num_result_relations := plannedstmt.resultRelations.length
    es_result_relation_info := none }

/-- The execution state after lines 64-107 of `InitPlan`, `es` being the state before them. -/
def rootsEState (plannedstmt : PlannedStmt) (infos rootInfos : List ResultRelInfo)
    (es : EState) : EState :=
  { targetsEState plannedstmt infos es with
    es_root_result_relations :=
      if plannedstmt.rootResultRelations ≠ [] then some rootInfos else none
    es_num_root_result_relations := plannedstmt.rootResultRelations.length }

/-- A statement that writes the second table, a partition whose root is the first table. -/
def writeStmt : PlannedStmt :=
  { sampleStmt with resultRelations := [2], rootResultRelations := [1] }

/-- An INSERT on the statement with a write target and a partition root, with instrumentation
options 5. -/
def writeQueryMachine : Machine :=
  { queryDesc := { sampleQueryDesc .CMD_INSERT writeStmt with instrument_options := 5 }
    CurrentMemoryContext := 0
    trace := [] }

/-! ## `InitPlan` with the macro `Assert` expanded for either build

The macro `Assert` is not defined in the source files.  A build with assertion checking expands
`Assert(cond)` to a check that raises when `cond` is false; a build without it expands
`Assert(cond)` to nothing.  The definitions of `InitPlan` above are the first expansion.  The
definitions of this section take the build as a parameter: `true` is the build with assertion
checking, `false` the build without.  Apart from the two assertions of lines 181-182 and 210
they are the same code. -/

/-- The macro `Assert(cond)` in a build with or without assertion checking. -/
def AssertWith (assertChecking : Bool) (cond : Bool) (site : AssertSite) : Exec Unit :=
  if assertChecking then Assert cond site else pure ()

/-- Lines 181-184: the assertion on the slot, as the build has it, and the store into
`es_rowmarks`. -/
def storeRowMarkWith (assertChecking : Bool) (erm : ExecRowMark) : Exec Unit := do
  let estate ← getEState
  match estate.es_rowmarks with
  | none => raise .nullPointer
  | some rowmarks =>
      AssertWith assertChecking
        (decide (erm.rti > 0) && decide (erm.rti ≤ estate.es_range_table_size) &&
          (rowmarks[erm.rti - 1]? == some none)) .rowMarkSlot
      modifyEState (fun es =>
        { es with es_rowmarks := some (rowmarks.set (erm.rti - 1) (some erm)) })

@[simp] theorem pure_apply {α : Type} (a : α) (m : Machine) :
    (pure a : Exec α) m = .ok a m := rfl

theorem bind_apply {α β : Type} (x : Exec α) (f : α → Exec β) (m : Machine) :
    (x >>= f) m = match x m with
      | .ok a m1 => f a m1
      | .err e m1 => .err e m1 := rfl

theorem bind_ok {α β : Type} {x : Exec α} {f : α → Exec β} {m m1 : Machine} {a : α}
    (h : x m = .ok a m1) : (x >>= f) m = f a m1 := by
  rw [bind_apply, h]

theorem bind_err {α β : Type} {x : Exec α} {f : α → Exec β} {m m1 : Machine} {e : ExecError}
    (h : x m = .err e m1) : (x >>= f) m = .err e m1 := by
  rw [bind_apply, h]

/-- A sequence succeeds exactly when its first part succeeds and the rest succeeds from there. -/
theorem bind_eq_ok {α β : Type} {x : Exec α} {f : α → Exec β} {m m2 : Machine} {b : β} :
    (x >>= f) m = .ok b m2 ↔ ∃ a m1, x m = .ok a m1 ∧ f a m1 = .ok b m2 := by
  rw [bind_apply]
  cases hx : x m with
  | ok a m1 =>
      constructor
      · intro h
        exact ⟨a, m1, rfl, h⟩
      · rintro ⟨a1, m3, h1, h2⟩
        cases h1
        exact h2
  | err e m1 => simp

/-- A sequence fails exactly when its first part fails, or succeeds and the rest fails. -/
theorem bind_eq_err {α β : Type} {x : Exec α} {f : α → Exec β} {m m2 : Machine}
    {e : ExecError} :
    (x >>= f) m = .err e m2 ↔
      x m = .err e m2 ∨ ∃ a m1, x m = .ok a m1 ∧ f a m1 = .err e m2 := by
  rw [bind_apply]
  cases hx : x m with
  | ok a m1 =>
      constructor
      · intro h
        exact Or.inr ⟨a, m1, rfl, h⟩
      · rintro (h | ⟨a1, m3, h1, h2⟩)
        · cases h
        · cases h1
          exact h2
  | err e1 m1 => simp

theorem silent_frame {R : Machine → Machine → Prop} (hR : FrameRel R) {α : Type}
    {x : Exec α} (hx : Silent x) : Frame R x := by
  intro m
  rw [hx m]
  exact hR.refl m

theorem frame_bind {R : Machine → Machine → Prop} (hR : FrameRel R) {α β : Type}
    {x : Exec α} {f : α → Exec β} (hx : Frame R x) (hf : ∀ a, Frame R (f a)) :
    Frame R (x >>= f) := by
  intro m
  have h1 := hx m
  rw [bind_apply]
  cases hxm : x m with
  | ok a m1 =>
      rw [hxm] at h1
      exact hR.trans _ _ _ h1 (hf a m1)
  | err e m1 =>
      rw [hxm] at h1
      exact h1

theorem frame_ite {R : Machine → Machine → Prop} {α : Type} {p : Prop} [Decidable p]
    {x y : Exec α} (hx : Frame R x) (hy : Frame R y) : Frame R (if p then x else y) := by
  split
  · exact hx
  · exact hy

theorem silent_pure {α : Type} (a : α) : Silent (pure a : Exec α) := fun _ => rfl

theorem silent_raise {α : Type} (e : ExecError) : Silent (raise e : Exec α) := fun _ => rfl

theorem silent_ofExcept {α : Type} (r : Except ExecError α) : Silent (ofExcept r) := by
  intro m
  cases r <;> rfl

theorem silent_Assert (b : Bool) (site : AssertSite) : Silent (Assert b site) := by
  intro m
  cases b <;> rfl

theorem silent_getQueryDesc : Silent getQueryDesc := fun _ => rfl

theorem silent_getEState : Silent getEState := by
  intro m
  unfold getEState
  cases m.queryDesc.estate <;> rfl

theorem frame_pure {R : Machine → Machine → Prop} (hR : FrameRel R) {α : Type} (a : α) :
    Frame R (pure a : Exec α) :=
  silent_frame hR (silent_pure a)

theorem frame_raise {R : Machine → Machine → Prop} (hR : FrameRel R) {α : Type}
    (e : ExecError) : Frame R (raise e : Exec α) :=
  silent_frame hR (silent_raise e)

theorem frame_ofExcept {R : Machine → Machine → Prop} (hR : FrameRel R) {α : Type}
    (r : Except ExecError α) : Frame R (ofExcept r) :=
  silent_frame hR (silent_ofExcept r)

theorem frame_Assert {R : Machine → Machine → Prop} (hR : FrameRel R) (b : Bool)
    (site : AssertSite) : Frame R (Assert b site) :=
  silent_frame hR (silent_Assert b site)

theorem frame_getEState {R : Machine → Machine → Prop} (hR : FrameRel R) :
    Frame R getEState :=
  silent_frame hR silent_getEState

/-! ## Frames of the steps of `InitPlan` and `standard_ExecutorStart`

In this section `R` is a relation that tolerates the calls in `E` and the writes in `F`; each
lemma lists the calls and writes the step can make. -/

section Frames

variable {R : Machine → Machine → Prop} {E : Event → Prop} {F : (EState → EState) → Prop}

theorem frame_callExecGetRangeTableRelation (hT : Tolerant R E F) (c : Env) (rti : Index)
    (h : ∀ r, E (.ExecGetRangeTableRelation rti r)) :
    Frame R (callExecGetRangeTableRelation c rti) := by
  unfold callExecGetRangeTableRelation
  refine frame_bind hT.rel (frame_getEState hT.rel) (fun estate => ?_)
  exact frame_bind hT.rel (hT.onEmit _ (h _)) (fun _ => frame_ofExcept hT.rel _)

theorem frame_callCheckValidRowMarkRel (hT : Tolerant R E F) (c : Env) (rel : Relation)
    (markType : RowMarkType) (h : E (.CheckValidRowMarkRel rel markType)) :
    Frame R (callCheckValidRowMarkRel c rel markType) := by
  unfold callCheckValidRowMarkRel
  exact frame_bind hT.rel (hT.onEmit _ h) (fun _ => frame_ofExcept hT.rel _)

theorem frame_callExecInitNode (hT : Tolerant R E F) (c : Env) (node : Plan) (eflags : Nat)
    (h : ∀ es, E (.ExecInitNode node es eflags)) :
    Frame R (callExecInitNode c node eflags) := by
  unfold callExecInitNode
  refine frame_bind hT.rel (frame_getEState hT.rel) (fun estate => ?_)
  exact frame_bind hT.rel (hT.onEmit _ (h _)) (fun _ => frame_ofExcept hT.rel _)

theorem frame_buildResultRelInfos (hT : Tolerant R E F) (c : Env) (l : List Index)
    (h : ∀ rti ∈ l, (∀ r, E (.ExecGetRangeTableRelation rti r)) ∧ E (.InitResultRelInfo rti)) :
    Frame R (buildResultRelInfos c l) := by
  induction l with
  | nil => exact frame_pure hT.rel _
  | cons rti rest ih =>
      unfold buildResultRelInfos
      have h0 := h rti (List.mem_cons_self _ _)
      refine frame_bind hT.rel (frame_callExecGetRangeTableRelation hT c rti h0.1) (fun rel => ?_)
      refine frame_bind hT.rel (frame_getEState hT.rel) (fun es => ?_)
      refine frame_bind hT.rel (hT.onEmit _ h0.2) (fun _ => ?_)
      refine frame_bind hT.rel (ih (fun r hr => h r (List.mem_cons_of_mem _ hr)))
        (fun infos => ?_)
      exact frame_pure hT.rel _

theorem frame_initResultRelations (hT : Tolerant R E F) (c : Env) (plannedstmt : PlannedStmt)
    (h : plannedstmt.resultRelations ≠ [] →
      ∀ rti, rti ∈ plannedstmt.resultRelations ∨ rti ∈ plannedstmt.rootResultRelations →
        (∀ r, E (.ExecGetRangeTableRelation rti r)) ∧ E (.InitResultRelInfo rti))
    (hF : ∀ f, WriteResultRel f → F f) :
    Frame R (initResultRelations c plannedstmt) := by
  unfold initResultRelations
  by_cases hres : plannedstmt.resultRelations = []
  · simp only [hres, ne_eq, not_true_eq_false, if_false]
    exact hT.onModify _ (hF _ .noTargets)
  · simp only [ne_eq, hres, not_false_eq_true, if_true]
    refine frame_bind hT.rel
      (frame_buildResultRelInfos hT c _ (fun rti hr => h hres rti (Or.inl hr))) (fun infos => ?_)
    refine frame_bind hT.rel (hT.onModify _ (hF _ (.targets _ _))) (fun _ => ?_)
    refine frame_ite ?_ (hT.onModify _ (hF _ .noRoots))
    refine frame_bind hT.rel
      (frame_buildResultRelInfos hT c _ (fun rti hr => h hres rti (Or.inr hr))) (fun infos => ?_)
    exact hT.onModify _ (hF _ (.roots _ _))

theorem frame_exec_rt_fetch (hR : FrameRel R) (rti : Index) : Frame R (exec_rt_fetch rti) := by
  unfold exec_rt_fetch
  refine frame_bind hR (frame_getEState hR) (fun es => ?_)
  refine frame_ite (frame_raise hR _) ?_
  cases es.es_range_table_array[rti - 1]? with
  | none => exact frame_raise hR _
  | some rte => exact frame_pure hR _

theorem frame_openRowMarkRelation (hT : Tolerant R E F) (c : Env) (rc : PlanRowMark)
    (h : ∀ r, E (.ExecGetRangeTableRelation rc.rti r)) :
    Frame R (openRowMarkRelation c rc) := by
  unfold openRowMarkRelation
  have hopen : Frame R
      (callExecGetRangeTableRelation c rc.rti >>= fun relation => pure (some relation)) :=
    frame_bind hT.rel (frame_callExecGetRangeTableRelation hT c rc.rti h)
      (fun _ => frame_pure hT.rel _)
  cases rc.markType with
  | ROW_MARK_COPY => exact frame_pure hT.rel _
  | other code => exact frame_raise hT.rel _
  | _ => exact hopen

theorem frame_storeRowMark (hT : Tolerant R E F) (erm : ExecRowMark)
    (hF : ∀ f, WriteRowMarks f → F f) : Frame R (storeRowMark erm) := by
  unfold storeRowMark
  refine frame_bind hT.rel (frame_getEState hT.rel) (fun es => ?_)
  cases es.es_rowmarks with
  | none => exact frame_raise hT.rel _
  | some rowmarks =>
      exact frame_bind hT.rel (frame_Assert hT.rel _ _)
        (fun _ => hT.onModify _ (hF _ (.store _)))

theorem frame_initRowMark (hT : Tolerant R E F) (c : Env) (rc : PlanRowMark)
    (h : rc.isParent = false →
      (∀ r, E (.ExecGetRangeTableRelation rc.rti r)) ∧
        ∀ rel, E (.CheckValidRowMarkRel rel rc.markType))
    (hF : ∀ f, WriteRowMarks f → F f) :
    Frame R (initRowMark c rc) := by
  unfold initRowMark
  cases hp : rc.isParent with
  | true => exact frame_pure hT.rel _
  | false =>
      simp only [Bool.false_eq_true, if_false]
      have h0 := h hp
      refine frame_bind hT.rel (frame_exec_rt_fetch hT.rel _) (fun rte => ?_)
      refine frame_bind hT.rel (frame_openRowMarkRelation hT c rc h0.1) (fun relation => ?_)
      refine frame_bind hT.rel ?_ (fun _ => frame_storeRowMark hT _ hF)
      unfold checkRowMarkRel
      cases relation with
      | none => exact frame_pure hT.rel _
      | some rel => exact frame_callCheckValidRowMarkRel hT c rel _ (h0.2 rel)

theorem frame_initRowMarks (hT : Tolerant R E F) (c : Env) (l : List PlanRowMark)
    (h : ∀ rc ∈ l, rc.isParent = false →
      (∀ r, E (.ExecGetRangeTableRelation rc.rti r)) ∧
        ∀ rel, E (.CheckValidRowMarkRel rel rc.markType))
    (hF : ∀ f, WriteRowMarks f → F f) :
    Frame R (initRowMarks c l) := by
  induction l with
  | nil => exact frame_pure hT.rel _
  | cons rc rest ih =>
      unfold initRowMarks
      refine frame_bind hT.rel (frame_initRowMark hT c rc (h rc (List.mem_cons_self _ _)) hF)
        (fun _ => ?_)
      exact ih (fun r hr => h r (List.mem_cons_of_mem _ hr))

theorem frame_initRowMarksIfAny (hT : Tolerant R E F) (c : Env) (plannedstmt : PlannedStmt)
    (h : ∀ rc ∈ plannedstmt.rowMarks, rc.isParent = false →
      (∀ r, E (.ExecGetRangeTableRelation rc.rti r)) ∧
        ∀ rel, E (.CheckValidRowMarkRel rel rc.markType))
    (hF : ∀ f, WriteRowMarks f → F f) :
    Frame R (initRowMarksIfAny c plannedstmt) := by
  unfold initRowMarksIfAny
  refine frame_ite ?_ (frame_pure hT.rel _)
  exact frame_bind hT.rel (hT.onModify _ (hF _ .alloc))
    (fun _ => frame_initRowMarks hT c _ h hF)

theorem frame_initSubPlans (hT : Tolerant R E F) (c : Env) (plannedstmt : PlannedStmt)
    (eflags : Nat) (l : List Plan) (i : Nat)
    (h : ∀ node es fl, E (.ExecInitNode node es fl))
    (hF : ∀ f, WriteAux f → F f) :
    Frame R (initSubPlans c plannedstmt eflags l i) := by
  induction l generalizing i with
  | nil => exact frame_pure hT.rel _
  | cons subplan rest ih =>
      unfold initSubPlans
      refine frame_bind hT.rel (frame_callExecInitNode hT c _ _ (fun es => h _ es _))
        (fun st => ?_)
      exact frame_bind hT.rel (hT.onModify _ (hF _ (.subplan st))) (fun _ => ih (i + 1))

theorem frame_ExecInitExtraTupleSlot (hT : Tolerant R E F) (td : Option TupleDesc)
    (h : E .ExecInitExtraTupleSlot) (hF : ∀ f, WriteJunk f → F f) :
    Frame R (ExecInitExtraTupleSlot td) := by
  unfold ExecInitExtraTupleSlot
  refine frame_bind hT.rel (hT.onEmit _ h) (fun _ => ?_)
  refine frame_bind hT.rel (frame_getEState hT.rel) (fun es => ?_)
  exact frame_bind hT.rel (hT.onModify _ (hF _ (.slot _))) (fun _ => frame_pure hT.rel _)

theorem frame_resolveTupType (hT : Tolerant R E F) (operation : CmdType) (plan : Plan)
    (planstate : PlanState) (tupType : TupleDesc)
    (h1 : E .ExecInitExtraTupleSlot) (h2 : E .ExecInitJunkFilter)
    (hF : ∀ f, WriteJunk f → F f) :
    Frame R (resolveTupType operation plan planstate tupType) := by
  unfold resolveTupType
  refine frame_ite (frame_ite ?_ (frame_pure hT.rel _)) (frame_pure hT.rel _)
  refine frame_bind hT.rel (frame_ExecInitExtraTupleSlot hT _ h1 hF) (fun slot => ?_)
  refine frame_bind hT.rel (hT.onEmit _ h2) (fun _ => ?_)
  exact frame_bind hT.rel (hT.onModify _ (hF _ (.filter _))) (fun _ => frame_pure hT.rel _)

theorem frame_InitPlanFromSubPlans (hT : Tolerant R E F) (c : Env) (queryDesc : QueryDesc)
    (eflags : Nat)
    (h : ∀ node es fl, E (.ExecInitNode node es fl))
    (h1 : E .ExecInitExtraTupleSlot) (h2 : E .ExecInitJunkFilter)
    (hF : ∀ f, WriteAux f ∨ WriteJunk f → F f) :
    Frame R (InitPlanFromSubPlans c queryDesc eflags) := by
  unfold InitPlanFromSubPlans
  refine frame_bind hT.rel (frame_getEState hT.rel) (fun es => ?_)
  refine frame_bind hT.rel (frame_Assert hT.rel _ _) (fun _ => ?_)
  refine frame_bind hT.rel
    (frame_initSubPlans hT c _ _ _ _ h (fun f hf => hF f (Or.inl hf))) (fun _ => ?_)
  refine frame_bind hT.rel (frame_callExecInitNode hT c _ _ (fun es => h _ es _))
    (fun planstate => ?_)
  refine frame_bind hT.rel
    (frame_resolveTupType hT _ _ _ _ h1 h2 (fun f hf => hF f (Or.inr hf))) (fun _ => ?_)
  exact frame_pure hT.rel _

theorem frame_InitPlanFromRowMarks (hT : Tolerant R E F) (c : Env) (queryDesc : QueryDesc)
    (eflags : Nat)
    (hE : ∀ e, RowMarksOnwardEvent queryDesc.plannedstmt e → E e)
    (hF : ∀ f, WriteRowMarksOnward f → F f) :
    Frame R (InitPlanFromRowMarks c queryDesc eflags) := by
  unfold InitPlanFromRowMarks
  refine frame_bind hT.rel (frame_initRowMarksIfAny hT c _ ?_ (fun f hf => hF f (Or.inl hf)))
    (fun _ => ?_)
  · intro rc hrc hp
    exact ⟨fun r => hE _ ⟨rc, hrc, hp, rfl⟩, fun rel => hE _ ⟨rc, hrc, hp, rfl⟩⟩
  refine frame_bind hT.rel (hT.onModify _ (hF _ (Or.inr (Or.inl .reset)))) (fun _ => ?_)
  exact frame_InitPlanFromSubPlans hT c queryDesc eflags (fun _ _ _ => hE _ trivial)
    (hE _ trivial) (hE _ trivial) (fun f hf => hF f (Or.inr hf))

theorem rowMarksOnwardEvent_initPlanEvent (stmt : PlannedStmt) (e : Event)
    (h : RowMarksOnwardEvent stmt e) : InitPlanEvent stmt e := by
  cases e <;> first | exact h | exact Or.inr h | trivial

theorem frame_ExecInitRangeTable (hT : Tolerant R E F) (rangeTable : List RangeTblEntry)
    (h : E .ExecInitRangeTable) (hF : ∀ f, WriteRangeTable f → F f) :
    Frame R (ExecInitRangeTable rangeTable) := by
  unfold ExecInitRangeTable
  exact frame_bind hT.rel (hT.onEmit _ h) (fun _ => hT.onModify _ (hF _ (.table _)))

theorem frame_InitPlanAfterPermissions (hT : Tolerant R E F) (c : Env) (queryDesc : QueryDesc)
    (eflags : Nat)
    (hE : ∀ e, InitPlanEvent queryDesc.plannedstmt e → E e)
    (hF : ∀ f, InitPlanWrite f → F f) :
    Frame R (InitPlanAfterPermissions c queryDesc eflags) := by
  unfold InitPlanAfterPermissions
  refine frame_bind hT.rel ?_ (fun _ => ?_)
  · unfold ExecInitRangeTable
    exact frame_bind hT.rel (hT.onEmit _ (hE _ trivial))
      (fun _ => hT.onModify _ (hF _ (Or.inl (.table _))))
  refine frame_bind hT.rel (hT.onModify _ (hF _ (Or.inl (.stmt _)))) (fun _ => ?_)
  refine frame_bind hT.rel
    (frame_initResultRelations hT c _ ?_ (fun f hf => hF f (Or.inr (Or.inl hf)))) (fun _ => ?_)
  · intro hne rti hr
    exact ⟨fun r => hE _ (Or.inl ⟨hne, hr⟩), hE _ ⟨hne, hr⟩⟩
  exact frame_InitPlanFromRowMarks hT c queryDesc eflags
    (fun e he => hE e (rowMarksOnwardEvent_initPlanEvent _ e he))
    (fun f hf => hF f (Or.inr (Or.inr hf)))

theorem frame_InitPlanSteps (hT : Tolerant R E F) (c : Env) (queryDesc : QueryDesc)
    (eflags : Nat)
    (hE : ∀ e, InitPlanEvent queryDesc.plannedstmt e → E e)
    (hF : ∀ f, InitPlanWrite f → F f) :
    Frame R (InitPlanSteps c queryDesc eflags) := by
  unfold InitPlanSteps
  refine frame_bind hT.rel (hT.onEmit _ (hE _ trivial)) (fun _ => ?_)
  refine frame_bind hT.rel (frame_ofExcept hT.rel _) (fun _ => ?_)
  exact frame_InitPlanAfterPermissions hT c queryDesc eflags hE hF

theorem frame_callGetCurrentCommandId (hT : Tolerant R E F) (c : Env) (used : Bool)
    (h : ∀ cid, E (.GetCurrentCommandId cid)) :
    Frame R (callGetCurrentCommandId c used) := by
  unfold callGetCurrentCommandId
  exact frame_bind hT.rel (hT.onEmit _ (h _)) (fun _ => frame_pure hT.rel _)

theorem frame_callRegisterSnapshot (hT : Tolerant R E F) (c : Env)
    (snapshot : Option Snapshot) (h : ∀ s r, E (.RegisterSnapshot s r)) :
    Frame R (callRegisterSnapshot c snapshot) := by
  unfold callRegisterSnapshot
  exact frame_bind hT.rel (hT.onEmit _ (h _ _)) (fun _ => frame_pure hT.rel _)

theorem frame_setOutputCid (hT : Tolerant R E F) (c : Env)
    (h : ∀ cid, E (.GetCurrentCommandId cid)) (hF : ∀ f, WriteCid f → F f) :
    Frame R (setOutputCid c) := by
  unfold setOutputCid
  exact frame_bind hT.rel (frame_callGetCurrentCommandId hT c _ h)
    (fun _ => hT.onModify _ (hF _ (.cid _)))

theorem frame_commandIdPolicy (hT : Tolerant R E F) (c : Env) (queryDesc : QueryDesc)
    (eflags : Nat) (h : ∀ cid, E (.GetCurrentCommandId cid)) (hF : ∀ f, WriteCid f → F f) :
    Frame R (commandIdPolicy c queryDesc eflags) := by
  unfold commandIdPolicy
  have hset : Frame R (setOutputCid c >>= fun _ => (pure eflags : Exec Nat)) :=
    frame_bind hT.rel (frame_setOutputCid hT c h hF) (fun _ => frame_pure hT.rel _)
  cases queryDesc.operation with
  | CMD_SELECT =>
      refine frame_bind hT.rel ?_
        (fun _ => frame_ite (frame_pure hT.rel _) (frame_pure hT.rel _))
      unfold selectOutputCid
      exact frame_ite (frame_setOutputCid hT c h hF) (frame_pure hT.rel _)
  | other code => exact frame_raise hT.rel _
  | _ => exact hset

theorem frame_fillParameters (hT : Tolerant R E F) (queryDesc : QueryDesc)
    (hF : ∀ f, WriteParams f → F f) : Frame R (fillParameters queryDesc) := by
  unfold fillParameters
  refine frame_bind hT.rel (hT.onModify _ (hF _ (.params _))) (fun _ => ?_)
  refine frame_bind hT.rel ?_ (fun _ => ?_)
  · unfold allocParamExecVals
    exact frame_ite (hT.onModify _ (hF _ (.execVals _))) (frame_pure hT.rel _)
  exact frame_bind hT.rel (hT.onModify _ (hF _ (.sourceText _)))
    (fun _ => hT.onModify _ (hF _ (.queryEnv _)))

theorem frame_copyIntoEState (hT : Tolerant R E F) (c : Env) (queryDesc : QueryDesc)
    (eflags : Nat) (h : ∀ s r, E (.RegisterSnapshot s r)) (hF : ∀ f, WriteCopy f → F f) :
    Frame R (copyIntoEState c queryDesc eflags) := by
  unfold copyIntoEState
  refine frame_bind hT.rel (frame_callRegisterSnapshot hT c _ h) (fun _ => ?_)
  refine frame_bind hT.rel (hT.onModify _ (hF _ (.snapshot _))) (fun _ => ?_)
  refine frame_bind hT.rel (frame_callRegisterSnapshot hT c _ h) (fun _ => ?_)
  exact frame_bind hT.rel (hT.onModify _ (hF _ (.crosscheck _)))
    (fun _ => hT.onModify _ (hF _ (.flags _ _ _)))

theorem frame_beginTriggerContext (hT : Tolerant R E F) (c : Env) (eflags : Nat)
    (h : E .AfterTriggerBeginQuery) : Frame R (beginTriggerContext c eflags) := by
  unfold beginTriggerContext
  exact frame_ite (hT.onEmit _ h) (frame_pure hT.rel _)

end Frames

section Frames

variable {R : Machine → Machine → Prop} {E : Event → Prop} {F : (EState → EState) → Prop}

theorem frame_InitPlan (hT : Tolerant R E F) (c : Env) (eflags : Nat)
    (hstore : ∀ td ps, Frame R (modifyQueryDesc (fun qd =>
      { qd with tupDesc := some td, planstate := some ps })))
    (hE : ∀ stmt e, InitPlanEvent stmt e → E e)
    (hF : ∀ f, InitPlanWrite f → F f) :
    Frame R (InitPlan c eflags) := by
  intro m
  have h : InitPlan c eflags m =
      (InitPlanSteps c m.queryDesc eflags >>= fun r =>
        modifyQueryDesc (fun qd => { qd with tupDesc := some r.2, planstate := some r.1 })) m :=
    rfl
  rw [h]
  exact frame_bind hT.rel (frame_InitPlanSteps hT c m.queryDesc eflags (hE _) hF)
    (fun r => hstore r.2 r.1) m

theorem frame_startAfterCreate (hT : Tolerant R E F) (c : Env) (queryDesc : QueryDesc)
    (eflags : Nat)
    (hstore : ∀ td ps, Frame R (modifyQueryDesc (fun qd =>
      { qd with tupDesc := some td, planstate := some ps })))
    (hE1 : ∀ e, StartEvent e → E e)
    (hE2 : ∀ stmt e, InitPlanEvent stmt e → E e)
    (hF1 : ∀ f, WriteParams f ∨ WriteCid f ∨ WriteCopy f → F f)
    (hF2 : ∀ f, InitPlanWrite f → F f) (oldcontext : MemoryContext) :
    Frame R (fillParameters queryDesc >>= fun _ =>
      commandIdPolicy c queryDesc eflags >>= fun eflags1 =>
        copyIntoEState c queryDesc eflags1 >>= fun _ =>
          beginTriggerContext c eflags1 >>= fun _ =>
            InitPlan c eflags1 >>= fun _ => (pure oldcontext : Exec MemoryContext)) := by
  refine frame_bind hT.rel (frame_fillParameters hT _ (fun f hf => hF1 f (Or.inl hf)))
    (fun _ => ?_)
  refine frame_bind hT.rel
    (frame_commandIdPolicy hT c _ _ (fun _ => hE1 _ trivial)
      (fun f hf => hF1 f (Or.inr (Or.inl hf)))) (fun eflags1 => ?_)
  refine frame_bind hT.rel
    (frame_copyIntoEState hT c _ _ (fun _ _ => hE1 _ trivial)
      (fun f hf => hF1 f (Or.inr (Or.inr hf)))) (fun _ => ?_)
  refine frame_bind hT.rel (frame_beginTriggerContext hT c _ (hE1 _ trivial)) (fun _ => ?_)
  exact frame_bind hT.rel (frame_InitPlan hT c _ hstore hE2 hF2) (fun _ => frame_pure hT.rel _)

theorem frame_startAfterGuard (hT : Tolerant R E F) (c : Env) (queryDesc : QueryDesc)
    (eflags : Nat)
    (hcreate : Frame R (createEState c))
    (hstore : ∀ td ps, Frame R (modifyQueryDesc (fun qd =>
      { qd with tupDesc := some td, planstate := some ps })))
    (hE1 : ∀ e, StartEvent e → E e)
    (hE2 : ∀ stmt e, InitPlanEvent stmt e → E e)
    (hF1 : ∀ f, WriteParams f ∨ WriteCid f ∨ WriteCopy f → F f)
    (hF2 : ∀ f, InitPlanWrite f → F f) :
    Frame R (startAfterGuard c queryDesc eflags) := by
  unfold startAfterGuard
  exact frame_bind hT.rel hcreate
    (fun oldcontext => frame_startAfterCreate hT c queryDesc eflags hstore hE1 hE2 hF1 hF2 _)

end Frames

/-! ## The three relations used below -/

theorem traceRel_frameRel (Q : Event → Prop) : FrameRel (TraceRel Q) where
  refl := fun m => ⟨[], by simp, by simp⟩
  trans := by
    rintro m1 m2 m3 ⟨l1, h1, q1⟩ ⟨l2, h2, q2⟩
    refine ⟨l1 ++ l2, by rw [h2, h1, List.append_assoc], ?_⟩
    intro e he
    rcases List.mem_append.1 he with h | h
    · exact q1 e h
    · exact q2 e h

theorem traceRel_mono {Q Q1 : Event → Prop} (h : ∀ e, Q e → Q1 e) {m m1 : Machine}
    (hr : TraceRel Q m m1) : TraceRel Q1 m m1 := by
  obtain ⟨l, h1, h2⟩ := hr
  exact ⟨l, h1, fun e he => h e (h2 e he)⟩

theorem modifyEState_trace (f : EState → EState) (m : Machine) :
    (modifyEState f m).machine.trace = m.trace := by
  unfold modifyEState
  cases m.queryDesc.estate <;> rfl

theorem tolerant_trace (Q : Event → Prop) : Tolerant (TraceRel Q) Q (fun _ => True) where
  rel := traceRel_frameRel Q
  onEmit := fun ev h m => ⟨[ev], rfl, by simpa using h⟩
  onModify := fun f _ m => ⟨[], by simp [modifyEState_trace], by simp⟩

theorem trace_createEState (Q : Event → Prop) (c : Env) (h : Q .CreateExecutorState) :
    Frame (TraceRel Q) (createEState c) :=
  fun m => ⟨[.CreateExecutorState], rfl, by simpa using h⟩

theorem trace_modifyQueryDesc (Q : Event → Prop) (f : QueryDesc → QueryDesc) :
    Frame (TraceRel Q) (modifyQueryDesc f) :=
  fun m => ⟨[], by simp [modifyQueryDesc, Res.machine], by simp⟩

theorem trace_MemoryContextSwitchTo (Q : Event → Prop) (cxt : MemoryContext) :
    Frame (TraceRel Q) (MemoryContextSwitchTo cxt) :=
  fun m => ⟨[], by simp [MemoryContextSwitchTo, Res.machine], by simp⟩

theorem keepsField_frameRel {β : Type} (g : EState → β) : FrameRel (KeepsField g) where
  refl := fun _ => rfl
  trans := fun _ _ _ h1 h2 => h2.trans h1

theorem tolerant_keepsField {β : Type} (g : EState → β) :
    Tolerant (KeepsField g) (fun _ => True) (fun f => ∀ es, g (f es) = g es) where
  rel := keepsField_frameRel g
  onEmit := fun _ _ _ => rfl
  onModify := by
    intro f hf m
    unfold KeepsField modifyEState
    cases h : m.queryDesc.estate with
    | none => simp [Res.machine, h]
    | some es => simp [Res.machine, hf es]

theorem keepsField_modifyQueryDesc {β : Type} (g : EState → β) (f : QueryDesc → QueryDesc)
    (hf : ∀ qd, (f qd).estate = qd.estate) : Frame (KeepsField g) (modifyQueryDesc f) := by
  intro m
  unfold KeepsField modifyQueryDesc
  simp [Res.machine, hf]

theorem keepsField_MemoryContextSwitchTo {β : Type} (g : EState → β) (cxt : MemoryContext) :
    Frame (KeepsField g) (MemoryContextSwitchTo cxt) :=
  fun _ => rfl

theorem keepsResults_frameRel : FrameRel KeepsResults where
  refl := fun _ => ⟨rfl, rfl⟩
  trans := fun _ _ _ h1 h2 => ⟨h2.1.trans h1.1, h2.2.trans h1.2⟩

theorem tolerant_keepsResults : Tolerant KeepsResults (fun _ => True) (fun _ => True) where
  rel := keepsResults_frameRel
  onEmit := fun _ _ _ => ⟨rfl, rfl⟩
  onModify := by
    intro f _ m
    unfold KeepsResults modifyEState
    cases h : m.queryDesc.estate with
    | none => simp [Res.machine]
    | some es => simp [Res.machine]

/-- The calls `InitPlan` appends to the log are calls it can make for the planned statement of
the query descriptor. -/
theorem trace_InitPlan (c : Env) (eflags : Nat) (m : Machine) :
    TraceRel (InitPlanEvent m.queryDesc.plannedstmt) m (InitPlan c eflags m).machine := by
  have h : InitPlan c eflags m =
      (InitPlanSteps c m.queryDesc eflags >>= fun r =>
        modifyQueryDesc (fun qd => { qd with tupDesc := some r.2, planstate := some r.1 })) m :=
    rfl
  rw [h]
  exact frame_bind (traceRel_frameRel _)
    (frame_InitPlanSteps (tolerant_trace _) c m.queryDesc eflags (fun _ he => he)
      (fun _ _ => trivial))
    (fun r => trace_modifyQueryDesc _ _) m

/-! ## Unfolding `standard_ExecutorStart` -/

/-- Unfolding of `standard_ExecutorStart` on a query descriptor that has not been started. -/
theorem standard_ExecutorStart_eq (c : Env) (eflags : Nat) (m : Machine)
    (hstart : m.queryDesc.estate = none) :
    standard_ExecutorStart c eflags m =
      (transactionModeGuard c m.queryDesc eflags >>= fun _ =>
        startAfterGuard c m.queryDesc eflags >>= fun oldcontext =>
          MemoryContextSwitchTo oldcontext >>= fun _ => pure ()) m := by
  show (getQueryDesc >>= fun queryDesc =>
      Assert queryDesc.estate.isNone .estateIsNull >>= fun _ =>
        transactionModeGuard c queryDesc eflags >>= fun _ =>
          startAfterGuard c queryDesc eflags >>= fun oldcontext =>
            MemoryContextSwitchTo oldcontext >>= fun _ => pure ()) m = _
  rw [bind_ok (show getQueryDesc m = .ok m.queryDesc m from rfl)]
  rw [bind_ok (show Assert m.queryDesc.estate.isNone .estateIsNull m = .ok () m by
    rw [hstart]; rfl)]

/-- A query descriptor that has been started already fails the entry assertion. -/
theorem standard_ExecutorStart_started (c : Env) (eflags : Nat) (m : Machine) (es : EState)
    (hstart : m.queryDesc.estate = some es) :
    standard_ExecutorStart c eflags m = .err (.assertion .estateIsNull) m := by
  show (getQueryDesc >>= fun queryDesc =>
      Assert queryDesc.estate.isNone .estateIsNull >>= fun _ =>
        transactionModeGuard c queryDesc eflags >>= fun _ =>
          startAfterGuard c queryDesc eflags >>= fun oldcontext =>
            MemoryContextSwitchTo oldcontext >>= fun _ => pure ()) m = _
  rw [bind_ok (show getQueryDesc m = .ok m.queryDesc m from rfl)]
  exact bind_err (by rw [hstart]; rfl)

/-- The transaction-mode guard when it is consulted and rejects the statement. -/
theorem transactionModeGuard_rejects (c : Env) (queryDesc : QueryDesc) (eflags : Nat)
    (m : Machine)
    (hmode : c.XactReadOnly = true ∨ c.IsInParallelMode = true)
    (hexplain : eflags &&& c.EXEC_FLAG_EXPLAIN_ONLY = 0)
    (hwrite : ∃ rte ∈ queryDesc.plannedstmt.rtable,
      rte.requiresWrite = true ∧ rte.isTempTable = false) :
    transactionModeGuard c queryDesc eflags m =
      .err .readOnlyViolation { m with trace := m.trace ++ [.ExecCheckXactReadOnly] } := by
  have hcond : ((c.XactReadOnly || c.IsInParallelMode) &&
      (eflags &&& c.EXEC_FLAG_EXPLAIN_ONLY == 0)) = true := by
    rcases hmode with h | h <;> simp [h, hexplain]
  have hany : queryDesc.plannedstmt.rtable.any
      (fun rte => rte.requiresWrite && !rte.isTempTable) = true := by
    obtain ⟨rte, hmem, hw, ht⟩ := hwrite
    exact List.any_eq_true.2 ⟨rte, hmem, by simp [hw, ht]⟩
  unfold transactionModeGuard
  rw [if_pos hcond]
  rw [bind_ok (show emit .ExecCheckXactReadOnly m =
    .ok () { m with trace := m.trace ++ [.ExecCheckXactReadOnly] } from rfl)]
  unfold ExecCheckXactReadOnly
  rw [if_pos hany]
  rfl

/-- The transaction-mode guard when it is not consulted. -/
theorem transactionModeGuard_skipped (c : Env) (queryDesc : QueryDesc) (eflags : Nat)
    (m : Machine)
    (h : eflags &&& c.EXEC_FLAG_EXPLAIN_ONLY ≠ 0 ∨
      (c.XactReadOnly = false ∧ c.IsInParallelMode = false)) :
    transactionModeGuard c queryDesc eflags m = .ok () m := by
  have hcond : ¬ ((c.XactReadOnly || c.IsInParallelMode) &&
      (eflags &&& c.EXEC_FLAG_EXPLAIN_ONLY == 0)) = true := by
    rcases h with h | ⟨h1, h2⟩
    · simp [h]
    · simp [h1, h2]
  unfold transactionModeGuard
  rw [if_neg hcond]
  rfl

theorem initPlanEvent_ne_guard (stmt : PlannedStmt) (e : Event) (h : InitPlanEvent stmt e) :
    e ≠ .ExecCheckXactReadOnly := by
  intro he
  subst he
  exact h

theorem startEvent_ne_guard (e : Event) (h : StartEvent e) :
    e ≠ .ExecCheckXactReadOnly := by
  intro he
  subst he
  exact h

/-! ## C1: the transaction-mode guard -/

/-- C1: on a query descriptor that has not been started and whose planned statement writes to a
non-temporary table, `standard_ExecutorStart` fails with the read-only violation whenever the
transaction is read-only or the process is in parallel mode and `eflags` does not carry
`EXEC_FLAG_EXPLAIN_ONLY`; the machine it leaves differs from the initial one only by the guard
call in the log, so the execution state has not been created and no table has been opened.
When `EXEC_FLAG_EXPLAIN_ONLY` is set, or neither mode holds, the guard is not called. -/
theorem C1_transaction_mode_guard (c : Env) (eflags : Nat) (m : Machine)
    (hstart : m.queryDesc.estate = none) :
    ((c.XactReadOnly = true ∨ c.IsInParallelMode = true) →
      eflags &&& c.EXEC_FLAG_EXPLAIN_ONLY = 0 →
      (∃ rte ∈ m.queryDesc.plannedstmt.rtable,
        rte.requiresWrite = true ∧ rte.isTempTable = false) →
      standard_ExecutorStart c eflags m =
        .err .readOnlyViolation { m with trace := m.trace ++ [.ExecCheckXactReadOnly] }) ∧
    ((eflags &&& c.EXEC_FLAG_EXPLAIN_ONLY ≠ 0 ∨
        (c.XactReadOnly = false ∧ c.IsInParallelMode = false)) →
      ∃ l, (standard_ExecutorStart c eflags m).machine.trace = m.trace ++ l ∧
        Event.ExecCheckXactReadOnly ∉ l) := by
  constructor
  · intro hmode hexplain hwrite
    rw [standard_ExecutorStart_eq c eflags m hstart]
    exact bind_err (transactionModeGuard_rejects c m.queryDesc eflags m hmode hexplain hwrite)
  · intro hskip
    rw [standard_ExecutorStart_eq c eflags m hstart]
    rw [bind_ok (transactionModeGuard_skipped c m.queryDesc eflags m hskip)]
    have hframe : Frame (TraceRel (fun e => e ≠ .ExecCheckXactReadOnly))
        (startAfterGuard c m.queryDesc eflags >>= fun oldcontext =>
          MemoryContextSwitchTo oldcontext >>= fun _ => (pure () : Exec Unit)) := by
      refine frame_bind (traceRel_frameRel _)
        (frame_startAfterGuard (tolerant_trace _) c _ _ (trace_createEState _ c (by simp))
          (fun _ _ => trace_modifyQueryDesc _ _) startEvent_ne_guard initPlanEvent_ne_guard
          (fun _ _ => trivial) (fun _ _ => trivial)) (fun oldcontext => ?_)
      exact frame_bind (traceRel_frameRel _) (trace_MemoryContextSwitchTo _ _)
        (fun _ => frame_pure (traceRel_frameRel _) _)
    obtain ⟨l, hl, hq⟩ := hframe m
    exact ⟨l, hl, fun hmem => hq _ hmem rfl⟩

/-- C1 at sample inputs: an INSERT-like statement in a read-only transaction is rejected, and
with the explain-only flag the guard is not called. -/
theorem C1_transaction_mode_guard_witness :
    standard_ExecutorStart readOnlyEnv 0 (sampleMachine .CMD_INSERT sampleStmt) =
        .err .readOnlyViolation
          { sampleMachine .CMD_INSERT sampleStmt with trace := [.ExecCheckXactReadOnly] } ∧
      ∃ l, (standard_ExecutorStart readOnlyEnv 1
          (sampleMachine .CMD_INSERT sampleStmt)).machine.trace = [] ++ l ∧
        Event.ExecCheckXactReadOnly ∉ l :=
  ⟨(C1_transaction_mode_guard readOnlyEnv 0 (sampleMachine .CMD_INSERT sampleStmt) rfl).1
      (Or.inl rfl) (by decide)
      ⟨{ relid := 11, requiresWrite := true, isTempTable := false }, by decide, rfl, rfl⟩,
    (C1_transaction_mode_guard readOnlyEnv 1 (sampleMachine .CMD_INSERT sampleStmt) rfl).2
      (Or.inl (by decide))⟩

/-! ## C2: the permission check comes first -/

/-- C2: the first call `InitPlan` makes is the permission check on the range table, and when
that check fails `InitPlan` fails with the same error, leaving the machine as it was apart from
the permission check in the log: no table has been opened, no descriptor has been built and the
node initializer has not been called. -/
theorem C2_permission_check_first (c : Env) (eflags : Nat) (m : Machine) :
    (∃ l, (InitPlan c eflags m).machine.trace = m.trace ++ Event.ExecCheckRTPerms :: l) ∧
    (∀ e, c.ExecCheckRTPerms m.queryDesc.plannedstmt.rtable true = .error e →
      InitPlan c eflags m =
        .err e { m with trace := m.trace ++ [.ExecCheckRTPerms] }) := by
  have hunfold : InitPlan c eflags m =
      (InitPlanSteps c m.queryDesc eflags >>= fun r =>
        modifyQueryDesc (fun qd =>
          { qd with tupDesc := some r.2, planstate := some r.1 })) m := rfl
  have hemit : emit .ExecCheckRTPerms m =
      .ok () { m with trace := m.trace ++ [.ExecCheckRTPerms] } := rfl
  have hsteps : InitPlanSteps c m.queryDesc eflags m =
      (ofExcept (c.ExecCheckRTPerms m.queryDesc.plannedstmt.rtable true) >>= fun _ =>
        InitPlanAfterPermissions c m.queryDesc eflags)
        { m with trace := m.trace ++ [.ExecCheckRTPerms] } := by
    unfold InitPlanSteps
    rw [bind_ok hemit]
  constructor
  · cases hperm : c.ExecCheckRTPerms m.queryDesc.plannedstmt.rtable true with
    | error e =>
        refine ⟨[], ?_⟩
        have herr : InitPlanSteps c m.queryDesc eflags m =
            .err e { m with trace := m.trace ++ [.ExecCheckRTPerms] } := by
          rw [hsteps, hperm]
          rfl
        rw [hunfold, bind_err herr]
        rfl
    | ok u =>
        have hrest : InitPlan c eflags m =
            (InitPlanAfterPermissions c m.queryDesc eflags >>= fun r =>
              modifyQueryDesc (fun qd =>
                { qd with tupDesc := some r.2, planstate := some r.1 }))
              { m with trace := m.trace ++ [.ExecCheckRTPerms] } := by
          rw [hunfold, bind_apply, hsteps, hperm]
          rfl
        have hframe : Frame (TraceRel (fun _ => True))
            (InitPlanAfterPermissions c m.queryDesc eflags >>= fun r =>
              modifyQueryDesc (fun qd =>
                { qd with tupDesc := some r.2, planstate := some r.1 })) :=
          frame_bind (traceRel_frameRel _)
            (frame_InitPlanAfterPermissions (tolerant_trace _) c m.queryDesc eflags
              (fun _ _ => trivial) (fun _ _ => trivial))
            (fun r => trace_modifyQueryDesc _ _)
        obtain ⟨l, hl, -⟩ := hframe { m with trace := m.trace ++ [.ExecCheckRTPerms] }
        refine ⟨l, ?_⟩
        rw [hrest, hl]
        simp
  · intro e he
    rw [hunfold]
    refine bind_err ?_
    rw [hsteps, he]
    rfl

/-- C2 at a sample input: a refusing permission check makes `InitPlan` fail at once. -/
theorem C2_permission_check_first_witness :
    InitPlan noPermissionEnv 0 (sampleMachine .CMD_SELECT sampleStmt) =
      .err (.collaborator 1)
        { sampleMachine .CMD_SELECT sampleStmt with trace := [.ExecCheckRTPerms] } :=
  (C2_permission_check_first noPermissionEnv 0 (sampleMachine .CMD_SELECT sampleStmt)).2
    (.collaborator 1) rfl

/-! ## The row-mark loop -/

theorem silent_ok {α : Type} {x : Exec α} (hx : Silent x) {m m1 : Machine} {a : α}
    (h : x m = .ok a m1) : m1 = m := by
  have := hx m
  rw [h] at this
  exact this

theorem silent_exec_rt_fetch (rti : Index) : Silent (exec_rt_fetch rti) := by
  intro m
  unfold exec_rt_fetch
  rw [bind_apply]
  unfold getEState
  cases m.queryDesc.estate with
  | none => rfl
  | some es =>
      simp only []
      split
      · rfl
      · cases es.es_range_table_array[rti - 1]? <;> rfl

theorem callExecGetRangeTableRelation_ok (c : Env) (rti : Index) (m m1 : Machine)
    (rel : Relation) (h : callExecGetRangeTableRelation c rti m = .ok rel m1) :
    ∃ es, m.queryDesc.estate = some es ∧ c.ExecGetRangeTableRelation es rti = .ok rel ∧
      m1 = { m with trace := m.trace ++ [.ExecGetRangeTableRelation rti (some rel)] } := by
  unfold callExecGetRangeTableRelation at h
  obtain ⟨es, m2, h1, h2⟩ := bind_eq_ok.1 h
  unfold getEState at h1
  cases hes : m.queryDesc.estate with
  | none => rw [hes] at h1; cases h1
  | some es0 =>
      rw [hes] at h1
      cases h1
      obtain ⟨u, m3, h3, h4⟩ := bind_eq_ok.1 h2
      cases h3
      cases hr : c.ExecGetRangeTableRelation es rti with
      | error e => rw [hr] at h4; cases h4
      | ok r =>
          rw [hr] at h4
          cases h4
          exact ⟨es, rfl, hr, rfl⟩

theorem openRowMarkRelation_ok (c : Env) (rc : PlanRowMark) (m m1 : Machine)
    (relation : Option Relation) (h : openRowMarkRelation c rc m = .ok relation m1) :
    m1.queryDesc = m.queryDesc ∧
      ∃ evs, m1.trace = m.trace ++ evs ∧ RelationFor rc evs relation := by
  have hopen : ∀ (hmt : ∀ code, rc.markType ≠ .other code) (hc : rc.markType ≠ .ROW_MARK_COPY),
      (callExecGetRangeTableRelation c rc.rti >>= fun relation =>
        (pure (some relation) : Exec (Option Relation))) m = .ok relation m1 →
      m1.queryDesc = m.queryDesc ∧
        ∃ evs, m1.trace = m.trace ++ evs ∧ RelationFor rc evs relation := by
    intro hmt hc h1
    obtain ⟨rel, m2, h2, h3⟩ := bind_eq_ok.1 h1
    obtain ⟨es, -, -, hm2⟩ := callExecGetRangeTableRelation_ok c rc.rti m m2 rel h2
    cases h3
    subst hm2
    refine ⟨rfl, [.ExecGetRangeTableRelation rc.rti (some rel)], rfl, ?_⟩
    unfold RelationFor
    split
    · exact absurd ‹_› hc
    · exact absurd ‹_› (hmt _)
    · exact ⟨rel, rfl, by simp⟩
  unfold openRowMarkRelation at h
  cases hmt : rc.markType with
  | ROW_MARK_COPY =>
      rw [hmt] at h
      cases h
      exact ⟨rfl, [], by simp, by simp [RelationFor, hmt]⟩
  | other code =>
      rw [hmt] at h
      cases h
  | _ =>
      rw [hmt] at h
      exact hopen (by simp [hmt]) (by simp [hmt]) h

theorem onlyLogs_frameRel : FrameRel OnlyLogs where
  refl := fun _ => ⟨rfl, [], by simp⟩
  trans := by
    rintro m1 m2 m3 ⟨h1, l1, t1⟩ ⟨h2, l2, t2⟩
    exact ⟨h2.trans h1, l1 ++ l2, by rw [t2, t1, List.append_assoc]⟩

theorem tolerant_onlyLogs : Tolerant OnlyLogs (fun _ => True) (fun _ => False) where
  rel := onlyLogs_frameRel
  onEmit := fun ev _ _ => ⟨rfl, [ev], rfl⟩
  onModify := fun _ hf => absurd hf id

theorem checkRowMarkRel_ok (c : Env) (relation : Option Relation) (markType : RowMarkType)
    (m m1 : Machine) (h : checkRowMarkRel c relation markType m = .ok () m1) :
    OnlyLogs m m1 := by
  have hframe : Frame OnlyLogs (checkRowMarkRel c relation markType) := by
    unfold checkRowMarkRel
    cases relation with
    | none => exact frame_pure onlyLogs_frameRel _
    | some rel => exact frame_callCheckValidRowMarkRel tolerant_onlyLogs c rel _ trivial
  have := hframe m
  rw [h] at this
  exact this

theorem storeRowMark_ok (erm : ExecRowMark) (m m1 : Machine) (es : EState)
    (arr : List (Option ExecRowMark))
    (hes : m.queryDesc.estate = some es) (harr : es.es_rowmarks = some arr)
    (h : storeRowMark erm m = .ok () m1) :
    0 < erm.rti ∧ erm.rti ≤ es.es_range_table_size ∧ arr[erm.rti - 1]? = some none ∧
      m1 = { m with queryDesc := { m.queryDesc with
        estate := some { es with es_rowmarks := some (arr.set (erm.rti - 1) (some erm)) } } } := by
  unfold storeRowMark at h
  rw [bind_ok (show getEState m = .ok es m by unfold getEState; rw [hes])] at h
  simp only [harr] at h
  obtain ⟨u, m2, h1, h2⟩ := bind_eq_ok.1 h
  unfold Assert at h1
  split at h1
  · rename_i hcond
    cases h1
    unfold modifyEState at h2
    rw [hes] at h2
    cases h2
    simp only [Bool.and_eq_true, decide_eq_true_eq, beq_iff_eq] at hcond
    exact ⟨hcond.1.1, hcond.1.2, hcond.2, rfl⟩
  · cases h1

theorem initRowMark_ok (c : Env) (rc : PlanRowMark) (m m1 : Machine) (es : EState)
    (arr : List (Option ExecRowMark))
    (hes : m.queryDesc.estate = some es) (harr : es.es_rowmarks = some arr)
    (h : initRowMark c rc m = .ok () m1) :
    ∃ arr1 evs, m1.queryDesc.estate = some { es with es_rowmarks := some arr1 } ∧
      m1.trace = m.trace ++ evs ∧
      (rc.isParent = true → arr1 = arr) ∧
      (rc.isParent = false →
        0 < rc.rti ∧ rc.rti ≤ es.es_range_table_size ∧ arr[rc.rti - 1]? = some none ∧
          ∃ erm, arr1 = arr.set (rc.rti - 1) (some erm) ∧ DescriptorFor rc evs erm) := by
  unfold initRowMark at h
  cases hp : rc.isParent with
  | true =>
      rw [hp] at h
      cases h
      refine ⟨arr, [], ?_, by simp, fun _ => rfl, fun hf => by cases hf⟩
      rw [hes, ← harr]
  | false =>
      rw [hp] at h
      simp only [Bool.false_eq_true, if_false] at h
      obtain ⟨rte, m2, h1, h2⟩ := bind_eq_ok.1 h
      have hm2 := silent_ok (silent_exec_rt_fetch rc.rti) h1
      subst hm2
      obtain ⟨relation, m3, h3, h4⟩ := bind_eq_ok.1 h2
      obtain ⟨hq3, evs1, ht3, hrel⟩ := openRowMarkRelation_ok c rc _ m3 relation h3
      obtain ⟨u, m4, h5, h6⟩ := bind_eq_ok.1 h4
      obtain ⟨hq4, evs2, ht4⟩ := checkRowMarkRel_ok c relation rc.markType m3 m4 h5
      have hes4 : m4.queryDesc.estate = some es := by rw [hq4, hq3, hes]
      obtain ⟨hpos, hle, hget, hm1⟩ :=
        storeRowMark_ok (newExecRowMark rc relation rte.relid) m4 m1 es arr hes4 harr h6
      refine ⟨arr.set (rc.rti - 1) (some (newExecRowMark rc relation rte.relid)),
        evs1 ++ evs2, ?_, ?_, ?_, ?_⟩
      · rw [hm1]
        rfl
      · rw [hm1]
        show m4.trace = _
        rw [ht4, ht3, List.append_assoc]
      · intro ht
        cases ht
      · intro _
        refine ⟨hpos, hle, hget, _, rfl, rte.relid, relation, rfl, ?_⟩
        unfold RelationFor at hrel ⊢
        split at hrel
        · simpa using hrel
        · exact hrel.elim
        · obtain ⟨rel, hr1, hr2⟩ := hrel
          exact ⟨rel, hr1, List.mem_append_left _ hr2⟩

theorem pred_ne_pred {a b : Nat} (ha : 0 < a) (hb : 0 < b) (h : a ≠ b) : a - 1 ≠ b - 1 := by
  omega

theorem pred_ne_of_ne_succ {a i : Nat} (ha : 0 < a) (h : a ≠ i + 1) : a - 1 ≠ i := by
  omega

theorem descriptorFor_mono {rc : PlanRowMark} {evs evs1 : List Event} {erm : ExecRowMark}
    (hsub : ∀ e ∈ evs, e ∈ evs1) (h : DescriptorFor rc evs erm) : DescriptorFor rc evs1 erm := by
  obtain ⟨relid, relation, h1, h2⟩ := h
  refine ⟨relid, relation, h1, ?_⟩
  unfold RelationFor at h2 ⊢
  split at h2
  · simpa using h2
  · exact h2.elim
  · obtain ⟨rel, hr1, hr2⟩ := h2
    exact ⟨rel, hr1, hsub _ hr2⟩

/-- The row-mark loop, when it succeeds: where the array ends up. -/
theorem initRowMarks_ok (c : Env) (l : List PlanRowMark) :
    ∀ (m m1 : Machine) (es : EState) (arr : List (Option ExecRowMark)),
      m.queryDesc.estate = some es → es.es_rowmarks = some arr →
      initRowMarks c l m = .ok () m1 →
      ∃ arr1 evs, m1.queryDesc.estate = some { es with es_rowmarks := some arr1 } ∧
        m1.trace = m.trace ++ evs ∧
        arr1.length = arr.length ∧
        (∀ rc ∈ l, rc.isParent = false →
          0 < rc.rti ∧ rc.rti ≤ es.es_range_table_size ∧ arr[rc.rti - 1]? = some none ∧
            ∃ erm, arr1[rc.rti - 1]? = some (some erm) ∧ DescriptorFor rc evs erm) ∧
        (∀ i, (∀ rc ∈ l, rc.isParent = false → rc.rti ≠ i + 1) → arr1[i]? = arr[i]?) ∧
        ((l.filter (fun rc => !rc.isParent)).map (fun rc => rc.rti)).Nodup := by
  induction l with
  | nil =>
      intro m m1 es arr hes harr h
      cases h
      refine ⟨arr, [], ?_, by simp, rfl, by simp, fun _ _ => rfl, by simp⟩
      rw [hes, ← harr]
  | cons rc rest ih =>
      intro m m1 es arr hes harr h
      unfold initRowMarks at h
      obtain ⟨u, m2, h1, h2⟩ := bind_eq_ok.1 h
      obtain ⟨arr2, evs1, hes2, ht2, hpar, hnonpar⟩ := initRowMark_ok c rc m m2 es arr hes harr h1
      obtain ⟨arr1, evs2, hes1, ht1, hlen, hA, hB, hC⟩ :=
        ih m2 m1 { es with es_rowmarks := some arr2 } arr2 hes2 rfl h2
      have htrace : m1.trace = m.trace ++ (evs1 ++ evs2) := by
        rw [ht1, ht2, List.append_assoc]
      cases hp : rc.isParent with
      | true =>
          have harr2 : arr2 = arr := hpar hp
          subst harr2
          refine ⟨arr1, evs1 ++ evs2, hes1, htrace, hlen, ?_, ?_, ?_⟩
          · intro rc1 hmem hnp
            rcases List.mem_cons.1 hmem with heq | hmem1
            · subst heq
              rw [hp] at hnp
              cases hnp
            · obtain ⟨a1, a2, a3, erm, a4, a5⟩ := hA rc1 hmem1 hnp
              exact ⟨a1, a2, a3, erm, a4,
                descriptorFor_mono (fun e he => List.mem_append_right _ he) a5⟩
          · intro i hi
            exact hB i (fun rc1 hmem hnp => hi rc1 (List.mem_cons_of_mem _ hmem) hnp)
          · simpa [List.filter_cons, hp] using hC
      | false =>
          obtain ⟨hpos, hle, hget, erm, harr2, hdesc⟩ := hnonpar hp
          have hlt : rc.rti - 1 < arr.length := by
            by_contra hcon
            rw [List.getElem?_eq_none (Nat.le_of_not_lt hcon)] at hget
            cases hget
          have hself : arr2[rc.rti - 1]? = some (some erm) := by
            rw [harr2, List.getElem?_set_self hlt]
          have hK : ∀ rc1 ∈ rest, rc1.isParent = false → rc1.rti ≠ rc.rti := by
            intro rc1 hmem hnp heq
            obtain ⟨-, -, a3, -⟩ := hA rc1 hmem hnp
            rw [heq, hself] at a3
            cases a3
          refine ⟨arr1, evs1 ++ evs2, hes1, htrace, ?_, ?_, ?_, ?_⟩
          · rw [hlen, harr2, List.length_set]
          · intro rc1 hmem hnp
            rcases List.mem_cons.1 hmem with heq | hmem1
            · subst heq
              refine ⟨hpos, hle, hget, erm, ?_,
                descriptorFor_mono (fun e he => List.mem_append_left _ he) hdesc⟩
              rw [hB (rc1.rti - 1) (fun rc2 hmem2 hnp2 => by
                rw [Nat.sub_add_cancel hpos]
                exact hK rc2 hmem2 hnp2)]
              exact hself
            · obtain ⟨a1, a2, a3, erm1, a4, a5⟩ := hA rc1 hmem1 hnp
              have hne := hK rc1 hmem1 hnp
              refine ⟨a1, a2, ?_, erm1, a4,
                descriptorFor_mono (fun e he => List.mem_append_right _ he) a5⟩
              rw [harr2, List.getElem?_set_ne (pred_ne_pred hpos a1 (Ne.symm hne))] at a3
              exact a3
          · intro i hi
            rw [hB i (fun rc1 hmem hnp => hi rc1 (List.mem_cons_of_mem _ hmem) hnp), harr2]
            exact List.getElem?_set_ne
              (pred_ne_of_ne_succ hpos (hi rc (List.mem_cons_self _ _) hp))
          · simp only [List.filter_cons, hp, Bool.not_false, if_true, List.map_cons,
              List.nodup_cons]
            refine ⟨?_, hC⟩
            intro hmem
            obtain ⟨rc1, hrc1, heq⟩ := List.mem_map.1 hmem
            have hf := List.mem_filter.1 hrc1
            exact hK rc1 hf.1 (by simpa using hf.2) heq

/-- The stages of a successful `InitPlan`. -/
theorem InitPlan_ok_stages (c : Env) (eflags : Nat) (m m1 : Machine)
    (h : InitPlan c eflags m = .ok () m1) :
    ∃ (ma mb mc md me mf : Machine) (r : PlanState × TupleDesc),
      c.ExecCheckRTPerms m.queryDesc.plannedstmt.rtable true = .ok () ∧
      ExecInitRangeTable m.queryDesc.plannedstmt.rtable
        { m with trace := m.trace ++ [.ExecCheckRTPerms] } = .ok () ma ∧
      modifyEState (fun es => { es with es_plannedstmt := some m.queryDesc.plannedstmt }) ma =
        .ok () mb ∧
      initResultRelations c m.queryDesc.plannedstmt mb = .ok () mc ∧
      initRowMarksIfAny c m.queryDesc.plannedstmt mc = .ok () md ∧
      resetAuxiliaryState md = .ok () me ∧
      InitPlanFromSubPlans c m.queryDesc eflags me = .ok r mf ∧
      m1 = { mf with queryDesc :=
        { mf.queryDesc with tupDesc := some r.2, planstate := some r.1 } } := by
  have hunfold : InitPlan c eflags m =
      (InitPlanSteps c m.queryDesc eflags >>= fun r =>
        modifyQueryDesc (fun qd =>
          { qd with tupDesc := some r.2, planstate := some r.1 })) m := rfl
  rw [hunfold] at h
  obtain ⟨r, mf, h1, h2⟩ := bind_eq_ok.1 h
  cases h2
  unfold InitPlanSteps at h1
  obtain ⟨u, m0, h3, h4⟩ := bind_eq_ok.1 h1
  cases h3
  obtain ⟨u1, m01, h5, h6⟩ := bind_eq_ok.1 h4
  cases hperm : c.ExecCheckRTPerms m.queryDesc.plannedstmt.rtable true with
  | error e => rw [hperm] at h5; cases h5
  | ok u2 =>
      rw [hperm] at h5
      cases h5
      unfold InitPlanAfterPermissions at h6
      obtain ⟨u3, ma, h7, h8⟩ := bind_eq_ok.1 h6
      obtain ⟨u4, mb, h9, h10⟩ := bind_eq_ok.1 h8
      obtain ⟨u5, mc, h11, h12⟩ := bind_eq_ok.1 h10
      unfold InitPlanFromRowMarks at h12
      obtain ⟨u6, md, h13, h14⟩ := bind_eq_ok.1 h12
      obtain ⟨u7, me, h15, h16⟩ := bind_eq_ok.1 h14
      exact ⟨ma, mb, mc, md, me, mf, r, rfl, h7, h9, h11, h13, h15, h16, rfl⟩

theorem keepsField_some {β : Type} {g : EState → β} {m m1 : Machine} {es : EState}
    (h : KeepsField g m m1) (hes : m.queryDesc.estate = some es) :
    ∃ es1, m1.queryDesc.estate = some es1 ∧ g es1 = g es := by
  unfold KeepsField at h
  rw [hes] at h
  cases h1 : m1.queryDesc.estate with
  | none => rw [h1] at h; cases h
  | some es1 =>
      rw [h1] at h
      exact ⟨es1, rfl, by simpa using h⟩

theorem frame_of_ok {R : Machine → Machine → Prop} {α : Type} {x : Exec α}
    (hx : Frame R x) {m m1 : Machine} {a : α} (h : x m = .ok a m1) : R m m1 := by
  have := hx m
  rw [h] at this
  exact this

/-- Lines 192-287 of `InitPlan` keep every part of the execution state that the writes to the
auxiliary state, the sub-plan states, the tuple table and the junk filter do not touch. -/
theorem keepsField_afterRowMarks {β : Type} (g : EState → β) (c : Env) (queryDesc : QueryDesc)
    (eflags : Nat) (hg : ∀ f, WriteAux f ∨ WriteJunk f → ∀ es, g (f es) = g es)
    {md me mf : Machine} {r : PlanState × TupleDesc}
    (h1 : resetAuxiliaryState md = .ok () me)
    (h2 : InitPlanFromSubPlans c queryDesc eflags me = .ok r mf) :
    KeepsField g md mf := by
  have hT := tolerant_keepsField g
  have ha : KeepsField g md me :=
    frame_of_ok (hT.onModify _ (hg _ (Or.inl .reset))) h1
  have hb : KeepsField g me mf :=
    frame_of_ok (frame_InitPlanFromSubPlans hT c queryDesc eflags (fun _ _ _ => trivial)
      trivial trivial hg) h2
  exact hT.rel.trans _ _ _ ha hb

/-- The row-mark stage of `InitPlan`, when the plan has row marks and the stage succeeds. -/
theorem initRowMarksIfAny_ok (c : Env) (plannedstmt : PlannedStmt) (m m1 : Machine)
    (hne : plannedstmt.rowMarks ≠ [])
    (h : initRowMarksIfAny c plannedstmt m = .ok () m1) :
    ∃ es arr evs, m.queryDesc.estate = some es ∧
      m1.queryDesc.estate = some { es with es_rowmarks := some arr } ∧
      m1.trace = m.trace ++ evs ∧
      arr.length = es.es_range_table_size ∧
      (∀ rc ∈ plannedstmt.rowMarks, rc.isParent = false →
        0 < rc.rti ∧ rc.rti ≤ es.es_range_table_size ∧
          ∃ erm, arr[rc.rti - 1]? = some (some erm) ∧ DescriptorFor rc evs erm) ∧
      (∀ i, i < arr.length →
        (∀ rc ∈ plannedstmt.rowMarks, rc.isParent = false → rc.rti ≠ i + 1) →
          arr[i]? = some none) ∧
      ((plannedstmt.rowMarks.filter (fun rc => !rc.isParent)).map (fun rc => rc.rti)).Nodup := by
  unfold initRowMarksIfAny at h
  rw [if_pos hne] at h
  obtain ⟨u, m2, h1, h2⟩ := bind_eq_ok.1 h
  unfold modifyEState at h1
  cases hes : m.queryDesc.estate with
  | none => rw [hes] at h1; cases h1
  | some es =>
      rw [hes] at h1
      cases h1
      obtain ⟨arr, evs, hes1, ht, hlen, hA, hB, hC⟩ :=
        initRowMarks_ok c plannedstmt.rowMarks _ m1
          { es with es_rowmarks := some (List.replicate es.es_range_table_size none) }
          (List.replicate es.es_range_table_size none) rfl rfl h2
      have hlen1 : arr.length = es.es_range_table_size := by
        rw [hlen, List.length_replicate]
      refine ⟨es, arr, evs, rfl, hes1, ht, hlen1, ?_, ?_, hC⟩
      · intro rc hrc hnp
        obtain ⟨a1, a2, -, a4⟩ := hA rc hrc hnp
        exact ⟨a1, a2, a4⟩
      · intro i hi hno
        rw [hB i hno, List.getElem?_replicate, if_pos (by rw [← hlen1]; exact hi)]

/-! ## The row-mark loop in either build -/

theorem getEState_ok {m m1 : Machine} {es : EState} (h : getEState m = .ok es m1) :
    m1 = m ∧ m.queryDesc.estate = some es := by
  unfold getEState at h
  cases hq : m.queryDesc.estate with
  | none => rw [hq] at h; cases h
  | some es0 =>
      rw [hq] at h
      exact ⟨(Res.ok.inj h).2.symm, by rw [(Res.ok.inj h).1]⟩

theorem modifyEState_ok {f : EState → EState} {m m1 : Machine}
    (h : modifyEState f m = .ok () m1) :
    ∃ es, m.queryDesc.estate = some es ∧
      m1 = { m with queryDesc := { m.queryDesc with estate := some (f es) } } := by
  unfold modifyEState at h
  cases hes : m.queryDesc.estate with
  | none => rw [hes] at h; cases h
  | some es =>
      rw [hes] at h
      exact ⟨es, rfl, (Res.ok.inj h).2.symm⟩

theorem ok_of_isOk {x : Exec Unit} {m : Machine} (h : (x m).isOk = true) :
    x m = .ok () (x m).machine := by
  cases hx : x m with
  | ok u m1 => rfl
  | err e m1 => rw [hx] at h; cases h

theorem assertWith_true (cond : Bool) (site : AssertSite) :
    AssertWith true cond site = Assert cond site := rfl

theorem storeRowMarkWith_true (erm : ExecRowMark) :
    storeRowMarkWith true erm = storeRowMark erm := rfl

theorem descriptorFor_ok {rc : PlanRowMark} {evs : List Event} {erm : ExecRowMark}
    (h : DescriptorFor rc evs erm) : RowMarkDescriptorOk rc evs erm := by
  obtain ⟨relid, relation, h1, h2⟩ := h
  subst h1
  unfold RelationFor at h2
  refine ⟨?_, ?_, rfl, rfl, rfl, rfl, rfl⟩
  · intro hc
    rw [hc] at h2
    exact h2
  · intro hmem
    cases hmt : rc.markType <;> rw [hmt] at hmem h2 <;> first
      | exact h2
      | simp at hmem

/-- The log before and after the row-mark stage of a successful `InitPlan`. -/
theorem InitPlan_ok_trace (c : Env) (eflags : Nat) (m ma mb mc md me mf m1 : Machine)
    (r : PlanState × TupleDesc)
    (h1 : ExecInitRangeTable m.queryDesc.plannedstmt.rtable
      { m with trace := m.trace ++ [.ExecCheckRTPerms] } = .ok () ma)
    (h2 : modifyEState (fun es => { es with es_plannedstmt := some m.queryDesc.plannedstmt })
      ma = .ok () mb)
    (h3 : initResultRelations c m.queryDesc.plannedstmt mb = .ok () mc)
    (h5 : resetAuxiliaryState md = .ok () me)
    (h6 : InitPlanFromSubPlans c m.queryDesc eflags me = .ok r mf)
    (h7 : m1 = { mf with queryDesc :=
      { mf.queryDesc with tupDesc := some r.2, planstate := some r.1 } }) :
    (∃ before, mc.trace = m.trace ++ before) ∧ ∃ after, m1.trace = md.trace ++ after := by
  have hT := tolerant_trace (fun _ => True)
  have a1 : TraceRel (fun _ => True) { m with trace := m.trace ++ [.ExecCheckRTPerms] } ma :=
    frame_of_ok (frame_ExecInitRangeTable hT _ trivial (fun _ _ => trivial)) h1
  have a2 : TraceRel (fun _ => True) ma mb := frame_of_ok (hT.onModify _ trivial) h2
  have a3 : TraceRel (fun _ => True) mb mc :=
    frame_of_ok (frame_initResultRelations hT c _ (fun _ _ _ => ⟨fun _ => trivial, trivial⟩)
      (fun _ _ => trivial)) h3
  have a5 : TraceRel (fun _ => True) md me := frame_of_ok (hT.onModify _ trivial) h5
  have a6 : TraceRel (fun _ => True) me mf :=
    frame_of_ok (frame_InitPlanFromSubPlans hT c _ _ (fun _ _ _ => trivial) trivial trivial
      (fun _ _ => trivial)) h6
  constructor
  · obtain ⟨l, hl, -⟩ := hT.rel.trans _ _ _ (hT.rel.trans _ _ _ a1 a2) a3
    exact ⟨.ExecCheckRTPerms :: l, by rw [hl]; simp⟩
  · obtain ⟨l, hl, -⟩ := hT.rel.trans _ _ _ a5 a6
    exact ⟨l, by rw [h7]; exact hl⟩

/-- C4: the body of the row-mark loop, for a non-parent request, stores at position `rti - 1` a
descriptor whose relation handle is absent for a copy mark and is the handle returned by opening
range-table entry `rti` for an exclusive, no-key-exclusive, share, key-share or reference mark,
and which is not active, has an invalid cached row locator and no extra storage; and after a
successful `InitPlan` the array holds such a descriptor for every non-parent request. -/
theorem C4_rowmark_descriptor (c : Env) :
    (∀ (rc : PlanRowMark) (m m1 : Machine) (es : EState) (arr : List (Option ExecRowMark)),
      rc.isParent = false → m.queryDesc.estate = some es → es.es_rowmarks = some arr →
      initRowMark c rc m = .ok () m1 →
      ∃ erm evs,
        m1.queryDesc.estate =
          some { es with es_rowmarks := some (arr.set (rc.rti - 1) (some erm)) } ∧
        m1.trace = m.trace ++ evs ∧ RowMarkDescriptorOk rc evs erm) ∧
    (∀ (eflags : Nat) (m m1 : Machine), InitPlan c eflags m = .ok () m1 →
      ∀ rc ∈ m.queryDesc.plannedstmt.rowMarks, rc.isParent = false →
        ∃ es arr erm evs, m1.queryDesc.estate = some es ∧ es.es_rowmarks = some arr ∧
          arr[rc.rti - 1]? = some (some erm) ∧ m1.trace = m.trace ++ evs ∧
          RowMarkDescriptorOk rc evs erm) := by
  constructor
  · intro rc m m1 es arr hnp hes harr h
    obtain ⟨arr1, evs, hes1, ht, -, hstore⟩ := initRowMark_ok c rc m m1 es arr hes harr h
    obtain ⟨-, -, -, erm, harr1, hdesc⟩ := hstore hnp
    subst harr1
    exact ⟨erm, evs, hes1, ht, descriptorFor_ok hdesc⟩
  · intro eflags m m1 h rc hrc hnp
    have hne : m.queryDesc.plannedstmt.rowMarks ≠ [] := List.ne_nil_of_mem hrc
    obtain ⟨ma, mb, mc, md, me, mf, r, -, hrt, hst, hres, hrow, hreset, hsub, hm1⟩ :=
      InitPlan_ok_stages c eflags m m1 h
    obtain ⟨es0, arr, evs, -, hmd, htr, -, hA, -, -⟩ :=
      initRowMarksIfAny_ok c _ mc md hne hrow
    have hkeep := keepsField_afterRowMarks (fun es => es.es_rowmarks) c m.queryDesc eflags
      (by rintro f (hf | hf) es <;> cases hf <;> rfl) hreset hsub
    obtain ⟨es, hes, hg⟩ := keepsField_some hkeep hmd
    obtain ⟨⟨before, hb⟩, ⟨after, ha⟩⟩ :=
      InitPlan_ok_trace c eflags m ma mb mc md me mf m1 r hrt hst hres hreset hsub hm1
    obtain ⟨-, -, erm, herm, hdesc⟩ := hA rc hrc hnp
    refine ⟨es, arr, erm, before ++ evs ++ after, ?_, hg, herm, ?_, ?_⟩
    · rw [hm1]
      exact hes
    · rw [ha, htr, hb]
      simp
    · exact descriptorFor_ok (descriptorFor_mono (fun e he => by simp [he]) hdesc)

/-- C4 at sample inputs: the loop body on a share request, and `InitPlan` on the sample row
marks for the copy request. -/
theorem C4_rowmark_descriptor_witness :
    (∃ erm evs,
      (initRowMark sampleEnv shareRowMark rowMarkLoopMachine).machine.queryDesc.estate =
        some { rowMarkLoopEState with
          es_rowmarks := some ([none, none].set (shareRowMark.rti - 1) (some erm)) } ∧
      (initRowMark sampleEnv shareRowMark rowMarkLoopMachine).machine.trace = [] ++ evs ∧
      RowMarkDescriptorOk shareRowMark evs erm) ∧
    ∃ es arr erm evs,
      (InitPlan sampleEnv 0 (startedMachine .CMD_SELECT rowMarkStmt)).machine.queryDesc.estate =
        some es ∧
      es.es_rowmarks = some arr ∧ arr[copyRowMark.rti - 1]? = some (some erm) ∧
      (InitPlan sampleEnv 0 (startedMachine .CMD_SELECT rowMarkStmt)).machine.trace =
        [] ++ evs ∧
      RowMarkDescriptorOk copyRowMark evs erm :=
  ⟨(C4_rowmark_descriptor sampleEnv).1 shareRowMark rowMarkLoopMachine
      (initRowMark sampleEnv shareRowMark rowMarkLoopMachine).machine rowMarkLoopEState
      [none, none] rfl rfl rfl rfl,
    (C4_rowmark_descriptor sampleEnv).2 0 (startedMachine .CMD_SELECT rowMarkStmt)
      (InitPlan sampleEnv 0 (startedMachine .CMD_SELECT rowMarkStmt)).machine rfl
      copyRowMark (by decide) rfl⟩

/-! ## Stage by stage through a successful `InitPlan` -/

theorem InitPlanFromSubPlans_ok (c : Env) (queryDesc : QueryDesc) (eflags : Nat)
    (me mf : Machine) (r : PlanState × TupleDesc)
    (h : InitPlanFromSubPlans c queryDesc eflags me = .ok r mf) :
    ∃ es5 mg mh, me.queryDesc.estate = some es5 ∧ es5.es_subplanstates = [] ∧
      initSubPlans c queryDesc.plannedstmt eflags queryDesc.plannedstmt.subplans 1 me =
        .ok () mg ∧
      callExecInitNode c queryDesc.plannedstmt.planTree eflags mg = .ok r.1 mh ∧
      resolveTupType queryDesc.operation queryDesc.plannedstmt.planTree r.1
        (c.ExecGetResultType r.1) mh = .ok r.2 mf := by
  unfold InitPlanFromSubPlans at h
  obtain ⟨es5, m0, h1, h2⟩ := bind_eq_ok.1 h
  have hm0 := silent_ok silent_getEState h1
  subst hm0
  have hes : m0.queryDesc.estate = some es5 := by
    unfold getEState at h1
    cases hq : m0.queryDesc.estate with
    | none => rw [hq] at h1; cases h1
    | some es => rw [hq] at h1; cases h1; rfl
  obtain ⟨u, m2, h3, h4⟩ := bind_eq_ok.1 h2
  have hm2 := silent_ok (silent_Assert _ _) h3
  subst hm2
  have hnil : es5.es_subplanstates = [] := by
    unfold Assert at h3
    split at h3
    · rename_i hc
      simpa using hc
    · cases h3
  obtain ⟨u1, mg, h5, h6⟩ := bind_eq_ok.1 h4
  obtain ⟨ps, mh, h7, h8⟩ := bind_eq_ok.1 h6
  obtain ⟨td, mf1, h9, h10⟩ := bind_eq_ok.1 h8
  cases h10
  exact ⟨es5, mg, mh, hes, hnil, h5, h7, h9⟩

/-- A successful `InitPlan` went through every stage. -/
theorem InitPlan_ok_run (c : Env) (eflags : Nat) (m m1 : Machine)
    (h : InitPlan c eflags m = .ok () m1) : Nonempty (InitPlanStages c eflags m m1) := by
  obtain ⟨ma, mb, mc, md, me, mf, r, h0, h1, h2, h3, h4, h5, h6, h7⟩ :=
    InitPlan_ok_stages c eflags m m1 h
  obtain ⟨es5, mg, mh, h8, h9, h10, h11, h12⟩ :=
    InitPlanFromSubPlans_ok c m.queryDesc eflags me mf r h6
  exact ⟨{ ma := ma, mb := mb, mc := mc, md := md, me := me, mg := mg, mh := mh, mf := mf,
           es5 := es5, ps := r.1, td := r.2, perms := h0, rangeTable := h1, stmt := h2,
           resultRels := h3, rowMarks := h4, reset := h5, estate := h8, noSubplanStates := h9,
           subPlans := h10, root := h11, tupType := h12, final := h7 }⟩

theorem stages_planstate {c : Env} {eflags : Nat} {m m1 : Machine}
    (s : InitPlanStages c eflags m m1) : m1.queryDesc.planstate = some s.ps :=
  congrArg (fun x => x.queryDesc.planstate) s.final

theorem stages_tupDesc {c : Env} {eflags : Nat} {m m1 : Machine}
    (s : InitPlanStages c eflags m m1) : m1.queryDesc.tupDesc = some s.td :=
  congrArg (fun x => x.queryDesc.tupDesc) s.final

theorem stages_estate {c : Env} {eflags : Nat} {m m1 : Machine}
    (s : InitPlanStages c eflags m m1) : m1.queryDesc.estate = s.mf.queryDesc.estate :=
  congrArg (fun x => x.queryDesc.estate) s.final

theorem stages_trace {c : Env} {eflags : Nat} {m m1 : Machine}
    (s : InitPlanStages c eflags m m1) : m1.trace = s.mf.trace :=
  congrArg (fun x => x.trace) s.final

section StageFrames

variable {R : Machine → Machine → Prop} {E : Event → Prop} {F : (EState → EState) → Prop}
variable {c : Env} {eflags : Nat} {m m1 : Machine}

/-- From the start of `InitPlan` to the row-mark stage. -/
theorem stages_toRowMarks (s : InitPlanStages c eflags m m1) (hT : Tolerant R E F)
    (hE : ∀ e, ResultRelEvent m.queryDesc.plannedstmt e → E e)
    (hF : ∀ f, WriteRangeTable f ∨ WriteResultRel f → F f) : R m s.mc := by
  have a0 : R m { m with trace := m.trace ++ [.ExecCheckRTPerms] } :=
    hT.onEmit .ExecCheckRTPerms (hE _ trivial) m
  have a1 := frame_of_ok
    (frame_ExecInitRangeTable hT _ (hE _ trivial) (fun f hf => hF f (Or.inl hf))) s.rangeTable
  have a2 := frame_of_ok (hT.onModify _ (hF _ (Or.inl (.stmt _)))) s.stmt
  have a3 := frame_of_ok
    (frame_initResultRelations hT c _
      (fun hne rti hr => ⟨fun _ => hE _ ⟨hne, hr⟩, hE _ ⟨hne, hr⟩⟩)
      (fun f hf => hF f (Or.inr hf))) s.resultRels
  exact hT.rel.trans _ _ _ (hT.rel.trans _ _ _ (hT.rel.trans _ _ _ a0 a1) a2) a3

/-- The row-mark stage. -/
theorem stages_rowMarks (s : InitPlanStages c eflags m m1) (hT : Tolerant R E F)
    (hE : ∀ e, RowMarkEvent m.queryDesc.plannedstmt e → E e)
    (hF : ∀ f, WriteRowMarks f → F f) : R s.mc s.md :=
  frame_of_ok
    (frame_initRowMarksIfAny hT c _
      (fun rc hrc hp => ⟨fun _ => hE _ ⟨rc, hrc, hp, rfl⟩, fun _ => hE _ ⟨rc, hrc, hp, rfl⟩⟩)
      hF) s.rowMarks

/-- From the end of the row-mark stage to the return of the root's initialisation. -/
theorem stages_toRoot (s : InitPlanStages c eflags m m1) (hT : Tolerant R E F)
    (hE : ∀ node es fl, E (.ExecInitNode node es fl))
    (hF : ∀ f, WriteAux f → F f) : R s.md s.mh := by
  have a1 := frame_of_ok (hT.onModify _ (hF _ .reset)) s.reset
  have a2 := frame_of_ok (frame_initSubPlans hT c _ _ _ _ hE hF) s.subPlans
  have a3 := frame_of_ok (frame_callExecInitNode hT c _ _ (fun es => hE _ es _)) s.root
  exact hT.rel.trans _ _ _ (hT.rel.trans _ _ _ a1 a2) a3

/-- The resolution of the tuple descriptor. -/
theorem stages_tupType (s : InitPlanStages c eflags m m1) (hT : Tolerant R E F)
    (h1 : E .ExecInitExtraTupleSlot) (h2 : E .ExecInitJunkFilter)
    (hF : ∀ f, WriteJunk f → F f) : R s.mh s.mf :=
  frame_of_ok (frame_resolveTupType hT _ _ _ _ h1 h2 hF) s.tupType

end StageFrames

/-! ## C5: the junk filter and the tuple descriptor -/

theorem junkFilterNeeded_iff (l : List TargetEntry) :
    junkFilterNeeded l = true ↔ ∃ tle ∈ l, tle.resjunk = true := by
  induction l with
  | nil => simp [junkFilterNeeded]
  | cons tle rest ih =>
      unfold junkFilterNeeded
      by_cases h : tle.resjunk = true
      · simp [h]
      · simp [h, ih]

theorem resolveTupType_junk (plan : Plan) (planstate : PlanState) (tupType : TupleDesc)
    (m : Machine) (es : EState) (hes : m.queryDesc.estate = some es)
    (hjunk : junkFilterNeeded plan.targetlist = true) :
    resolveTupType .CMD_SELECT plan planstate tupType m =
      .ok (topJunkFilter es planstate tupType).jf_cleanTupType
        { m with
          queryDesc := { m.queryDesc with estate := some (withJunkFilter es planstate tupType) }
          trace := m.trace ++ [.ExecInitExtraTupleSlot, .ExecInitJunkFilter] } := by
  unfold resolveTupType
  rw [if_pos rfl, if_pos hjunk]
  simp [bind_apply, ExecInitExtraTupleSlot, emit, getEState, modifyEState, hes,
    topJunkFilter, withJunkFilter, scratchSlot]

theorem resolveTupType_plain (operation : CmdType) (plan : Plan) (planstate : PlanState)
    (tupType : TupleDesc) (m : Machine)
    (h : ¬ (operation = .CMD_SELECT ∧ junkFilterNeeded plan.targetlist = true)) :
    resolveTupType operation plan planstate tupType m = .ok tupType m := by
  unfold resolveTupType
  by_cases hop : operation = .CMD_SELECT
  · have hj : ¬ junkFilterNeeded plan.targetlist = true := fun hj => h ⟨hop, hj⟩
    rw [if_pos hop, if_neg hj]
    rfl
  · rw [if_neg hop]
    rfl

theorem cleanTupType_natts (targetList : List TargetEntry) (hasoid : Bool)
    (slot : TupleTableSlot) :
    (ExecInitJunkFilter targetList hasoid slot).jf_cleanTupType.natts +
        (targetList.filter (fun tle => tle.resjunk)).length = targetList.length := by
  unfold ExecInitJunkFilter TupleDesc.natts
  simp only [List.length_map]
  induction targetList with
  | nil => rfl
  | cons tle rest ih =>
      cases hj : tle.resjunk <;> simp [List.filter_cons, hj] <;> omega

theorem cleanTupType_attrs (targetList : List TargetEntry) (hasoid : Bool)
    (slot : TupleTableSlot) (a : Nat)
    (ha : a ∈ (ExecInitJunkFilter targetList hasoid slot).jf_cleanTupType.attrs) :
    ∃ tle ∈ targetList, tle.resjunk = false ∧ tle.expr = a := by
  unfold ExecInitJunkFilter at ha
  obtain ⟨tle, htle, hexpr⟩ := List.mem_map.1 ha
  obtain ⟨hmem, hnj⟩ := List.mem_filter.1 htle
  exact ⟨tle, hmem, by simpa using hnj, hexpr⟩

/-- C5: after a successful `InitPlan`, when the operation is `CMD_SELECT` and some entry of the
plan root's target list is marked `resjunk`, `es_junkFilter` holds a filter built by
`ExecInitJunkFilter` from the target list of the root state, `queryDesc->tupDesc` is its cleaned
shape, and that shape has one column per non-junk entry and none for a junk entry; in every
other case `es_junkFilter` is what it was before the call, `ExecInitJunkFilter` is not called
and `queryDesc->tupDesc` is the shape `ExecGetResultType` reports for the root state. -/
theorem C5_junk_filter (c : Env) (eflags : Nat) (m m1 : Machine)
    (h : InitPlan c eflags m = .ok () m1) :
    ∃ es0 ps es1 evs,
      m.queryDesc.estate = some es0 ∧ m1.queryDesc.planstate = some ps ∧
      m1.queryDesc.estate = some es1 ∧ m1.trace = m.trace ++ evs ∧
      ((m.queryDesc.operation = .CMD_SELECT ∧
          ∃ tle ∈ m.queryDesc.plannedstmt.planTree.targetlist, tle.resjunk = true) →
        ∃ j, es1.es_junkFilter = some j ∧
          m1.queryDesc.tupDesc = some j.jf_cleanTupType ∧
          Event.ExecInitJunkFilter ∈ evs ∧
          j.jf_targetList = ps.plan.targetlist ∧
          (∀ a ∈ j.jf_cleanTupType.attrs,
            ∃ tle ∈ ps.plan.targetlist, tle.resjunk = false ∧ tle.expr = a) ∧
          j.jf_cleanTupType.natts + (ps.plan.targetlist.filter (fun tle => tle.resjunk)).length =
            ps.plan.targetlist.length) ∧
      (¬ (m.queryDesc.operation = .CMD_SELECT ∧
          ∃ tle ∈ m.queryDesc.plannedstmt.planTree.targetlist, tle.resjunk = true) →
        es1.es_junkFilter = es0.es_junkFilter ∧
          m1.queryDesc.tupDesc = some (c.ExecGetResultType ps) ∧
          Event.ExecInitJunkFilter ∉ evs) := by
  obtain ⟨s⟩ := InitPlan_ok_run c eflags m m1 h
  -- the log up to the return of the root's initialisation has no call of the filter builder
  have htr : TraceRel (fun e => e ≠ .ExecInitJunkFilter) m s.mh := by
    have hT := tolerant_trace (fun e => e ≠ Event.ExecInitJunkFilter)
    have a1 := stages_toRowMarks s hT (fun e he => by cases e <;> simp_all [ResultRelEvent])
      (fun _ _ => trivial)
    have a2 := stages_rowMarks s hT
      (fun e he => by cases e <;> simp_all [RowMarkEvent]) (fun _ _ => trivial)
    have a3 := stages_toRoot s hT (fun _ _ _ => by simp) (fun _ _ => trivial)
    exact hT.rel.trans _ _ _ (hT.rel.trans _ _ _ a1 a2) a3
  -- and the junk filter of the execution state is untouched until then
  have hkeep : KeepsField (fun es => es.es_junkFilter) m s.mh := by
    have hT := tolerant_keepsField (fun es => es.es_junkFilter)
    have a1 := stages_toRowMarks s hT (fun _ _ => trivial)
      (by rintro f (hf | hf) es <;> cases hf <;> rfl)
    have a2 := stages_rowMarks s hT (fun _ _ => trivial)
      (by rintro f hf es; cases hf <;> rfl)
    have a3 := stages_toRoot s hT (fun _ _ _ => trivial)
      (by rintro f hf es; cases hf <;> rfl)
    exact hT.rel.trans _ _ _ (hT.rel.trans _ _ _ a1 a2) a3
  have hsome : ∃ es0, m.queryDesc.estate = some es0 := by
    have hrt := s.rangeTable
    unfold ExecInitRangeTable at hrt
    obtain ⟨u, m2, h1, h2⟩ := bind_eq_ok.1 hrt
    cases h1
    unfold modifyEState at h2
    cases hq : m.queryDesc.estate with
    | none => simp [hq] at h2
    | some es0 => exact ⟨es0, rfl⟩
  obtain ⟨es0, hes0⟩ := hsome
  obtain ⟨esr, hesr, hjf⟩ := keepsField_some hkeep hes0
  obtain ⟨l, hl, hq⟩ := htr
  by_cases hcond : m.queryDesc.operation = .CMD_SELECT ∧
      ∃ tle ∈ m.queryDesc.plannedstmt.planTree.targetlist, tle.resjunk = true
  · have hres := s.tupType
    rw [hcond.1, resolveTupType_junk _ _ _ _ esr hesr
      ((junkFilterNeeded_iff _).2 hcond.2)] at hres
    obtain ⟨htd, hmf⟩ := Res.ok.inj hres
    refine ⟨es0, s.ps, withJunkFilter esr s.ps (c.ExecGetResultType s.ps),
      l ++ [.ExecInitExtraTupleSlot, .ExecInitJunkFilter], hes0, ?_, ?_, ?_, ?_, ?_⟩
    · exact stages_planstate s
    · rw [stages_estate s, ← hmf]
    · rw [stages_trace s, ← hmf]
      show s.mh.trace ++ _ = _
      rw [hl, List.append_assoc]
    · intro _
      refine ⟨topJunkFilter esr s.ps (c.ExecGetResultType s.ps), rfl, ?_, by simp, rfl,
        cleanTupType_attrs _ _ _, cleanTupType_natts _ _ _⟩
      rw [stages_tupDesc s, ← htd]
    · intro hn
      exact absurd hcond hn
  · have hres := s.tupType
    rw [resolveTupType_plain _ _ _ _ _
      (fun hc => hcond ⟨hc.1, (junkFilterNeeded_iff _).1 hc.2⟩)] at hres
    obtain ⟨htd, hmf⟩ := Res.ok.inj hres
    refine ⟨es0, s.ps, esr, l, hes0, ?_, ?_, ?_, ?_, ?_⟩
    · exact stages_planstate s
    · rw [stages_estate s, ← hmf]
      exact hesr
    · rw [stages_trace s, ← hmf]
      exact hl
    · intro hc
      exact absurd hc hcond
    · intro _
      refine ⟨hjf, ?_, fun hmem => hq _ hmem rfl⟩
      rw [stages_tupDesc s, ← htd]

/-- C5 at a sample input: a SELECT with two junk columns among five gets a filter and a
three-column shape. -/
theorem C5_junk_filter_witness :
    (∃ es0 ps es1 evs,
      (startedMachine .CMD_SELECT junkStmt).queryDesc.estate = some es0 ∧
      (InitPlan sampleEnv 0 (startedMachine .CMD_SELECT junkStmt)).machine.queryDesc.planstate =
        some ps ∧
      (InitPlan sampleEnv 0 (startedMachine .CMD_SELECT junkStmt)).machine.queryDesc.estate =
        some es1 ∧
      (InitPlan sampleEnv 0 (startedMachine .CMD_SELECT junkStmt)).machine.trace = [] ++ evs ∧
      ((CmdType.CMD_SELECT = .CMD_SELECT ∧
          ∃ tle ∈ junkStmt.planTree.targetlist, tle.resjunk = true) →
        ∃ j, es1.es_junkFilter = some j ∧
          (InitPlan sampleEnv 0 (startedMachine .CMD_SELECT junkStmt)).machine.queryDesc.tupDesc =
            some j.jf_cleanTupType ∧
          Event.ExecInitJunkFilter ∈ evs ∧
          j.jf_targetList = ps.plan.targetlist ∧
          (∀ a ∈ j.jf_cleanTupType.attrs,
            ∃ tle ∈ ps.plan.targetlist, tle.resjunk = false ∧ tle.expr = a) ∧
          j.jf_cleanTupType.natts + (ps.plan.targetlist.filter (fun tle => tle.resjunk)).length =
            ps.plan.targetlist.length) ∧
      (¬ (CmdType.CMD_SELECT = .CMD_SELECT ∧
          ∃ tle ∈ junkStmt.planTree.targetlist, tle.resjunk = true) →
        es1.es_junkFilter = es0.es_junkFilter ∧
          (InitPlan sampleEnv 0 (startedMachine .CMD_SELECT junkStmt)).machine.queryDesc.tupDesc =
            some (sampleEnv.ExecGetResultType ps) ∧
          Event.ExecInitJunkFilter ∉ evs)) ∧
    ((InitPlan sampleEnv 0 (startedMachine .CMD_SELECT junkStmt)).machine.queryDesc.tupDesc.map
      TupleDesc.natts = some 3) :=
  ⟨C5_junk_filter sampleEnv 0 (startedMachine .CMD_SELECT junkStmt)
      (InitPlan sampleEnv 0 (startedMachine .CMD_SELECT junkStmt)).machine rfl, rfl⟩

/-! ## C6: sub-plans before the main tree -/

theorem callExecInitNode_ok (c : Env) (node : Plan) (eflags : Nat) (m m1 : Machine)
    (ps : PlanState) (h : callExecInitNode c node eflags m = .ok ps m1) :
    ∃ es, m.queryDesc.estate = some es ∧ c.ExecInitNode node es eflags = .ok ps ∧
      m1 = { m with trace := m.trace ++ [.ExecInitNode node es eflags] } := by
  unfold callExecInitNode at h
  obtain ⟨es, m2, h1, h2⟩ := bind_eq_ok.1 h
  unfold getEState at h1
  cases hes : m.queryDesc.estate with
  | none => rw [hes] at h1; cases h1
  | some es0 =>
      rw [hes] at h1
      cases h1
      obtain ⟨u, m3, h3, h4⟩ := bind_eq_ok.1 h2
      cases h3
      cases hr : c.ExecInitNode node es eflags with
      | error e => rw [hr] at h4; cases h4
      | ok r =>
          rw [hr] at h4
          cases h4
          exact ⟨es, rfl, hr, rfl⟩

/-- The sub-plan loop, when it succeeds: one call of the node initializer per sub-plan, in list
order, each with the flags of its number, and the returned states appended in the same order. -/
theorem initSubPlans_ok (c : Env) (plannedstmt : PlannedStmt) (eflags : Nat) (l : List Plan) :
    ∀ (i : Nat) (m m1 : Machine) (es : EState),
      m.queryDesc.estate = some es →
      initSubPlans c plannedstmt eflags l i m = .ok () m1 →
      ∃ sts evs,
        m1.queryDesc.estate =
          some { es with es_subplanstates := es.es_subplanstates ++ sts } ∧
        m1.trace = m.trace ++ evs ∧
        sts.length = l.length ∧ evs.length = l.length ∧
        ∀ k p, l[k]? = some p →
          ∃ esk st, evs[k]? = some (.ExecInitNode p esk (subPlanEflags c plannedstmt eflags (i + k))) ∧
            c.ExecInitNode p esk (subPlanEflags c plannedstmt eflags (i + k)) = .ok st ∧
            sts[k]? = some st ∧
            esk.es_subplanstates = es.es_subplanstates ++ sts.take k := by
  induction l with
  | nil =>
      intro i m m1 es hes h
      cases h
      refine ⟨[], [], ?_, by simp, rfl, rfl, ?_⟩
      · rw [hes]
        simp
      · intro k p hk
        simp at hk
  | cons subplan rest ih =>
      intro i m m1 es hes h
      unfold initSubPlans at h
      obtain ⟨st, m2, h1, h2⟩ := bind_eq_ok.1 h
      obtain ⟨es2, hes2, hcall, hm2⟩ := callExecInitNode_ok c _ _ m m2 st h1
      rw [hes] at hes2
      cases hes2
      obtain ⟨u, m3, h3, h4⟩ := bind_eq_ok.1 h2
      have hm3 : m3 = { m2 with queryDesc := { m2.queryDesc with
          estate := some { es with es_subplanstates := es.es_subplanstates ++ [st] } } } := by
        unfold modifyEState at h3
        have hes2 : m2.queryDesc.estate = some es := by rw [hm2]; exact hes
        rw [hes2] at h3
        cases h3
        rfl
      obtain ⟨sts, evs, hes1, ht, hlen1, hlen2, hall⟩ :=
        ih (i + 1) m3 m1 { es with es_subplanstates := es.es_subplanstates ++ [st] }
          (by rw [hm3]) h4
      refine ⟨st :: sts, .ExecInitNode subplan es (subPlanEflags c plannedstmt eflags i) :: evs,
        ?_, ?_, by simp [hlen1], by simp [hlen2], ?_⟩
      · rw [hes1]
        simp
      · rw [ht, hm3, hm2]
        simp [subPlanEflags]
      · intro k p hk
        cases k with
        | zero =>
            simp only [List.getElem?_cons_zero, Option.some.injEq] at hk
            subst hk
            refine ⟨es, st, by simp, ?_, by simp, by simp⟩
            simpa [subPlanEflags] using hcall
        | succ k =>
            simp only [List.getElem?_cons_succ] at hk
            obtain ⟨esk, stk, a1, a2, a3, a4⟩ := hall k p hk
            have hidx : i + 1 + k = i + (k + 1) := by omega
            rw [hidx] at a1 a2
            refine ⟨esk, stk, by simpa using a1, a2, by simpa using a3, ?_⟩
            rw [a4]
            simp

/-- C6: in a successful `InitPlan` on a plan with `n` sub-plans, the calls of the node
initializer are, in this order, one per sub-plan in planner order and then one on the plan root
(no other call of it occurs before, between or after); the execution state passed to the call
on the root has `n` sub-plan states, the `k`-th being the state returned by the call on the
`k`-th sub-plan; and the state returned for the root is stored in `queryDesc->planstate`. -/
theorem C6_subplans_before_main (c : Env) (eflags : Nat) (m m1 : Machine)
    (h : InitPlan c eflags m = .ok () m1) :
    ∃ (before evs after : List Event) (rootEs : EState) (ps : PlanState),
      m1.trace = m.trace ++ before ++ evs ++
        [.ExecInitNode m.queryDesc.plannedstmt.planTree rootEs eflags] ++ after ∧
      (∀ e ∈ before, e.isExecInitNode = false) ∧
      (∀ e ∈ after, e.isExecInitNode = false) ∧
      evs.length = m.queryDesc.plannedstmt.subplans.length ∧
      rootEs.es_subplanstates.length = m.queryDesc.plannedstmt.subplans.length ∧
      (∀ (k : Nat) (p : Plan), m.queryDesc.plannedstmt.subplans[k]? = some p →
        ∃ esk flk st, evs[k]? = some (Event.ExecInitNode p esk flk) ∧
          c.ExecInitNode p esk flk = .ok st ∧
          rootEs.es_subplanstates[k]? = some st) ∧
      c.ExecInitNode m.queryDesc.plannedstmt.planTree rootEs eflags = .ok ps ∧
      m1.queryDesc.planstate = some ps := by
  obtain ⟨s⟩ := InitPlan_ok_run c eflags m m1 h
  have hT := tolerant_trace (fun e => e.isExecInitNode = false)
  have hbefore : TraceRel (fun e => e.isExecInitNode = false) m s.me := by
    have a1 := stages_toRowMarks s hT
      (fun e he => by cases e <;> first | rfl | exact he.elim) (fun _ _ => trivial)
    have a2 := stages_rowMarks s hT
      (fun e he => by cases e <;> first | rfl | exact he.elim) (fun _ _ => trivial)
    have a3 := frame_of_ok (hT.onModify _ trivial) s.reset
    exact hT.rel.trans _ _ _ (hT.rel.trans _ _ _ a1 a2) a3
  have hafter : TraceRel (fun e => e.isExecInitNode = false) s.mh s.mf :=
    stages_tupType s hT rfl rfl (fun _ _ => trivial)
  obtain ⟨before, hb, hbq⟩ := hbefore
  obtain ⟨after, ha, haq⟩ := hafter
  obtain ⟨sts, evs, hesg, htg, hlen1, hlen2, hall⟩ :=
    initSubPlans_ok c _ eflags _ 1 s.me s.mg s.es5 s.estate s.subPlans
  obtain ⟨rootEs, hroot, hcall, hmh⟩ := callExecInitNode_ok c _ _ s.mg s.mh s.ps s.root
  rw [hesg] at hroot
  have hrootEs : rootEs.es_subplanstates = sts := by
    have := Option.some.inj hroot
    rw [← this, s.noSubplanStates]
    rfl
  refine ⟨before, evs, after, rootEs, s.ps, ?_, hbq, haq, hlen2, ?_, ?_, hcall,
    stages_planstate s⟩
  · rw [stages_trace s, ha, hmh]
    show s.mg.trace ++ _ ++ after = _
    rw [htg, hb]
  · rw [hrootEs, hlen1]
  · intro k p hk
    obtain ⟨esk, st, a1, a2, a3, -⟩ := hall k p hk
    exact ⟨esk, _, st, a1, a2, by rw [hrootEs]; exact a3⟩

/-- C6 at a sample input: three sub-plans. -/
theorem C6_subplans_before_main_witness :
    ∃ (before evs after : List Event) (rootEs : EState) (ps : PlanState),
      (InitPlan sampleEnv 0 (startedMachine .CMD_SELECT subPlanStmt)).machine.trace =
        [] ++ before ++ evs ++ [.ExecInitNode subPlanStmt.planTree rootEs 0] ++ after ∧
      (∀ e ∈ before, e.isExecInitNode = false) ∧
      (∀ e ∈ after, e.isExecInitNode = false) ∧
      evs.length = subPlanStmt.subplans.length ∧
      rootEs.es_subplanstates.length = subPlanStmt.subplans.length ∧
      (∀ (k : Nat) (p : Plan), subPlanStmt.subplans[k]? = some p →
        ∃ esk flk st, evs[k]? = some (Event.ExecInitNode p esk flk) ∧
          sampleEnv.ExecInitNode p esk flk = .ok st ∧
          rootEs.es_subplanstates[k]? = some st) ∧
      sampleEnv.ExecInitNode subPlanStmt.planTree rootEs 0 = .ok ps ∧
      (InitPlan sampleEnv 0 (startedMachine .CMD_SELECT subPlanStmt)).machine.queryDesc.planstate =
        some ps :=
  C6_subplans_before_main sampleEnv 0 (startedMachine .CMD_SELECT subPlanStmt)
    (InitPlan sampleEnv 0 (startedMachine .CMD_SELECT subPlanStmt)).machine rfl

/-! ## Through `standard_ExecutorStart` once the guard has passed -/

theorem fillParameters_eq (queryDesc : QueryDesc) (m : Machine) (es : EState)
    (hes : m.queryDesc.estate = some es) :
    fillParameters queryDesc m =
      .ok () { m with queryDesc :=
        { m.queryDesc with estate := some (filledEState queryDesc es) } } := by
  unfold fillParameters allocParamExecVals filledEState
  by_cases hp : queryDesc.plannedstmt.paramExecTypes = []
  · simp [bind_apply, modifyEState, hes, hp]
  · simp [bind_apply, modifyEState, hes, hp]

/-- The run of `startAfterGuard` is the switch on the command kind and the rest, started on the
machine with the freshly created and filled execution state. -/
theorem startAfterGuard_eq (c : Env) (queryDesc : QueryDesc) (eflags : Nat) (m : Machine) :
    startAfterGuard c queryDesc eflags m =
      (commandIdPolicy c queryDesc eflags >>= fun eflags1 =>
        startTail c queryDesc eflags1 m.CurrentMemoryContext) (filledMachine c queryDesc m) := by
  unfold startAfterGuard
  have hcreate : createEState c m = .ok m.CurrentMemoryContext
      { queryDesc := { m.queryDesc with
          estate := some (CreateExecutorState c m.CurrentMemoryContext) }
        CurrentMemoryContext := c.newQueryContext m.CurrentMemoryContext
        trace := m.trace ++ [.CreateExecutorState] } := rfl
  rw [bind_ok hcreate, bind_ok (fillParameters_eq queryDesc _ _ rfl)]
  rfl

theorem startTail_machine_trace (x : Exec MemoryContext) (m : Machine) :
    ((x >>= fun oldcontext =>
        MemoryContextSwitchTo oldcontext >>= fun _ => (pure () : Exec Unit)) m).machine.trace =
      (x m).machine.trace ∧
    ((x >>= fun oldcontext =>
        MemoryContextSwitchTo oldcontext >>= fun _ => (pure () : Exec Unit)) m).machine.queryDesc =
      (x m).machine.queryDesc := by
  rw [bind_apply]
  cases x m with
  | ok a m1 => exact ⟨rfl, rfl⟩
  | err e m1 => exact ⟨rfl, rfl⟩

theorem frame_startTail {R : Machine → Machine → Prop} {E : Event → Prop}
    {F : (EState → EState) → Prop} (hT : Tolerant R E F) (c : Env) (queryDesc : QueryDesc)
    (eflags : Nat) (oldcontext : MemoryContext)
    (hstore : ∀ td ps, Frame R (modifyQueryDesc (fun qd =>
      { qd with tupDesc := some td, planstate := some ps })))
    (hE1 : ∀ e, StartTailEvent e → E e)
    (hE2 : ∀ stmt e, InitPlanEvent stmt e → E e)
    (hF1 : ∀ f, WriteCopy f → F f)
    (hF2 : ∀ f, InitPlanWrite f → F f) :
    Frame R (startTail c queryDesc eflags oldcontext) := by
  unfold startTail
  refine frame_bind hT.rel
    (frame_copyIntoEState hT c _ _ (fun _ _ => hE1 _ trivial) hF1) (fun _ => ?_)
  refine frame_bind hT.rel (frame_beginTriggerContext hT c _ (hE1 _ trivial)) (fun _ => ?_)
  exact frame_bind hT.rel (frame_InitPlan hT c _ hstore hE2 hF2) (fun _ => frame_pure hT.rel _)

theorem commandIdPolicy_need (c : Env) (queryDesc : QueryDesc) (eflags : Nat) (m : Machine)
    (es : EState) (hes : m.queryDesc.estate = some es) (hneed : needsCommandId queryDesc) :
    commandIdPolicy c queryDesc eflags m =
      .ok (effectiveEflags c queryDesc eflags) (cidMachine c m es) := by
  have hset : setOutputCid c m = .ok () (cidMachine c m es) := by
    unfold setOutputCid callGetCurrentCommandId cidMachine
    simp [bind_apply, emit, modifyEState, hes]
  unfold commandIdPolicy effectiveEflags
  rcases hneed with h | h | h | ⟨h, hrow⟩
  · rw [h]
    simp only []
    rw [bind_ok hset]
    simp
  · rw [h]
    simp only []
    rw [bind_ok hset]
    simp
  · rw [h]
    simp only []
    rw [bind_ok hset]
    simp
  · rw [h]
    have hsel : selectOutputCid c queryDesc m = setOutputCid c m := by
      unfold selectOutputCid
      rw [if_pos hrow]
    simp only []
    rw [bind_ok (hsel.trans hset)]
    cases hcte : queryDesc.plannedstmt.hasModifyingCTE <;> simp

theorem commandIdPolicy_plain (c : Env) (queryDesc : QueryDesc) (eflags : Nat) (m : Machine)
    (hop : queryDesc.operation = .CMD_SELECT)
    (hrow : ¬ (queryDesc.plannedstmt.rowMarks ≠ [] ∨
      queryDesc.plannedstmt.hasModifyingCTE = true)) :
    commandIdPolicy c queryDesc eflags m = .ok (effectiveEflags c queryDesc eflags) m := by
  unfold commandIdPolicy effectiveEflags
  rw [hop]
  have hsel : selectOutputCid c queryDesc m = .ok () m := by
    unfold selectOutputCid
    rw [if_neg hrow]
    rfl
  simp only []
  rw [bind_ok hsel]
  have hcte : queryDesc.plannedstmt.hasModifyingCTE = false := by
    cases h : queryDesc.plannedstmt.hasModifyingCTE
    · rfl
    · exact absurd (Or.inr h) hrow
  simp [hcte]

theorem commandIdPolicy_other (c : Env) (queryDesc : QueryDesc) (eflags : Nat) (m : Machine)
    (code : Nat) (hop : queryDesc.operation = .other code) :
    commandIdPolicy c queryDesc eflags m =
      .err (.unrecognizedOperation (.other code)) m := by
  unfold commandIdPolicy
  rw [hop]
  rfl

theorem transactionModeGuard_ok (c : Env) (queryDesc : QueryDesc) (eflags : Nat)
    (m mg : Machine) (h : transactionModeGuard c queryDesc eflags m = .ok () mg) :
    mg.queryDesc = m.queryDesc ∧ mg.CurrentMemoryContext = m.CurrentMemoryContext ∧
      (mg.trace = m.trace ∨ mg.trace = m.trace ++ [.ExecCheckXactReadOnly]) := by
  unfold transactionModeGuard at h
  split at h
  · obtain ⟨u, m2, h1, h2⟩ := bind_eq_ok.1 h
    cases h1
    cases hr : ExecCheckXactReadOnly queryDesc.plannedstmt with
    | error e => rw [hr] at h2; cases h2
    | ok u1 =>
        rw [hr] at h2
        cases h2
        exact ⟨rfl, rfl, Or.inr rfl⟩
  · cases h
    exact ⟨rfl, rfl, Or.inl rfl⟩

/-- The machine `standard_ExecutorStart` ends on, once the guard has passed: up to the memory
context, it is the one the switch on the command kind and the rest end on. -/
theorem standard_ExecutorStart_machine (c : Env) (eflags : Nat) (m mg : Machine)
    (hstart : m.queryDesc.estate = none)
    (hguard : transactionModeGuard c m.queryDesc eflags m = .ok () mg) :
    (standard_ExecutorStart c eflags m).machine.trace =
        ((commandIdPolicy c m.queryDesc eflags >>= fun eflags1 =>
          startTail c m.queryDesc eflags1 mg.CurrentMemoryContext)
          (filledMachine c m.queryDesc mg)).machine.trace ∧
      (standard_ExecutorStart c eflags m).machine.queryDesc =
        ((commandIdPolicy c m.queryDesc eflags >>= fun eflags1 =>
          startTail c m.queryDesc eflags1 mg.CurrentMemoryContext)
          (filledMachine c m.queryDesc mg)).machine.queryDesc := by
  rw [standard_ExecutorStart_eq c eflags m hstart, bind_ok hguard,
    ← startAfterGuard_eq c m.queryDesc eflags mg]
  exact startTail_machine_trace _ _

/-! ## C7: the command identifier -/

/-- C7: on a query descriptor that has not been started and passes the transaction-mode guard,
`standard_ExecutorStart` requests a command identifier and stores it in `es_output_cid` when the
operation is INSERT, UPDATE or DELETE, or a SELECT whose plan has row marks or a modifying
CTE; otherwise it requests none and `es_output_cid` is the value `CreateExecutorState` gave
it.  This holds for the machine the call ends on, whether it succeeds or fails later. -/
theorem C7_command_id (c : Env) (eflags : Nat) (m mg : Machine)
    (hstart : m.queryDesc.estate = none)
    (hguard : transactionModeGuard c m.queryDesc eflags m = .ok () mg) :
    ∃ es1 evs,
      (standard_ExecutorStart c eflags m).machine.queryDesc.estate = some es1 ∧
      (standard_ExecutorStart c eflags m).machine.trace = m.trace ++ evs ∧
      (needsCommandId m.queryDesc →
        Event.GetCurrentCommandId (c.GetCurrentCommandId true) ∈ evs ∧
          es1.es_output_cid = c.GetCurrentCommandId true) ∧
      (¬ needsCommandId m.queryDesc →
        (∀ cid, Event.GetCurrentCommandId cid ∉ evs) ∧
          es1.es_output_cid =
            (CreateExecutorState c m.CurrentMemoryContext).es_output_cid) := by
  obtain ⟨htrace, hqd⟩ := standard_ExecutorStart_machine c eflags m mg hstart hguard
  obtain ⟨-, -, hgt⟩ := transactionModeGuard_ok c m.queryDesc eflags m mg hguard
  have hg0 : ∃ l0, mg.trace = m.trace ++ l0 ∧ ∀ e ∈ l0, e.isGetCurrentCommandId = false := by
    rcases hgt with h | h
    · exact ⟨[], by simp [h], by simp⟩
    · exact ⟨[.ExecCheckXactReadOnly], h, by simp [Event.isGetCurrentCommandId]⟩
  obtain ⟨l0, hl0, hq0⟩ := hg0
  -- the rest of the call requests no identifier and leaves `es_output_cid` alone
  have htail : ∀ (ef : Nat) (mq : Machine) (esq : EState), mq.queryDesc.estate = some esq →
      ∃ es1 l, (startTail c m.queryDesc ef mg.CurrentMemoryContext mq).machine.queryDesc.estate =
          some es1 ∧ es1.es_output_cid = esq.es_output_cid ∧
        (startTail c m.queryDesc ef mg.CurrentMemoryContext mq).machine.trace = mq.trace ++ l ∧
        ∀ e ∈ l, e.isGetCurrentCommandId = false := by
    intro ef mq esq hesq
    have hTt := tolerant_trace (fun e => e.isGetCurrentCommandId = false)
    have hTk := tolerant_keepsField (fun es => es.es_output_cid)
    have h1 : Frame (TraceRel (fun e => e.isGetCurrentCommandId = false))
        (startTail c m.queryDesc ef mg.CurrentMemoryContext) :=
      frame_startTail hTt c _ _ _ (fun _ _ => trace_modifyQueryDesc _ _)
        (fun e he => by cases e <;> first | rfl | exact he.elim)
        (fun stmt e he => by cases e <;> first | rfl | exact he.elim)
        (fun _ _ => trivial) (fun _ _ => trivial)
    have h2 : Frame (KeepsField (fun es => es.es_output_cid))
        (startTail c m.queryDesc ef mg.CurrentMemoryContext) :=
      frame_startTail hTk c _ _ _
        (fun _ _ => keepsField_modifyQueryDesc _ _ (fun _ => rfl))
        (fun _ _ => trivial) (fun _ _ _ => trivial)
        (by rintro f hf es; cases hf <;> rfl)
        (by rintro f (hf | hf | hf | hf | hf) es <;> cases hf <;> rfl)
    obtain ⟨l, hl, hq⟩ := h1 mq
    obtain ⟨es1, hes1, hcid⟩ := keepsField_some (h2 mq) hesq
    exact ⟨es1, l, hes1, hcid, hl, hq⟩
  have hfilled : (filledMachine c m.queryDesc mg).trace = m.trace ++ (l0 ++ [.CreateExecutorState]) := by
    simp [filledMachine, hl0]
  rw [htrace, hqd]
  by_cases hneed : needsCommandId m.queryDesc
  · rw [bind_ok (commandIdPolicy_need c m.queryDesc eflags _ _ rfl hneed)]
    obtain ⟨es1, l, hes1, hcid, hl, -⟩ := htail (effectiveEflags c m.queryDesc eflags)
      (cidMachine c (filledMachine c m.queryDesc mg)
        (filledEState m.queryDesc (CreateExecutorState c mg.CurrentMemoryContext))) _ rfl
    refine ⟨es1, l0 ++ [Event.CreateExecutorState,
      Event.GetCurrentCommandId (c.GetCurrentCommandId true)] ++ l, hes1, ?_, ?_, ?_⟩
    · rw [hl]
      simp [cidMachine, hfilled]
    · intro _
      exact ⟨by simp, hcid⟩
    · intro hn
      exact absurd hneed hn
  · cases hop : m.queryDesc.operation with
    | other code =>
        rw [bind_err (commandIdPolicy_other c m.queryDesc eflags _ code hop)]
        refine ⟨_, l0 ++ [Event.CreateExecutorState], rfl, hfilled, fun hn => absurd hn hneed, ?_⟩
        intro _
        refine ⟨?_, rfl⟩
        intro cid hmem
        rcases List.mem_append.1 hmem with h | h
        · exact absurd (hq0 _ h) (by simp [Event.isGetCurrentCommandId])
        · simp at h
    | CMD_SELECT =>
        have hrow : ¬ (m.queryDesc.plannedstmt.rowMarks ≠ [] ∨
            m.queryDesc.plannedstmt.hasModifyingCTE = true) :=
          fun h => hneed (Or.inr (Or.inr (Or.inr ⟨hop, h⟩)))
        rw [bind_ok (commandIdPolicy_plain c m.queryDesc eflags _ hop hrow)]
        obtain ⟨es1, l, hes1, hcid, hl, hq⟩ := htail (effectiveEflags c m.queryDesc eflags)
          (filledMachine c m.queryDesc mg) _ rfl
        refine ⟨es1, l0 ++ [Event.CreateExecutorState] ++ l, hes1, ?_, fun hn => absurd hn hneed, ?_⟩
        · rw [hl, hfilled, List.append_assoc]
        · intro _
          refine ⟨?_, hcid⟩
          intro cid hmem
          rcases List.mem_append.1 hmem with h | h
          · rcases List.mem_append.1 h with h1 | h1
            · exact absurd (hq0 _ h1) (by simp [Event.isGetCurrentCommandId])
            · simp at h1
          · exact absurd (hq _ h) (by simp [Event.isGetCurrentCommandId])
    | CMD_INSERT => exact absurd (Or.inl hop) hneed
    | CMD_UPDATE => exact absurd (Or.inr (Or.inl hop)) hneed
    | CMD_DELETE => exact absurd (Or.inr (Or.inr (Or.inl hop))) hneed

/-- C7 at sample inputs: an INSERT obtains a command identifier, a plain SELECT does not. -/
theorem C7_command_id_witness :
    (∃ es1 evs,
      (standard_ExecutorStart sampleEnv 0 insertQueryMachine).machine.queryDesc.estate =
        some es1 ∧
      (standard_ExecutorStart sampleEnv 0 insertQueryMachine).machine.trace = [] ++ evs ∧
      (needsCommandId insertQueryMachine.queryDesc →
        Event.GetCurrentCommandId (sampleEnv.GetCurrentCommandId true) ∈ evs ∧
          es1.es_output_cid = sampleEnv.GetCurrentCommandId true) ∧
      (¬ needsCommandId insertQueryMachine.queryDesc →
        (∀ cid, Event.GetCurrentCommandId cid ∉ evs) ∧
          es1.es_output_cid = (CreateExecutorState sampleEnv 0).es_output_cid)) ∧
    needsCommandId insertQueryMachine.queryDesc ∧
    ¬ needsCommandId (sampleMachine .CMD_SELECT sampleStmt).queryDesc :=
  ⟨C7_command_id sampleEnv 0 insertQueryMachine insertQueryMachine rfl rfl,
    by decide, by decide⟩

/-! ## C8: the effective flags and the trigger context -/

theorem lor_eq_zero (a b : Nat) : a ||| b = 0 ↔ a = 0 ∧ b = 0 := by
  constructor
  · intro h
    constructor
    · apply Nat.eq_of_testBit_eq
      intro i
      have := congrArg (fun n => n.testBit i) h
      simp only [Nat.testBit_or, Nat.zero_testBit, Bool.or_eq_false_iff] at this
      simpa using this.1
    · apply Nat.eq_of_testBit_eq
      intro i
      have := congrArg (fun n => n.testBit i) h
      simp only [Nat.testBit_or, Nat.zero_testBit, Bool.or_eq_false_iff] at this
      simpa using this.2
  · rintro ⟨rfl, rfl⟩
    rfl

theorem land_lor_eq_zero (x a b : Nat) : x &&& (a ||| b) = 0 ↔ x &&& a = 0 ∧ x &&& b = 0 := by
  rw [Nat.and_or_distrib_left, lor_eq_zero]

theorem lor_land_self (x a : Nat) : (x ||| a) &&& a = a := by
  apply Nat.eq_of_testBit_eq
  intro i
  simp only [Nat.testBit_and, Nat.testBit_or]
  cases x.testBit i <;> cases a.testBit i <;> rfl

theorem copyIntoEState_eq (c : Env) (queryDesc : QueryDesc) (eflags : Nat) (m : Machine)
    (es : EState) (hes : m.queryDesc.estate = some es) :
    copyIntoEState c queryDesc eflags m =
      .ok () { m with
        queryDesc := { m.queryDesc with estate := some (copiedEState c queryDesc eflags es) }
        trace := m.trace ++ registrationEvents c queryDesc } := by
  unfold copyIntoEState callRegisterSnapshot copiedEState registrationEvents
  simp [bind_apply, emit, modifyEState, hes]

theorem beginTriggerContext_eq (c : Env) (eflags : Nat) (m : Machine) :
    beginTriggerContext c eflags m =
      .ok () { m with trace := m.trace ++ triggerEvents c eflags } := by
  unfold beginTriggerContext triggerEvents
  by_cases h : eflags &&& c.EXEC_FLAG_SKIP_TRIGGERS = 0 ∧ eflags &&& c.EXEC_FLAG_EXPLAIN_ONLY = 0
  · have hc : (eflags &&& (c.EXEC_FLAG_SKIP_TRIGGERS ||| c.EXEC_FLAG_EXPLAIN_ONLY) == 0) = true := by
      simpa using (land_lor_eq_zero _ _ _).2 h
    rw [if_pos hc, if_pos h]
    rfl
  · have hc : ¬ (eflags &&& (c.EXEC_FLAG_SKIP_TRIGGERS ||| c.EXEC_FLAG_EXPLAIN_ONLY) == 0) = true := by
      intro hc
      exact h ((land_lor_eq_zero _ _ _).1 (by simpa using hc))
    rw [if_neg hc, if_neg h]
    simp

/-- The switch on a recognised command kind returns the effective flags and logs nothing but a
request for a command identifier. -/
theorem commandIdPolicy_recognized (c : Env) (queryDesc : QueryDesc) (eflags : Nat)
    (m : Machine) (es : EState) (hes : m.queryDesc.estate = some es)
    (hop : ∀ code, queryDesc.operation ≠ .other code) :
    ∃ mq esq lc, commandIdPolicy c queryDesc eflags m =
        .ok (effectiveEflags c queryDesc eflags) mq ∧
      mq.queryDesc.estate = some esq ∧ mq.trace = m.trace ++ lc ∧
      ∀ e ∈ lc, e.isGetCurrentCommandId = true := by
  by_cases hneed : needsCommandId queryDesc
  · exact ⟨cidMachine c m es, _, [.GetCurrentCommandId (c.GetCurrentCommandId true)],
      commandIdPolicy_need c queryDesc eflags m es hes hneed, rfl, rfl, by simp [Event.isGetCurrentCommandId]⟩
  · cases hq : queryDesc.operation with
    | other code => exact absurd hq (hop code)
    | CMD_SELECT =>
        exact ⟨m, es, [], commandIdPolicy_plain c queryDesc eflags m hq
          (fun h => hneed (Or.inr (Or.inr (Or.inr ⟨hq, h⟩)))), hes, by simp, by simp⟩
    | CMD_INSERT => exact absurd (Or.inl hq) hneed
    | CMD_UPDATE => exact absurd (Or.inr (Or.inl hq)) hneed
    | CMD_DELETE => exact absurd (Or.inr (Or.inr (Or.inl hq))) hneed

theorem bind_pure_machine {α β : Type} (x : Exec α) (b : β) (m : Machine) :
    ((x >>= fun _ => (pure b : Exec β)) m).machine = (x m).machine := by
  rw [bind_apply]
  cases x m <;> rfl

theorem startTail_eq (c : Env) (queryDesc : QueryDesc) (eflags : Nat)
    (oldcontext : MemoryContext) (mq : Machine) (esq : EState)
    (hesq : mq.queryDesc.estate = some esq) :
    startTail c queryDesc eflags oldcontext mq =
      (InitPlan c eflags >>= fun _ => (pure oldcontext : Exec MemoryContext))
        (initPlanCallMachine c queryDesc eflags mq esq) := by
  unfold startTail
  rw [bind_ok (copyIntoEState_eq c queryDesc _ mq esq hesq),
    bind_ok (beginTriggerContext_eq c _ _)]
  rfl

/-- A step that only logs and writes the execution state keeps the planned statement. -/
theorem tolerant_keepsStmt :
    Tolerant (fun a b : Machine => b.queryDesc.plannedstmt = a.queryDesc.plannedstmt)
      (fun _ => True) (fun _ => True) where
  rel := ⟨fun _ => rfl, fun _ _ _ h1 h2 => h2.trans h1⟩
  onEmit := fun _ _ _ => rfl
  onModify := by
    intro f _ m0
    unfold modifyEState
    cases m0.queryDesc.estate <;> rfl

theorem commandIdEvent_props (e : Event) (h : e.isGetCurrentCommandId = true) :
    e ≠ .AfterTriggerBeginQuery ∧ e.isExecInitNode = false := by
  cases e <;> first
    | exact ⟨fun h1 => Event.noConfusion h1, rfl⟩
    | exact absurd h (by simp [Event.isGetCurrentCommandId])

/-- C8: on a query descriptor that has not been started, passes the transaction-mode guard and
has a recognised command kind, let the effective flags be `eflags` with
`EXEC_FLAG_SKIP_TRIGGERS` added when the operation is a SELECT without a modifying CTE.  Then
`es_top_eflags` is the effective flags; the log of the call is `pre`, then the opening of the
trigger context exactly when the effective flags contain neither `EXEC_FLAG_SKIP_TRIGGERS` nor
`EXEC_FLAG_EXPLAIN_ONLY`, then `post`, where `pre` contains no call of the node initializer and
`post` consists of the calls of `InitPlan`; and for a SELECT without row marks and without a
modifying CTE `es_top_eflags` has the skip flag and, the flag being a non-zero mask, the trigger
context is not opened.  This holds whether `InitPlan` succeeds or fails. -/
theorem C8_trigger_context (c : Env) (eflags : Nat) (m mg : Machine)
    (hstart : m.queryDesc.estate = none)
    (hguard : transactionModeGuard c m.queryDesc eflags m = .ok () mg)
    (hop : ∀ code, m.queryDesc.operation ≠ .other code) :
    ∃ es1 pre post,
      (standard_ExecutorStart c eflags m).machine.queryDesc.estate = some es1 ∧
      es1.es_top_eflags = effectiveEflags c m.queryDesc eflags ∧
      (standard_ExecutorStart c eflags m).machine.trace =
        m.trace ++ (pre ++ triggerEvents c (effectiveEflags c m.queryDesc eflags) ++ post) ∧
      (∀ e ∈ pre, e ≠ .AfterTriggerBeginQuery ∧ e.isExecInitNode = false) ∧
      (∀ e ∈ post, InitPlanEvent m.queryDesc.plannedstmt e) ∧
      (m.queryDesc.operation = .CMD_SELECT → m.queryDesc.plannedstmt.rowMarks = [] →
        m.queryDesc.plannedstmt.hasModifyingCTE = false →
        es1.es_top_eflags &&& c.EXEC_FLAG_SKIP_TRIGGERS = c.EXEC_FLAG_SKIP_TRIGGERS ∧
          (c.EXEC_FLAG_SKIP_TRIGGERS ≠ 0 →
            Event.AfterTriggerBeginQuery ∉
              pre ++ triggerEvents c (effectiveEflags c m.queryDesc eflags) ++ post)) := by
  obtain ⟨htrace, hqd⟩ := standard_ExecutorStart_machine c eflags m mg hstart hguard
  obtain ⟨hgq, -, hgt⟩ := transactionModeGuard_ok c m.queryDesc eflags m mg hguard
  have hg0 : ∃ l0, mg.trace = m.trace ++ l0 ∧
      ∀ e ∈ l0, e ≠ .AfterTriggerBeginQuery ∧ e.isExecInitNode = false := by
    rcases hgt with h | h
    · exact ⟨[], by simp [h], by simp⟩
    · exact ⟨[.ExecCheckXactReadOnly], h, by simp [Event.isExecInitNode]⟩
  obtain ⟨l0, hl0, hq0⟩ := hg0
  obtain ⟨mq, esq, lc, hpol, hesq, htq, hlc⟩ :=
    commandIdPolicy_recognized c m.queryDesc eflags (filledMachine c m.queryDesc mg) _ rfl hop
  have hstmt : mq.queryDesc.plannedstmt = m.queryDesc.plannedstmt := by
    have := frame_of_ok
      (frame_commandIdPolicy tolerant_keepsStmt c m.queryDesc eflags (fun _ => trivial)
        (fun _ _ => trivial)) hpol
    rw [this]
    exact (show (filledMachine c m.queryDesc mg).queryDesc.plannedstmt =
      mg.queryDesc.plannedstmt from rfl).trans (congrArg QueryDesc.plannedstmt hgq)
  rw [htrace, hqd, bind_ok hpol, startTail_eq c _ _ _ mq esq hesq, bind_pure_machine]
  -- what `InitPlan` does to the log and to `es_top_eflags`
  have ht := trace_InitPlan c (effectiveEflags c m.queryDesc eflags)
    (initPlanCallMachine c m.queryDesc (effectiveEflags c m.queryDesc eflags) mq esq)
  have hTk := tolerant_keepsField (fun es => es.es_top_eflags)
  have hk := frame_InitPlan hTk c (effectiveEflags c m.queryDesc eflags)
    (fun _ _ => keepsField_modifyQueryDesc _ _ (fun _ => rfl)) (fun _ _ _ => trivial)
    (by rintro f (hf | hf | hf | hf | hf) es <;> cases hf <;> rfl)
    (initPlanCallMachine c m.queryDesc (effectiveEflags c m.queryDesc eflags) mq esq)
  obtain ⟨es1, hes1, htop0⟩ := keepsField_some hk rfl
  have htop : es1.es_top_eflags = effectiveEflags c m.queryDesc eflags := htop0
  obtain ⟨post, hpost, hpq⟩ := ht
  have hpq1 : ∀ e ∈ post, InitPlanEvent m.queryDesc.plannedstmt e := by
    intro e he
    have := hpq e he
    rw [show (initPlanCallMachine c m.queryDesc (effectiveEflags c m.queryDesc eflags) mq
      esq).queryDesc.plannedstmt = mq.queryDesc.plannedstmt from rfl, hstmt] at this
    exact this
  have hpre : ∀ e ∈ l0 ++ [Event.CreateExecutorState] ++ lc ++ registrationEvents c m.queryDesc,
      e ≠ .AfterTriggerBeginQuery ∧ e.isExecInitNode = false := by
    intro e he
    simp only [List.mem_append, List.mem_singleton] at he
    rcases he with ((h | h) | h) | h
    · exact hq0 e h
    · subst h
      exact ⟨by simp, rfl⟩
    · exact commandIdEvent_props e (hlc e h)
    · unfold registrationEvents at h
      simp only [List.mem_cons, List.mem_singleton, List.not_mem_nil, or_false] at h
      rcases h with h | h <;> subst h <;> exact ⟨by simp, rfl⟩
  refine ⟨es1, l0 ++ [Event.CreateExecutorState] ++ lc ++ registrationEvents c m.queryDesc,
    post, hes1, htop, ?_, hpre, hpq1, ?_⟩
  · rw [hpost]
    simp [initPlanCallMachine, htq, filledMachine, hl0]
  · intro hsel hrow hcte
    have heff : effectiveEflags c m.queryDesc eflags = eflags ||| c.EXEC_FLAG_SKIP_TRIGGERS := by
      unfold effectiveEflags
      rw [if_pos ⟨hsel, hcte⟩]
    refine ⟨by rw [htop, heff, lor_land_self], ?_⟩
    intro hskip hmem
    have htrig : triggerEvents c (effectiveEflags c m.queryDesc eflags) = [] := by
      unfold triggerEvents
      rw [if_neg]
      rintro ⟨h1, -⟩
      rw [heff, lor_land_self] at h1
      exact hskip h1
    rw [htrig, List.append_nil] at hmem
    rcases List.mem_append.1 hmem with h | h
    · exact (hpre _ h).1 rfl
    · exact hpq1 _ h

/-- C8 at sample inputs: a plain SELECT gets the skip flag and no trigger context. -/
theorem C8_trigger_context_witness :
    ∃ es1 pre post,
      (standard_ExecutorStart sampleEnv 0 selectQueryMachine).machine.queryDesc.estate =
        some es1 ∧
      es1.es_top_eflags = effectiveEflags sampleEnv selectQueryMachine.queryDesc 0 ∧
      (standard_ExecutorStart sampleEnv 0 selectQueryMachine).machine.trace =
        [] ++ (pre ++
          triggerEvents sampleEnv (effectiveEflags sampleEnv selectQueryMachine.queryDesc 0) ++
          post) ∧
      (∀ e ∈ pre, e ≠ .AfterTriggerBeginQuery ∧ e.isExecInitNode = false) ∧
      (∀ e ∈ post, InitPlanEvent sampleStmt e) ∧
      (CmdType.CMD_SELECT = .CMD_SELECT → sampleStmt.rowMarks = [] →
        sampleStmt.hasModifyingCTE = false →
        es1.es_top_eflags &&& sampleEnv.EXEC_FLAG_SKIP_TRIGGERS =
            sampleEnv.EXEC_FLAG_SKIP_TRIGGERS ∧
          (sampleEnv.EXEC_FLAG_SKIP_TRIGGERS ≠ 0 →
            Event.AfterTriggerBeginQuery ∉ pre ++
              triggerEvents sampleEnv
                (effectiveEflags sampleEnv selectQueryMachine.queryDesc 0) ++ post)) :=
  C8_trigger_context sampleEnv 0 selectQueryMachine selectQueryMachine rfl rfl
    (fun code h => by cases h)

/-! ## C9: no write targets -/

/-- C9: when the plan declares no write targets and `InitPlan` succeeds, the five
write-bookkeeping fields are absent or zero whatever they held before, no bookkeeping entry is
initialised, and a table is opened only for a non-parent row mark: none of the partition-root
targets the plan may declare is opened. -/
theorem C9_no_result_relations (c : Env) (eflags : Nat) (m m1 : Machine)
    (hres : m.queryDesc.plannedstmt.resultRelations = [])
    (h : InitPlan c eflags m = .ok () m1) :
    ∃ es1 evs, m1.queryDesc.estate = some es1 ∧
      es1.es_result_relations = none ∧ es1.es_num_result_relations = 0 ∧
      es1.es_result_relation_info = none ∧
      es1.es_root_result_relations = none ∧ es1.es_num_root_result_relations = 0 ∧
      m1.trace = m.trace ++ evs ∧
      (∀ rti, Event.InitResultRelInfo rti ∉ evs) ∧
      (∀ rti r, Event.ExecGetRangeTableRelation rti r ∈ evs →
        ∃ rc ∈ m.queryDesc.plannedstmt.rowMarks, rc.isParent = false ∧ rc.rti = rti) := by
  obtain ⟨s⟩ := InitPlan_ok_run c eflags m m1 h
  -- the write-target stage resets the five fields
  have hmc : ∃ esb : EState, s.mc.queryDesc.estate = some
      { esb with es_result_relations := none
                 es_num_result_relations := 0
                 es_result_relation_info := none
                 es_root_result_relations := none
                 es_num_root_result_relations := 0 } := by
    have hr := s.resultRels
    unfold initResultRelations at hr
    simp only [hres, ne_eq, not_true_eq_false, if_false] at hr
    unfold modifyEState at hr
    cases hq : s.mb.queryDesc.estate with
    | none => rw [hq] at hr; cases hr
    | some esb =>
        rw [hq] at hr
        refine ⟨esb, ?_⟩
        rw [← (Res.ok.inj hr).2]
  obtain ⟨esb, hesc⟩ := hmc
  -- and nothing later writes them
  have hkeep : KeepsField (fun es => (es.es_result_relations, es.es_num_result_relations,
      es.es_result_relation_info, es.es_root_result_relations,
      es.es_num_root_result_relations)) s.mc s.mf := by
    have hT := tolerant_keepsField (fun es => (es.es_result_relations,
      es.es_num_result_relations, es.es_result_relation_info, es.es_root_result_relations,
      es.es_num_root_result_relations))
    have a1 := stages_rowMarks s hT (fun _ _ => trivial) (by rintro f hf es; cases hf <;> rfl)
    have a2 := stages_toRoot s hT (fun _ _ _ => trivial)
      (by rintro f hf es; cases hf <;> rfl)
    have a3 := stages_tupType s hT trivial trivial (by rintro f hf es; cases hf <;> rfl)
    exact hT.rel.trans _ _ _ (hT.rel.trans _ _ _ a1 a2) a3
  obtain ⟨es1, hes1, hg⟩ := keepsField_some hkeep hesc
  obtain ⟨evs, hevs, hq⟩ := trace_InitPlan c eflags m
  rw [h] at hevs
  simp only [Prod.mk.injEq] at hg
  obtain ⟨g1, g2, g3, g4, g5⟩ := hg
  refine ⟨es1, evs, (stages_estate s).trans hes1, g1, g2, g3, g4, g5, hevs, ?_, ?_⟩
  · intro rti hmem
    exact (hq _ hmem).1 hres
  · intro rti r hmem
    rcases hq _ hmem with hw | hrow
    · exact absurd hres hw.1
    · exact hrow

/-- C9 at a sample input: stale bookkeeping and a declared partition root, no write target. -/
theorem C9_no_result_relations_witness :
    ∃ es1 evs, (InitPlan sampleEnv 0 staleMachine).machine.queryDesc.estate = some es1 ∧
      es1.es_result_relations = none ∧ es1.es_num_result_relations = 0 ∧
      es1.es_result_relation_info = none ∧
      es1.es_root_result_relations = none ∧ es1.es_num_root_result_relations = 0 ∧
      (InitPlan sampleEnv 0 staleMachine).machine.trace = [] ++ evs ∧
      (∀ rti, Event.InitResultRelInfo rti ∉ evs) ∧
      (∀ rti r, Event.ExecGetRangeTableRelation rti r ∈ evs →
        ∃ rc ∈ rootOnlyStmt.rowMarks, rc.isParent = false ∧ rc.rti = rti) :=
  C9_no_result_relations sampleEnv 0 staleMachine (InitPlan sampleEnv 0 staleMachine).machine
    rfl rfl

/-! ## C10: what a failed start leaves in the query descriptor -/

theorem frameErr_of_frame {R : Machine → Machine → Prop} {α : Type} {x : Exec α}
    (hx : Frame R x) : FrameErr R x := by
  intro m e m1 h
  have := hx m
  rw [h] at this
  exact this

theorem frameErr_bind {R : Machine → Machine → Prop} (hR : FrameRel R) {α β : Type}
    {x : Exec α} {f : α → Exec β} (hx : Frame R x) (hf : ∀ a, FrameErr R (f a)) :
    FrameErr R (x >>= f) := by
  intro m e m1 h
  rcases bind_eq_err.1 h with h1 | ⟨a, m2, h1, h2⟩
  · exact frameErr_of_frame hx m e m1 h1
  · exact hR.trans _ _ _ (frame_of_ok hx h1) (hf a m2 e m1 h2)

theorem frameErr_bind_neverFails {R : Machine → Machine → Prop} {α β : Type}
    {x : Exec α} {f : α → Exec β} (hx : FrameErr R x) (hf : ∀ a, NeverFails (f a)) :
    FrameErr R (x >>= f) := by
  intro m e m1 h
  rcases bind_eq_err.1 h with h1 | ⟨a, m2, h1, h2⟩
  · exact hx m e m1 h1
  · have := hf a m2
    rw [h2] at this
    cases this

theorem neverFails_pure {α : Type} (a : α) : NeverFails (pure a : Exec α) := fun _ => rfl

theorem neverFails_modifyQueryDesc (f : QueryDesc → QueryDesc) :
    NeverFails (modifyQueryDesc f) := fun _ => rfl

theorem neverFails_switchBack (oldcontext : MemoryContext) :
    NeverFails (MemoryContextSwitchTo oldcontext >>= fun _ => (pure () : Exec Unit)) :=
  fun _ => rfl

/-- A failure of `InitPlan` happens before its two results are stored. -/
theorem frameErr_InitPlan (c : Env) (eflags : Nat) : FrameErr KeepsResults (InitPlan c eflags) := by
  intro m e m1 h
  have hunfold : InitPlan c eflags m =
      (InitPlanSteps c m.queryDesc eflags >>= fun r =>
        modifyQueryDesc (fun qd =>
          { qd with tupDesc := some r.2, planstate := some r.1 })) m := rfl
  rw [hunfold] at h
  exact frameErr_bind_neverFails
    (frameErr_of_frame (frame_InitPlanSteps tolerant_keepsResults c m.queryDesc eflags
      (fun _ _ => trivial) (fun _ _ => trivial)))
    (fun r => neverFails_modifyQueryDesc _) m e m1 h

theorem frameErr_startAfterGuard (c : Env) (queryDesc : QueryDesc) (eflags : Nat) :
    FrameErr KeepsResults (startAfterGuard c queryDesc eflags) := by
  have hT := tolerant_keepsResults
  unfold startAfterGuard
  refine frameErr_bind hT.rel (fun m => ⟨rfl, rfl⟩) (fun oldcontext => ?_)
  refine frameErr_bind hT.rel (frame_fillParameters hT _ (fun _ _ => trivial)) (fun _ => ?_)
  refine frameErr_bind hT.rel
    (frame_commandIdPolicy hT c _ _ (fun _ => trivial) (fun _ _ => trivial)) (fun ef => ?_)
  refine frameErr_bind hT.rel
    (frame_copyIntoEState hT c _ _ (fun _ _ => trivial) (fun _ _ => trivial)) (fun _ => ?_)
  refine frameErr_bind hT.rel (frame_beginTriggerContext hT c _ trivial) (fun _ => ?_)
  exact frameErr_bind_neverFails (frameErr_InitPlan c ef) (fun _ => neverFails_pure _)

theorem frame_transactionModeGuard {R : Machine → Machine → Prop} {E : Event → Prop}
    {F : (EState → EState) → Prop} (hT : Tolerant R E F) (c : Env) (queryDesc : QueryDesc)
    (eflags : Nat) (h : E .ExecCheckXactReadOnly) :
    Frame R (transactionModeGuard c queryDesc eflags) := by
  unfold transactionModeGuard
  exact frame_ite (frame_bind hT.rel (hT.onEmit _ h) (fun _ => frame_ofExcept hT.rel _))
    (frame_pure hT.rel _)

theorem frame_of_err_onlyLogs (c : Env) (queryDesc : QueryDesc) (eflags : Nat)
    (m : Machine) (e : ExecError) (mg : Machine)
    (h : transactionModeGuard c queryDesc eflags m = .err e mg) :
    mg.queryDesc = m.queryDesc :=
  (frameErr_of_frame (frame_transactionModeGuard tolerant_onlyLogs c queryDesc eflags trivial)
    m e mg h).1

/-- C10 as stated fails: on a query descriptor with an unrecognised command kind, and on one
whose permission check refuses, `standard_ExecutorStart` fails after line 82 has stored the new
execution state in `queryDesc->estate`, which is therefore no longer absent. -/
theorem C10_counterexample :
    (unrecognizedMachine.queryDesc.estate = none ∧
      (standard_ExecutorStart sampleEnv 0 unrecognizedMachine).isOk = false ∧
      (standard_ExecutorStart sampleEnv 0 unrecognizedMachine).machine.queryDesc.estate ≠
        unrecognizedMachine.queryDesc.estate) ∧
    (selectQueryMachine.queryDesc.estate = none ∧
      (standard_ExecutorStart noPermissionEnv 0 selectQueryMachine).isOk = false ∧
      (standard_ExecutorStart noPermissionEnv 0 selectQueryMachine).machine.queryDesc.estate ≠
        selectQueryMachine.queryDesc.estate) :=
  ⟨⟨rfl, rfl, by decide⟩, ⟨rfl, rfl, by decide⟩⟩

/-- C10, amended: when `standard_ExecutorStart` fails, `queryDesc->planstate` and
`queryDesc->tupDesc` are what they were before the call; `queryDesc->estate` is what it was
before the call when the failure is the entry assertion or the transaction-mode guard, and
holds an execution state when the guard has passed and the failure comes later. -/
theorem C10_failed_start (c : Env) (eflags : Nat) (m m1 : Machine) (e : ExecError)
    (h : standard_ExecutorStart c eflags m = .err e m1) :
    m1.queryDesc.planstate = m.queryDesc.planstate ∧
    m1.queryDesc.tupDesc = m.queryDesc.tupDesc ∧
    (m.queryDesc.estate ≠ none → m1.queryDesc.estate = m.queryDesc.estate) ∧
    (∀ e1 mg, transactionModeGuard c m.queryDesc eflags m = .err e1 mg →
      m1.queryDesc.estate = m.queryDesc.estate) ∧
    (m.queryDesc.estate = none →
      ∀ mg, transactionModeGuard c m.queryDesc eflags m = .ok () mg →
        ∃ es1, m1.queryDesc.estate = some es1) := by
  have hm1 : (standard_ExecutorStart c eflags m).machine = m1 := by rw [h]; rfl
  cases hes : m.queryDesc.estate with
  | some es =>
      rw [standard_ExecutorStart_started c eflags m es hes] at h
      cases h
      refine ⟨rfl, rfl, fun _ => hes, fun _ _ _ => hes, fun hn => by cases hn⟩
  | none =>
      have hT := tolerant_keepsResults
      have hres : KeepsResults m m1 := by
        rw [standard_ExecutorStart_eq c eflags m hes] at h
        refine frameErr_bind hT.rel (frame_transactionModeGuard hT c _ _ trivial) (fun _ => ?_)
          m e m1 h
        exact frameErr_bind_neverFails (frameErr_startAfterGuard c _ _)
          (fun old => neverFails_switchBack old)
      refine ⟨hres.1, hres.2, fun hne => absurd rfl hne, ?_, ?_⟩
      · intro e1 mg hg
        rw [standard_ExecutorStart_eq c eflags m hes, bind_err hg] at h
        obtain ⟨-, hmg⟩ := Res.err.inj h
        have := frame_of_err_onlyLogs c m.queryDesc eflags m e1 mg hg
        rw [← hes, ← hmg]
        exact congrArg QueryDesc.estate this
      · intro _ mg hg
        obtain ⟨-, hqd⟩ := standard_ExecutorStart_machine c eflags m mg hes hg
        rw [hm1] at hqd
        have hTk := tolerant_keepsField (fun _ : EState => ())
        have hk : Frame (KeepsField (fun _ : EState => ()))
            (commandIdPolicy c m.queryDesc eflags >>= fun eflags1 =>
              startTail c m.queryDesc eflags1 mg.CurrentMemoryContext) :=
          frame_bind hTk.rel
            (frame_commandIdPolicy hTk c _ _ (fun _ => trivial) (fun _ _ _ => rfl))
            (fun ef => frame_startTail hTk c _ _ _
              (fun _ _ => keepsField_modifyQueryDesc _ _ (fun _ => rfl))
              (fun _ _ => trivial) (fun _ _ _ => trivial) (fun _ _ _ => rfl)
              (fun _ _ _ => rfl))
        obtain ⟨es1, hes1, -⟩ := keepsField_some (hk (filledMachine c m.queryDesc mg)) rfl
        exact ⟨es1, by rw [hqd]; exact hes1⟩

/-- C10, amended, at a sample input: the unrecognised command kind. -/
theorem C10_failed_start_witness :
    (standard_ExecutorStart sampleEnv 0 unrecognizedMachine).machine.queryDesc.planstate =
        unrecognizedMachine.queryDesc.planstate ∧
      (standard_ExecutorStart sampleEnv 0 unrecognizedMachine).machine.queryDesc.tupDesc =
        unrecognizedMachine.queryDesc.tupDesc ∧
      ∃ es1, (standard_ExecutorStart sampleEnv 0 unrecognizedMachine).machine.queryDesc.estate =
        some es1 :=
  have h := C10_failed_start sampleEnv 0 unrecognizedMachine
    (standard_ExecutorStart sampleEnv 0 unrecognizedMachine).machine
    (.unrecognizedOperation (.other 5)) rfl
  ⟨h.1, h.2.1, h.2.2.2.2 rfl unrecognizedMachine rfl⟩


/-! ## Unrecognised lock kinds in the row-mark loop -/

theorem noUnrecognizedRowMark_frameRel : FrameRel NoUnrecognizedRowMark where
  refl := fun _ => Or.inl rfl
  trans := by
    rintro m1 m2 m3 h12 (h | h)
    · rcases h12 with h1 | h1
      · exact Or.inl (h.trans h1)
      · refine Or.inr (fun arr erm ha hm => h1 arr erm ?_ hm)
        rw [← h]
        exact ha
    · exact Or.inr h

theorem rowMarksOf_modifyEState (f : EState → EState)
    (hf : ∀ es, (f es).es_rowmarks = es.es_rowmarks) (m : Machine) :
    rowMarksOf (modifyEState f m).machine = rowMarksOf m := by
  unfold modifyEState rowMarksOf
  cases h : m.queryDesc.estate with
  | none => simp [Res.machine, h]
  | some es => simp [Res.machine, hf]

/-- Logging a call and writing a field other than `es_rowmarks` leave the array as it is. -/
theorem tolerant_noUnrecognizedRowMark :
    Tolerant NoUnrecognizedRowMark (fun _ => True)
      (fun f => ∀ es, (f es).es_rowmarks = es.es_rowmarks) where
  rel := noUnrecognizedRowMark_frameRel
  onEmit := fun _ _ _ => Or.inl rfl
  onModify := fun f hf m => Or.inl (rowMarksOf_modifyEState f hf m)

theorem recognized_of_queryDesc {m m1 : Machine} (h : m1.queryDesc = m.queryDesc)
    (hm : RecognizedRowMarks m) : RecognizedRowMarks m1 := by
  intro arr erm ha
  unfold rowMarksOf at ha
  rw [h] at ha
  exact hm arr erm ha

theorem silent_err {α : Type} {x : Exec α} (hx : Silent x) {m m1 : Machine} {e : ExecError}
    (h : x m = .err e m1) : m1 = m := by
  have := hx m
  rw [h] at this
  exact this

/-- A failing `storeRowMark` has written nothing. -/
theorem storeRowMark_err (erm : ExecRowMark) (m m1 : Machine) (e : ExecError)
    (h : storeRowMark erm m = .err e m1) : m1 = m := by
  unfold storeRowMark at h
  rcases bind_eq_err.1 h with h1 | ⟨es, m2, h1, h2⟩
  · exact silent_err silent_getEState h1
  · obtain ⟨hm2, hes⟩ := getEState_ok h1
    subst hm2
    cases harr : es.es_rowmarks with
    | none =>
        simp only [harr] at h2
        exact (Res.err.inj h2).2.symm
    | some arr =>
        simp only [harr] at h2
        rcases bind_eq_err.1 h2 with h3 | ⟨u, m3, h3, h4⟩
        · exact silent_err (silent_Assert _ _) h3
        · have hm3 := silent_ok (silent_Assert _ _) h3
          subst hm3
          unfold modifyEState at h4
          rw [hes] at h4
          cases h4

theorem recognized_storeRowMark (erm : ExecRowMark) (herm : erm.markType.isRecognized = true)
    (m : Machine) (hm : RecognizedRowMarks m) :
    RecognizedRowMarks (storeRowMark erm m).machine := by
  cases hr : storeRowMark erm m with
  | err e m1 =>
      rw [show (Res.err e m1 : Res Unit).machine = m1 from rfl, storeRowMark_err erm m m1 e hr]
      exact hm
  | ok u m1 =>
      show RecognizedRowMarks m1
      cases hes : m.queryDesc.estate with
      | none =>
          unfold storeRowMark at hr
          rw [bind_apply] at hr
          unfold getEState at hr
          rw [hes] at hr
          cases hr
      | some es =>
          cases harr : es.es_rowmarks with
          | none =>
              unfold storeRowMark at hr
              rw [bind_ok (show getEState m = .ok es m by unfold getEState; rw [hes])] at hr
              simp only [harr] at hr
              cases hr
          | some rowmarks =>
              obtain ⟨-, -, -, h⟩ := storeRowMark_ok erm m m1 es rowmarks hes harr hr
              intro arr erm1 ha hmem
              rw [h] at ha
              have harr1 : arr = rowmarks.set (erm.rti - 1) (some erm) := by
                simpa [rowMarksOf] using ha.symm
              subst harr1
              rcases List.mem_or_eq_of_mem_set hmem with h1 | h1
              · exact hm rowmarks erm1 (by simp [rowMarksOf, hes, harr]) h1
              · cases h1
                exact herm

theorem frame_checkRowMarkRel_onlyLogs (c : Env) (relation : Option Relation)
    (markType : RowMarkType) : Frame OnlyLogs (checkRowMarkRel c relation markType) := by
  unfold checkRowMarkRel
  cases relation with
  | none => exact frame_pure onlyLogs_frameRel _
  | some rel => exact frame_callCheckValidRowMarkRel tolerant_onlyLogs c rel _ trivial

/-- The body of the row-mark loop stores a descriptor only of a recognised kind. -/
theorem recognized_initRowMark (c : Env) (rc : PlanRowMark) (m : Machine)
    (hm : RecognizedRowMarks m) : RecognizedRowMarks (initRowMark c rc m).machine := by
  unfold initRowMark
  cases hp : rc.isParent with
  | true => exact hm
  | false =>
      simp only [Bool.false_eq_true, if_false]
      rw [bind_apply]
      cases hf : exec_rt_fetch rc.rti m with
      | err e m2 =>
          rw [silent_err (silent_exec_rt_fetch _) hf]
          exact hm
      | ok rte m2 =>
          rw [silent_ok (silent_exec_rt_fetch _) hf]
          simp only []
          rw [bind_apply]
          have hopen := frame_openRowMarkRelation tolerant_onlyLogs c rc (fun _ => trivial) m
          cases ho : openRowMarkRelation c rc m with
          | err e m3 =>
              rw [ho] at hopen
              exact recognized_of_queryDesc hopen.1 hm
          | ok relation m3 =>
              rw [ho] at hopen
              have hm3 := recognized_of_queryDesc hopen.1 hm
              obtain ⟨-, evs, -, hrel⟩ := openRowMarkRelation_ok c rc m m3 relation ho
              have hrec : rc.markType.isRecognized = true := by
                unfold RelationFor at hrel
                cases hmt : rc.markType <;> first | rfl | (rw [hmt] at hrel; exact hrel.elim)
              simp only []
              rw [bind_apply]
              have hc := frame_checkRowMarkRel_onlyLogs c relation rc.markType m3
              cases hk : checkRowMarkRel c relation rc.markType m3 with
              | err e m4 =>
                  rw [hk] at hc
                  exact recognized_of_queryDesc hc.1 hm3
              | ok u m4 =>
                  rw [hk] at hc
                  exact recognized_storeRowMark _ hrec m4 (recognized_of_queryDesc hc.1 hm3)

theorem recognized_initRowMarks (c : Env) (l : List PlanRowMark) :
    ∀ m, RecognizedRowMarks m → RecognizedRowMarks (initRowMarks c l m).machine := by
  induction l with
  | nil => exact fun m hm => hm
  | cons rc rest ih =>
      intro m hm
      unfold initRowMarks
      rw [bind_apply]
      have h1 := recognized_initRowMark c rc m hm
      cases hr : initRowMark c rc m with
      | err e m1 => rw [hr] at h1; exact h1
      | ok u m1 => rw [hr] at h1; exact ih m1 h1

/-- The row-mark stage, whatever its outcome, leaves `es_rowmarks` as it was or with
descriptors of recognised kinds only. -/
theorem frame_initRowMarksIfAny_recognized (c : Env) (plannedstmt : PlannedStmt) :
    Frame NoUnrecognizedRowMark (initRowMarksIfAny c plannedstmt) := by
  intro m
  unfold initRowMarksIfAny
  by_cases hne : plannedstmt.rowMarks = []
  · simp only [hne, ne_eq, not_true_eq_false, if_false]
    exact Or.inl rfl
  · simp only [ne_eq, hne, not_false_eq_true, if_true]
    rw [bind_apply]
    unfold modifyEState
    cases hes : m.queryDesc.estate with
    | none => exact Or.inl rfl
    | some es =>
        refine Or.inr (recognized_initRowMarks c _ _ ?_)
        intro arr erm ha hmem
        have : arr = List.replicate es.es_range_table_size none := by
          simpa [rowMarksOf] using ha.symm
        subst this
        simp [List.mem_replicate] at hmem

/-- Whatever its outcome, `InitPlan` leaves `es_rowmarks` as it was or with descriptors of
recognised kinds only. -/
theorem frame_InitPlan_recognized (c : Env) (eflags : Nat) :
    Frame NoUnrecognizedRowMark (InitPlan c eflags) := by
  have hT := tolerant_noUnrecognizedRowMark
  have hsteps : ∀ queryDesc, Frame NoUnrecognizedRowMark (InitPlanSteps c queryDesc eflags) := by
    intro queryDesc
    unfold InitPlanSteps
    refine frame_bind hT.rel (hT.onEmit _ trivial) (fun _ => ?_)
    refine frame_bind hT.rel (frame_ofExcept hT.rel _) (fun _ => ?_)
    unfold InitPlanAfterPermissions
    refine frame_bind hT.rel
      (frame_ExecInitRangeTable hT _ trivial (by rintro f hf es; cases hf <;> rfl)) (fun _ => ?_)
    refine frame_bind hT.rel (hT.onModify _ (fun _ => rfl)) (fun _ => ?_)
    refine frame_bind hT.rel
      (frame_initResultRelations hT c _ (fun _ _ _ => ⟨fun _ => trivial, trivial⟩)
        (by rintro f hf es; cases hf <;> rfl)) (fun _ => ?_)
    unfold InitPlanFromRowMarks
    refine frame_bind hT.rel (frame_initRowMarksIfAny_recognized c _) (fun _ => ?_)
    refine frame_bind hT.rel (hT.onModify _ (fun _ => rfl)) (fun _ => ?_)
    exact frame_InitPlanFromSubPlans hT c queryDesc eflags (fun _ _ _ => trivial) trivial trivial
      (by rintro f (hf | hf) es <;> cases hf <;> rfl)
  show Frame NoUnrecognizedRowMark (getQueryDesc >>= fun queryDesc =>
    InitPlanSteps c queryDesc eflags >>= fun r =>
      modifyQueryDesc (fun qd => { qd with tupDesc := some r.2, planstate := some r.1 }))
  refine frame_bind hT.rel (silent_frame hT.rel silent_getQueryDesc) (fun queryDesc => ?_)
  exact frame_bind hT.rel (hsteps queryDesc) (fun r m => Or.inl rfl)

/-- A plan with a non-parent request of an unrecognised lock kind cannot get through
`InitPlan`. -/
theorem InitPlan_unrecognized_not_ok (c : Env) (eflags : Nat) (m m1 : Machine)
    (rc : PlanRowMark) (code : Nat) (hrc : rc ∈ m.queryDesc.plannedstmt.rowMarks)
    (hp : rc.isParent = false) (hmt : rc.markType = .other code) :
    InitPlan c eflags m ≠ .ok () m1 := by
  intro h
  obtain ⟨ma, mb, mc, md, me, mf, r, -, -, -, -, h4, -⟩ := InitPlan_ok_stages c eflags m m1 h
  obtain ⟨es, arr, evs, -, -, -, -, hA, -⟩ :=
    initRowMarksIfAny_ok c _ mc md (List.ne_nil_of_mem hrc) h4
  obtain ⟨-, -, erm, -, relid, relation, -, hrel⟩ := hA rc hrc hp
  unfold RelationFor at hrel
  rw [hmt] at hrel
  exact hrel

/-- The body of the row-mark loop on a non-parent request of an unrecognised lock kind: it
fails, the machine is left as it was, and the failure is the unrecognised kind as soon as the
range-table entry of the request can be fetched. -/
theorem initRowMark_unrecognized (c : Env) (rc : PlanRowMark) (m : Machine) (code : Nat)
    (hp : rc.isParent = false) (hmt : rc.markType = .other code) :
    ∃ e, initRowMark c rc m = .err e m ∧
      ((∃ rte, exec_rt_fetch rc.rti m = .ok rte m) →
        e = .unrecognizedMarkType (.other code)) := by
  unfold initRowMark
  rw [hp]
  simp only [Bool.false_eq_true, if_false]
  cases hf : exec_rt_fetch rc.rti m with
  | err e m2 =>
      have hm2 := silent_err (silent_exec_rt_fetch _) hf
      subst hm2
      refine ⟨e, bind_err hf, ?_⟩
      rintro ⟨rte, h⟩
      cases h
  | ok rte m2 =>
      have hm2 := silent_ok (silent_exec_rt_fetch _) hf
      subst hm2
      refine ⟨.unrecognizedMarkType (.other code), ?_, fun _ => rfl⟩
      rw [bind_ok hf]
      refine bind_err ?_
      unfold openRowMarkRelation
      rw [hmt]
      rfl

/-- A rejecting transaction-mode guard has logged its call and nothing else. -/
theorem transactionModeGuard_err (c : Env) (queryDesc : QueryDesc) (eflags : Nat)
    (m m1 : Machine) (e : ExecError) (h : transactionModeGuard c queryDesc eflags m = .err e m1) :
    e = .readOnlyViolation ∧ m1 = { m with trace := m.trace ++ [.ExecCheckXactReadOnly] } := by
  unfold transactionModeGuard at h
  split at h
  · rcases bind_eq_err.1 h with h1 | ⟨u, m2, h1, h2⟩
    · cases h1
    · cases h1
      unfold ExecCheckXactReadOnly at h2
      split at h2
      · exact ⟨(Res.err.inj h2).1.symm, (Res.err.inj h2).2.symm⟩
      · cases h2
  · cases h

/-- A query descriptor of an unrecognised command kind: `standard_ExecutorStart` fails, on the
entry assertion, in the transaction-mode guard or in the switch on the command kind, having
logged nothing but the guard and the creation of the execution state. -/
theorem standard_ExecutorStart_other (c : Env) (eflags : Nat) (m : Machine) (code : Nat)
    (hop : m.queryDesc.operation = .other code) :
    ∃ e m1 l, standard_ExecutorStart c eflags m = .err e m1 ∧ m1.trace = m.trace ++ l ∧
      (∀ ev ∈ l, ev = .ExecCheckXactReadOnly ∨ ev = .CreateExecutorState) ∧
      (m.queryDesc.estate = none →
        (∃ mg, transactionModeGuard c m.queryDesc eflags m = .ok () mg) →
        e = .unrecognizedOperation (.other code)) := by
  cases hes : m.queryDesc.estate with
  | some es =>
      exact ⟨_, m, [], standard_ExecutorStart_started c eflags m es hes, by simp, by simp,
        fun h => by cases h⟩
  | none =>
      rw [standard_ExecutorStart_eq c eflags m hes]
      cases hg : transactionModeGuard c m.queryDesc eflags m with
      | err e mg =>
          obtain ⟨-, hmg⟩ := transactionModeGuard_err c _ _ m mg e hg
          refine ⟨e, mg, [.ExecCheckXactReadOnly], bind_err hg, by rw [hmg], by simp, ?_⟩
          rintro - ⟨mg1, h⟩
          cases h
      | ok u mg =>
          obtain ⟨-, -, hgt⟩ := transactionModeGuard_ok c _ _ m mg hg
          have hrun : (transactionModeGuard c m.queryDesc eflags >>= fun _ =>
              startAfterGuard c m.queryDesc eflags >>= fun oldcontext =>
                MemoryContextSwitchTo oldcontext >>= fun _ => (pure () : Exec Unit)) m =
              .err (.unrecognizedOperation (.other code)) (filledMachine c m.queryDesc mg) := by
            rw [bind_ok hg]
            refine bind_err ?_
            rw [startAfterGuard_eq]
            exact bind_err (commandIdPolicy_other c _ _ _ code hop)
          rcases hgt with ht | ht
          · exact ⟨_, _, [.CreateExecutorState], hrun,
              by rw [← ht]; rfl, by simp, fun _ _ => rfl⟩
          · refine ⟨_, _, [.ExecCheckXactReadOnly, .CreateExecutorState], hrun, ?_, by simp,
              fun _ _ => rfl⟩
            show mg.trace ++ [Event.CreateExecutorState] = _
            rw [ht]
            simp

/-! ## C11: an unrecognised enum value is a fatal error -/

/-- C11: a query descriptor whose operation is none of SELECT, INSERT, UPDATE, DELETE makes
`standard_ExecutorStart` fail, and the calls logged by then are at most the transaction-mode
guard and the creation of the execution state: no snapshot is registered, the trigger context
is not opened and `InitPlan` is not called; once the entry assertion and the guard have passed
the failure is the unrecognised operation.  A plan with a non-parent row-mark request whose
mark type is none of the six recognised kinds makes `InitPlan` fail; the loop body fails on
that request and leaves the machine as it was (with the unrecognised mark type as the failure
when the range-table entry can be fetched), and after the failed `InitPlan` the array
`es_rowmarks` is either what it was before the call or holds descriptors of recognised kinds
only, so none for that request. -/
theorem C11_unrecognized_enum (c : Env) (eflags : Nat) (m : Machine) :
    (∀ code, m.queryDesc.operation = .other code →
      ∃ e m1 l, standard_ExecutorStart c eflags m = .err e m1 ∧ m1.trace = m.trace ++ l ∧
        (∀ ev ∈ l, ev = .ExecCheckXactReadOnly ∨ ev = .CreateExecutorState) ∧
        (m.queryDesc.estate = none →
          (∃ mg, transactionModeGuard c m.queryDesc eflags m = .ok () mg) →
          e = .unrecognizedOperation (.other code))) ∧
    (∀ rc code, rc ∈ m.queryDesc.plannedstmt.rowMarks → rc.isParent = false →
      rc.markType = .other code →
      (∃ e, initRowMark c rc m = .err e m ∧
        ((∃ rte, exec_rt_fetch rc.rti m = .ok rte m) →
          e = .unrecognizedMarkType (.other code))) ∧
      ∃ e m1, InitPlan c eflags m = .err e m1 ∧
        (rowMarksOf m1 = rowMarksOf m ∨
          ∀ arr erm, rowMarksOf m1 = some (some arr) → some erm ∈ arr →
            ∀ code1, erm.markType ≠ .other code1)) := by
  refine ⟨fun code hop => standard_ExecutorStart_other c eflags m code hop, ?_⟩
  intro rc code hrc hp hmt
  refine ⟨initRowMark_unrecognized c rc m code hp hmt, ?_⟩
  have hframe := frame_InitPlan_recognized c eflags m
  cases hr : InitPlan c eflags m with
  | ok u m1 => exact absurd hr (InitPlan_unrecognized_not_ok c eflags m m1 rc code hrc hp hmt)
  | err e m1 =>
      rw [hr] at hframe
      refine ⟨e, m1, rfl, ?_⟩
      rcases hframe with h | h
      · exact Or.inl h
      · refine Or.inr (fun arr erm ha hmem code1 hc => ?_)
        have := h arr erm ha hmem
        rw [hc] at this
        cases this

/-- C11 at sample inputs: a query descriptor of command kind 5, and a SELECT whose second row
mark is of lock kind 9; the first row mark has its descriptor, the second has none. -/
theorem C11_unrecognized_enum_witness :
    (∃ e m1 l, standard_ExecutorStart sampleEnv 0 unrecognizedMachine = .err e m1 ∧
        m1.trace = unrecognizedMachine.trace ++ l ∧
        (∀ ev ∈ l, ev = .ExecCheckXactReadOnly ∨ ev = .CreateExecutorState) ∧
        (unrecognizedMachine.queryDesc.estate = none →
          (∃ mg, transactionModeGuard sampleEnv unrecognizedMachine.queryDesc 0
            unrecognizedMachine = .ok () mg) →
          e = .unrecognizedOperation (.other 5))) ∧
    ((∃ e, initRowMark sampleEnv unrecognizedRowMark
          (startedMachine .CMD_SELECT unrecognizedRowMarkStmt) =
          .err e (startedMachine .CMD_SELECT unrecognizedRowMarkStmt) ∧
        ((∃ rte, exec_rt_fetch unrecognizedRowMark.rti
            (startedMachine .CMD_SELECT unrecognizedRowMarkStmt) =
            .ok rte (startedMachine .CMD_SELECT unrecognizedRowMarkStmt)) →
          e = .unrecognizedMarkType (.other 9))) ∧
      ∃ e m1, InitPlan sampleEnv 0 (startedMachine .CMD_SELECT unrecognizedRowMarkStmt) =
          .err e m1 ∧
        (rowMarksOf m1 = rowMarksOf (startedMachine .CMD_SELECT unrecognizedRowMarkStmt) ∨
          ∀ arr erm, rowMarksOf m1 = some (some arr) → some erm ∈ arr →
            ∀ code1, erm.markType ≠ .other code1)) ∧
    (InitPlan sampleEnv 0 (startedMachine .CMD_SELECT unrecognizedRowMarkStmt)).isOk = false ∧
    rowMarksOf (InitPlan sampleEnv 0
        (startedMachine .CMD_SELECT unrecognizedRowMarkStmt)).machine =
      some (some [some (newExecRowMark shareRowMark (some 101) 10), none]) :=
  ⟨(C11_unrecognized_enum sampleEnv 0 unrecognizedMachine).1 5 rfl,
    (C11_unrecognized_enum sampleEnv 0 (startedMachine .CMD_SELECT unrecognizedRowMarkStmt)).2
      unrecognizedRowMark 9 (by decide) rfl rfl,
    rfl, rfl⟩

/-! ## C12: the snapshots are registered once each and not released by this code -/

theorem commandIdEvent_not_registry (e : Event) (h : e.isGetCurrentCommandId = true) :
    e.isRegistryCall = false := by
  cases e <;> first
    | rfl
    | exact absurd h (by simp [Event.isGetCurrentCommandId])

theorem initPlanEvent_not_registry (stmt : PlannedStmt) (e : Event)
    (h : InitPlanEvent stmt e) : e.isRegistryCall = false := by
  cases e <;> first | rfl | exact h.elim

theorem triggerEvents_not_registry (c : Env) (eflags : Nat) :
    ∀ e ∈ triggerEvents c eflags, e.isRegistryCall = false := by
  intro e he
  unfold triggerEvents at he
  split at he
  · simp only [List.mem_singleton] at he
    subst he
    rfl
  · cases he

/-- C12, as the code has it: on a query descriptor that has not been started, passes the
transaction-mode guard and has a recognised command kind, the log of `standard_ExecutorStart`
holds exactly two calls of the snapshot registry, next to each other: the registration of the
primary snapshot, then the registration of the cross-check snapshot.  No unregistration is
logged.  At the end of the call, whether `InitPlan` succeeded or failed, the two handles the
registry returned are in `es_snapshot` and `es_crosscheck_snapshot` of the execution state the
query descriptor points to. -/
theorem C12_snapshot_registration (c : Env) (eflags : Nat) (m mg : Machine)
    (hstart : m.queryDesc.estate = none)
    (hguard : transactionModeGuard c m.queryDesc eflags m = .ok () mg)
    (hop : ∀ code, m.queryDesc.operation ≠ .other code) :
    ∃ es1 pre post,
      (standard_ExecutorStart c eflags m).machine.queryDesc.estate = some es1 ∧
      es1.es_snapshot = c.RegisterSnapshot m.queryDesc.snapshot ∧
      es1.es_crosscheck_snapshot = c.RegisterSnapshot m.queryDesc.crosscheck_snapshot ∧
      (standard_ExecutorStart c eflags m).machine.trace =
        m.trace ++ (pre ++
          [.RegisterSnapshot m.queryDesc.snapshot (c.RegisterSnapshot m.queryDesc.snapshot),
           .RegisterSnapshot m.queryDesc.crosscheck_snapshot
             (c.RegisterSnapshot m.queryDesc.crosscheck_snapshot)] ++ post) ∧
      (∀ e ∈ pre, e.isRegistryCall = false) ∧
      (∀ e ∈ post, e.isRegistryCall = false) := by
  obtain ⟨htrace, hqd⟩ := standard_ExecutorStart_machine c eflags m mg hstart hguard
  obtain ⟨-, -, hgt⟩ := transactionModeGuard_ok c m.queryDesc eflags m mg hguard
  have hg0 : ∃ l0, mg.trace = m.trace ++ l0 ∧ ∀ e ∈ l0, e.isRegistryCall = false := by
    rcases hgt with h | h
    · exact ⟨[], by simp [h], by simp⟩
    · exact ⟨[.ExecCheckXactReadOnly], h, by simp [Event.isRegistryCall]⟩
  obtain ⟨l0, hl0, hq0⟩ := hg0
  obtain ⟨mq, esq, lc, hpol, hesq, htq, hlc⟩ :=
    commandIdPolicy_recognized c m.queryDesc eflags (filledMachine c m.queryDesc mg) _ rfl hop
  rw [htrace, hqd, bind_ok hpol, startTail_eq c _ _ _ mq esq hesq, bind_pure_machine]
  have ht := trace_InitPlan c (effectiveEflags c m.queryDesc eflags)
    (initPlanCallMachine c m.queryDesc (effectiveEflags c m.queryDesc eflags) mq esq)
  have hTk := tolerant_keepsField (fun es => (es.es_snapshot, es.es_crosscheck_snapshot))
  have hk := frame_InitPlan hTk c (effectiveEflags c m.queryDesc eflags)
    (fun _ _ => keepsField_modifyQueryDesc _ _ (fun _ => rfl)) (fun _ _ _ => trivial)
    (by rintro f (hf | hf | hf | hf | hf) es <;> cases hf <;> rfl)
    (initPlanCallMachine c m.queryDesc (effectiveEflags c m.queryDesc eflags) mq esq)
  obtain ⟨es1, hes1, hsnap0⟩ := keepsField_some hk rfl
  have hsnap : (es1.es_snapshot, es1.es_crosscheck_snapshot) =
      (c.RegisterSnapshot m.queryDesc.snapshot,
        c.RegisterSnapshot m.queryDesc.crosscheck_snapshot) := hsnap0
  simp only [Prod.mk.injEq] at hsnap
  obtain ⟨post, hpost, hpq⟩ := ht
  refine ⟨es1, l0 ++ [Event.CreateExecutorState] ++ lc,
    triggerEvents c (effectiveEflags c m.queryDesc eflags) ++ post,
    hes1, hsnap.1, hsnap.2, ?_, ?_, ?_⟩
  · rw [hpost]
    simp [initPlanCallMachine, registrationEvents, htq, filledMachine, hl0]
  · intro e he
    simp only [List.mem_append, List.mem_singleton] at he
    rcases he with (h | h) | h
    · exact hq0 e h
    · subst h
      rfl
    · exact commandIdEvent_not_registry e (hlc e h)
  · intro e he
    rcases List.mem_append.1 he with h | h
    · exact triggerEvents_not_registry c _ e h
    · exact initPlanEvent_not_registry _ e (hpq e h)

/-- The run of `standard_ExecutorStart`, up to the call of `InitPlan`, on a query descriptor
that has not been started, passes the guard without a logged check and needs a command
identifier. -/
theorem standard_ExecutorStart_need_eq (c : Env) (eflags : Nat) (m : Machine)
    (hstart : m.queryDesc.estate = none)
    (hguard : transactionModeGuard c m.queryDesc eflags m = .ok () m)
    (hneed : needsCommandId m.queryDesc) :
    standard_ExecutorStart c eflags m =
      ((InitPlan c (effectiveEflags c m.queryDesc eflags) >>= fun _ =>
          (pure m.CurrentMemoryContext : Exec MemoryContext)) >>=
        fun oldcontext => MemoryContextSwitchTo oldcontext >>= fun _ => (pure () : Exec Unit))
        (initPlanCallMachine c m.queryDesc (effectiveEflags c m.queryDesc eflags)
          (cidMachine c (filledMachine c m.queryDesc m)
            (filledEState m.queryDesc (CreateExecutorState c m.CurrentMemoryContext)))
          { filledEState m.queryDesc (CreateExecutorState c m.CurrentMemoryContext) with
            es_output_cid := c.GetCurrentCommandId true }) := by
  rw [standard_ExecutorStart_eq _ _ _ hstart, bind_ok hguard, bind_apply, startAfterGuard_eq,
    bind_ok (commandIdPolicy_need c m.queryDesc eflags _ _ rfl hneed),
    startTail_eq c _ _ _ _ _ rfl]
  rfl

/-- C12 as stated fails: on the sample INSERT, `standard_ExecutorStart` registers the snapshot
`some 1` and returns successfully with no unregistration in its log; and when the permission
check of `InitPlan` refuses, it fails after the registration, again with no unregistration. -/
theorem C12_counterexample :
    ((standard_ExecutorStart sampleEnv 0 insertQueryMachine).isOk = true ∧
      Event.RegisterSnapshot (some 1) (some 1) ∈
        (standard_ExecutorStart sampleEnv 0 insertQueryMachine).machine.trace ∧
      ¬ ((standard_ExecutorStart sampleEnv 0 insertQueryMachine).machine.trace.count
          (Event.UnregisterSnapshot (some 1)) = 1)) ∧
    ((standard_ExecutorStart noPermissionEnv 0 insertQueryMachine).isOk = false ∧
      (standard_ExecutorStart noPermissionEnv 0 insertQueryMachine).machine.trace =
        [.CreateExecutorState, .GetCurrentCommandId 7, .RegisterSnapshot (some 1) (some 1),
         .RegisterSnapshot none none, .AfterTriggerBeginQuery, .ExecCheckRTPerms] ∧
      ¬ ((standard_ExecutorStart noPermissionEnv 0 insertQueryMachine).machine.trace.count
          (Event.UnregisterSnapshot (some 1)) = 1)) := by
  refine ⟨?_, rfl, rfl, by decide⟩
  rw [standard_ExecutorStart_need_eq sampleEnv 0 insertQueryMachine rfl rfl (by decide)]
  exact ⟨rfl, by decide, by decide⟩

/-- C12 at a sample input: the INSERT on the sample statement. -/
theorem C12_snapshot_registration_witness :
    ∃ es1 pre post,
      (standard_ExecutorStart sampleEnv 0 insertQueryMachine).machine.queryDesc.estate =
        some es1 ∧
      es1.es_snapshot = sampleEnv.RegisterSnapshot insertQueryMachine.queryDesc.snapshot ∧
      es1.es_crosscheck_snapshot =
        sampleEnv.RegisterSnapshot insertQueryMachine.queryDesc.crosscheck_snapshot ∧
      (standard_ExecutorStart sampleEnv 0 insertQueryMachine).machine.trace =
        insertQueryMachine.trace ++ (pre ++
          [.RegisterSnapshot insertQueryMachine.queryDesc.snapshot
             (sampleEnv.RegisterSnapshot insertQueryMachine.queryDesc.snapshot),
           .RegisterSnapshot insertQueryMachine.queryDesc.crosscheck_snapshot
             (sampleEnv.RegisterSnapshot insertQueryMachine.queryDesc.crosscheck_snapshot)] ++
          post) ∧
      (∀ e ∈ pre, e.isRegistryCall = false) ∧
      (∀ e ∈ post, e.isRegistryCall = false) :=
  C12_snapshot_registration sampleEnv 0 insertQueryMachine insertQueryMachine rfl rfl
    (fun code h => by cases h)

/-! ## The calls of the node initializer, whatever the outcome -/

theorem nodeCalls_append (l1 l2 : List Event) :
    nodeCalls (l1 ++ l2) = nodeCalls l1 ++ nodeCalls l2 := by
  unfold nodeCalls
  exact List.filterMap_append _ _ _

theorem nodeCalls_eq_nil (l : List Event) (h : ∀ e ∈ l, e.isExecInitNode = false) :
    nodeCalls l = [] := by
  induction l with
  | nil => rfl
  | cons e rest ih =>
      have he := h e (List.mem_cons_self _ _)
      have hrest := ih (fun e1 h1 => h e1 (List.mem_cons_of_mem _ h1))
      unfold nodeCalls at hrest ⊢
      cases e <;> first
        | simpa [List.filterMap_cons, Event.nodeCall] using hrest
        | cases he

theorem bind_isOk {α β : Type} (x : Exec α) (f : α → Exec β) (m : Machine)
    (h : ((x >>= f) m).isOk = true) : ∃ a m1, x m = .ok a m1 ∧ (f a m1).isOk = true := by
  rw [bind_apply] at h
  cases hx : x m with
  | ok a m1 =>
      rw [hx] at h
      exact ⟨a, m1, rfl, h⟩
  | err e m1 =>
      rw [hx] at h
      cases h

/-- The calls of a sequence are the calls of its first part followed by those of the rest. -/
theorem calls_bind {S1 S2 : List (Plan × Nat)} {α β : Type} {x : Exec α} {f : α → Exec β}
    (hx : Calls S1 x) (hf : ∀ a, Calls S2 (f a)) : Calls (S1 ++ S2) (x >>= f) := by
  intro m
  obtain ⟨l1, ht1, hp1, hok1⟩ := hx m
  rw [bind_apply]
  cases hxm : x m with
  | err e m1 =>
      rw [hxm] at ht1
      refine ⟨l1, ht1, hp1.trans (List.prefix_append _ _), fun h => by cases h⟩
  | ok a m1 =>
      rw [hxm] at ht1 hok1
      have hs1 : nodeCalls l1 = S1 := hok1 rfl
      obtain ⟨l2, ht2, hp2, hok2⟩ := hf a m1
      have hm1 : m1.trace = m.trace ++ l1 := ht1
      refine ⟨l1 ++ l2, ?_, ?_, ?_⟩
      · show (f a m1).machine.trace = _
        rw [ht2, hm1, List.append_assoc]
      · rw [nodeCalls_append, hs1]
        exact (List.prefix_append_right_inj _).2 hp2
      · intro h
        rw [nodeCalls_append, hs1, hok2 h]

theorem calls_bind_left {S : List (Plan × Nat)} {α β : Type} {x : Exec α} {f : α → Exec β}
    (hx : Calls [] x) (hf : ∀ a, Calls S (f a)) : Calls S (x >>= f) := by
  have := calls_bind hx hf
  simpa using this

theorem calls_bind_right {S : List (Plan × Nat)} {α β : Type} {x : Exec α} {f : α → Exec β}
    (hx : Calls S x) (hf : ∀ a, Calls [] (f a)) : Calls S (x >>= f) := by
  have := calls_bind hx hf
  simpa using this

/-- A computation that logs no call of the node initializer. -/
theorem calls_of_frame {α : Type} {x : Exec α}
    (hx : Frame (TraceRel (fun e => e.isExecInitNode = false)) x) : Calls [] x := by
  intro m
  obtain ⟨l, hl, hq⟩ := hx m
  have hnil := nodeCalls_eq_nil l hq
  exact ⟨l, hl, by rw [hnil], fun _ => hnil⟩

theorem calls_callExecInitNode (c : Env) (node : Plan) (eflags : Nat) :
    Calls [(node, eflags)] (callExecInitNode c node eflags) := by
  intro m
  unfold callExecInitNode
  rw [bind_apply]
  unfold getEState
  cases hes : m.queryDesc.estate with
  | none => exact ⟨[], by simp [Res.machine], by simp [nodeCalls], fun h => by cases h⟩
  | some es =>
      simp only []
      rw [bind_ok (show emit (.ExecInitNode node es eflags) m =
        .ok () { m with trace := m.trace ++ [.ExecInitNode node es eflags] } from rfl)]
      refine ⟨[.ExecInitNode node es eflags], ?_, ?_, fun _ => rfl⟩
      · cases c.ExecInitNode node es eflags <;> rfl
      · exact List.prefix_refl _

theorem calls_initSubPlans (c : Env) (plannedstmt : PlannedStmt) (eflags : Nat)
    (l : List Plan) :
    ∀ i, Calls (subPlanCalls c plannedstmt eflags l i)
      (initSubPlans c plannedstmt eflags l i) := by
  induction l with
  | nil =>
      intro i
      exact calls_of_frame (frame_pure (traceRel_frameRel _) _)
  | cons subplan rest ih =>
      intro i
      unfold initSubPlans
      have h1 : Calls [(subplan, subPlanEflags c plannedstmt eflags i)]
          (callExecInitNode c subplan
            (if bms_is_member i plannedstmt.rewindPlanIDs = true then
              eflags &&& (c.EXEC_FLAG_EXPLAIN_ONLY ||| c.EXEC_FLAG_WITH_NO_DATA) |||
                c.EXEC_FLAG_REWIND
            else eflags &&& (c.EXEC_FLAG_EXPLAIN_ONLY ||| c.EXEC_FLAG_WITH_NO_DATA))) :=
        calls_callExecInitNode c subplan _
      have h2 : ∀ st : PlanState, Calls (subPlanCalls c plannedstmt eflags rest (i + 1))
          (modifyEState (fun es =>
              { es with es_subplanstates := es.es_subplanstates ++ [st] }) >>= fun _ =>
            initSubPlans c plannedstmt eflags rest (i + 1)) :=
        fun st => calls_bind_left
          (calls_of_frame ((tolerant_trace _).onModify _ trivial)) (fun _ => ih (i + 1))
      exact calls_bind h1 h2

/-- The calls of the node initializer in `InitPlan`: the sub-plans in planner order, each with
the flags of its number, then the plan root with the flags `InitPlan` was given; a prefix of
that when `InitPlan` fails. -/
theorem calls_InitPlanSteps (c : Env) (queryDesc : QueryDesc) (eflags : Nat) :
    Calls (subPlanCalls c queryDesc.plannedstmt eflags queryDesc.plannedstmt.subplans 1 ++
        [(queryDesc.plannedstmt.planTree, eflags)])
      (InitPlanSteps c queryDesc eflags) := by
  have hT := tolerant_trace (fun e : Event => e.isExecInitNode = false)
  unfold InitPlanSteps
  refine calls_bind_left (calls_of_frame (hT.onEmit _ rfl)) (fun _ => ?_)
  refine calls_bind_left (calls_of_frame (frame_ofExcept hT.rel _)) (fun _ => ?_)
  unfold InitPlanAfterPermissions
  refine calls_bind_left
    (calls_of_frame (frame_ExecInitRangeTable hT _ rfl (fun _ _ => trivial))) (fun _ => ?_)
  refine calls_bind_left (calls_of_frame (hT.onModify _ trivial)) (fun _ => ?_)
  refine calls_bind_left
    (calls_of_frame (frame_initResultRelations hT c _ (fun _ _ _ => ⟨fun _ => rfl, rfl⟩)
      (fun _ _ => trivial))) (fun _ => ?_)
  unfold InitPlanFromRowMarks
  refine calls_bind_left
    (calls_of_frame (frame_initRowMarksIfAny hT c _ (fun _ _ _ => ⟨fun _ => rfl, fun _ => rfl⟩)
      (fun _ _ => trivial))) (fun _ => ?_)
  refine calls_bind_left (calls_of_frame (hT.onModify _ trivial)) (fun _ => ?_)
  unfold InitPlanFromSubPlans
  refine calls_bind_left (calls_of_frame (frame_getEState hT.rel)) (fun _ => ?_)
  refine calls_bind_left (calls_of_frame (frame_Assert hT.rel _ _)) (fun _ => ?_)
  refine calls_bind (calls_initSubPlans c _ eflags _ 1) (fun _ => ?_)
  refine calls_bind_right (calls_callExecInitNode c _ eflags) (fun planstate => ?_)
  refine calls_bind_left
    (calls_of_frame (frame_resolveTupType hT _ _ _ _ rfl rfl (fun _ _ => trivial)))
    (fun _ => ?_)
  exact calls_of_frame (frame_pure hT.rel _)

theorem calls_InitPlan (c : Env) (eflags : Nat) (m : Machine) :
    ∃ l, (InitPlan c eflags m).machine.trace = m.trace ++ l ∧
      nodeCalls l <+:
        subPlanCalls c m.queryDesc.plannedstmt eflags m.queryDesc.plannedstmt.subplans 1 ++
          [(m.queryDesc.plannedstmt.planTree, eflags)] ∧
      ((InitPlan c eflags m).isOk = true →
        nodeCalls l =
          subPlanCalls c m.queryDesc.plannedstmt eflags m.queryDesc.plannedstmt.subplans 1 ++
            [(m.queryDesc.plannedstmt.planTree, eflags)]) := by
  have h : InitPlan c eflags m =
      (InitPlanSteps c m.queryDesc eflags >>= fun r =>
        modifyQueryDesc (fun qd => { qd with tupDesc := some r.2, planstate := some r.1 })) m :=
    rfl
  rw [h]
  exact calls_bind_right (calls_InitPlanSteps c m.queryDesc eflags)
    (fun r => calls_of_frame (trace_modifyQueryDesc _ _)) m

theorem subPlanCalls_length (c : Env) (plannedstmt : PlannedStmt) (eflags : Nat)
    (l : List Plan) : ∀ i, (subPlanCalls c plannedstmt eflags l i).length = l.length := by
  induction l with
  | nil => intro i; rfl
  | cons p rest ih =>
      intro i
      simp [subPlanCalls, ih (i + 1)]

theorem subPlanCalls_getElem (c : Env) (plannedstmt : PlannedStmt) (eflags : Nat)
    (l : List Plan) :
    ∀ (i k : Nat) (p : Plan), l[k]? = some p →
      (subPlanCalls c plannedstmt eflags l i)[k]? =
        some (p, subPlanEflags c plannedstmt eflags (i + k)) := by
  induction l with
  | nil =>
      intro i k p h
      simp at h
  | cons q rest ih =>
      intro i k p h
      cases k with
      | zero =>
          simp only [List.getElem?_cons_zero, Option.some.injEq] at h
          subst h
          simp [subPlanCalls]
      | succ k =>
          simp only [List.getElem?_cons_succ] at h
          have := ih (i + 1) k p h
          have hidx : i + 1 + k = i + (k + 1) := by omega
          rw [hidx] at this
          simpa [subPlanCalls] using this

/-- The flags of sub-plan number `i`, with the membership test spelled out. -/
theorem subPlanEflags_eq (c : Env) (plannedstmt : PlannedStmt) (eflags i : Nat) :
    subPlanEflags c plannedstmt eflags i =
      if i ∈ plannedstmt.rewindPlanIDs then
        (eflags &&& (c.EXEC_FLAG_EXPLAIN_ONLY ||| c.EXEC_FLAG_WITH_NO_DATA)) |||
          c.EXEC_FLAG_REWIND
      else eflags &&& (c.EXEC_FLAG_EXPLAIN_ONLY ||| c.EXEC_FLAG_WITH_NO_DATA) := by
  unfold subPlanEflags bms_is_member
  by_cases h : i ∈ plannedstmt.rewindPlanIDs
  · rw [if_pos h, if_pos (by simpa using h)]
  · rw [if_neg h, if_neg (by simpa using h)]

theorem testBit_of_land_eq_zero {a b : Nat} (h : a &&& b = 0) (i : Nat) :
    (a.testBit i && b.testBit i) = false := by
  have := congrArg (fun n => n.testBit i) h
  simpa [Nat.testBit_and] using this

/-- A mask apart from `keep` and from `add` is clear in `(x &&& keep) ||| add` and in
`x &&& keep`. -/
theorem masked_land_eq_zero (x keep add mask : Nat) (h : mask &&& (keep ||| add) = 0) :
    ((x &&& keep) ||| add) &&& mask = 0 ∧ (x &&& keep) &&& mask = 0 := by
  have hb : ∀ i, (mask.testBit i && (keep.testBit i || add.testBit i)) = false := by
    intro i
    have := testBit_of_land_eq_zero h i
    simpa [Nat.testBit_or] using this
  constructor
  · apply Nat.eq_of_testBit_eq
    intro i
    have := hb i
    simp only [Nat.testBit_and, Nat.testBit_or, Nat.zero_testBit]
    revert this
    cases x.testBit i <;> cases keep.testBit i <;> cases add.testBit i <;>
      cases mask.testBit i <;> simp
  · apply Nat.eq_of_testBit_eq
    intro i
    have := hb i
    simp only [Nat.testBit_and, Nat.zero_testBit]
    revert this
    cases x.testBit i <;> cases keep.testBit i <;> cases add.testBit i <;>
      cases mask.testBit i <;> simp

/-- The bit `add`, apart from `keep`, is in `(x &&& keep) ||| add` and not in `x &&& keep`. -/
theorem added_land (x keep add : Nat) (h : add &&& keep = 0) :
    ((x &&& keep) ||| add) &&& add = add ∧ (x &&& keep) &&& add = 0 := by
  refine ⟨lor_land_self _ _, ?_⟩
  apply Nat.eq_of_testBit_eq
  intro i
  have := testBit_of_land_eq_zero h i
  simp only [Nat.testBit_and, Nat.zero_testBit]
  revert this
  cases x.testBit i <;> cases keep.testBit i <;> cases add.testBit i <;> simp

/-! ## C13: the flags of the sub-plans -/

/-- C13: the calls of the node initializer logged by `InitPlan` are, in order, one per sub-plan
and then one on the plan root (all of them when `InitPlan` succeeds, the first few when it
fails).  The call for the `k`-th sub-plan, `k` counted from 1, has the flags
`eflags &&& (EXEC_FLAG_EXPLAIN_ONLY ||| EXEC_FLAG_WITH_NO_DATA)`, with `EXEC_FLAG_REWIND` added
exactly when `k` is in `rewindPlanIDs`; the call on the root has `eflags` itself.  When the
masks share no bit, the flags of a sub-plan have no backward-scan, mark/restore or skip-triggers
bit, and have the rewind bit exactly when `k` is in `rewindPlanIDs`, whatever `eflags` has. -/
theorem C13_subplan_flags (c : Env) (eflags : Nat) (m : Machine) :
    ∃ l,
      (InitPlan c eflags m).machine.trace = m.trace ++ l ∧
      nodeCalls l <+:
        subPlanCalls c m.queryDesc.plannedstmt eflags m.queryDesc.plannedstmt.subplans 1 ++
          [(m.queryDesc.plannedstmt.planTree, eflags)] ∧
      ((InitPlan c eflags m).isOk = true →
        nodeCalls l =
          subPlanCalls c m.queryDesc.plannedstmt eflags m.queryDesc.plannedstmt.subplans 1 ++
            [(m.queryDesc.plannedstmt.planTree, eflags)]) ∧
      (∀ (k : Nat) (p : Plan), m.queryDesc.plannedstmt.subplans[k]? = some p →
        ∃ fl,
          (subPlanCalls c m.queryDesc.plannedstmt eflags m.queryDesc.plannedstmt.subplans 1 ++
            [(m.queryDesc.plannedstmt.planTree, eflags)])[k]? = some (p, fl) ∧
          fl = (if k + 1 ∈ m.queryDesc.plannedstmt.rewindPlanIDs then
              (eflags &&& (c.EXEC_FLAG_EXPLAIN_ONLY ||| c.EXEC_FLAG_WITH_NO_DATA)) |||
                c.EXEC_FLAG_REWIND
            else eflags &&& (c.EXEC_FLAG_EXPLAIN_ONLY ||| c.EXEC_FLAG_WITH_NO_DATA)) ∧
          (SubPlanFlagsDisjoint c →
            fl &&& c.EXEC_FLAG_BACKWARD = 0 ∧ fl &&& c.EXEC_FLAG_MARK = 0 ∧
            fl &&& c.EXEC_FLAG_SKIP_TRIGGERS = 0 ∧
            (fl &&& c.EXEC_FLAG_REWIND ≠ 0 ↔
              k + 1 ∈ m.queryDesc.plannedstmt.rewindPlanIDs))) ∧
      (subPlanCalls c m.queryDesc.plannedstmt eflags m.queryDesc.plannedstmt.subplans 1 ++
          [(m.queryDesc.plannedstmt.planTree, eflags)])[
            m.queryDesc.plannedstmt.subplans.length]? =
        some (m.queryDesc.plannedstmt.planTree, eflags) := by
  obtain ⟨l, hl, hpre, hok⟩ := calls_InitPlan c eflags m
  have hlen := subPlanCalls_length c m.queryDesc.plannedstmt eflags
    m.queryDesc.plannedstmt.subplans 1
  refine ⟨l, hl, hpre, hok, ?_, ?_⟩
  · intro k p hk
    have hget := subPlanCalls_getElem c m.queryDesc.plannedstmt eflags _ 1 k p hk
    have hlt : k < (subPlanCalls c m.queryDesc.plannedstmt eflags
        m.queryDesc.plannedstmt.subplans 1).length := by
      rw [hlen]
      by_contra hcon
      rw [List.getElem?_eq_none (Nat.le_of_not_lt hcon)] at hk
      cases hk
    have himem : 1 + k ∈ m.queryDesc.plannedstmt.rewindPlanIDs ↔
        k + 1 ∈ m.queryDesc.plannedstmt.rewindPlanIDs := by rw [Nat.add_comm]
    refine ⟨subPlanEflags c m.queryDesc.plannedstmt eflags (1 + k), ?_, ?_, ?_⟩
    · rw [List.getElem?_append_left hlt]
      exact hget
    · rw [subPlanEflags_eq]
      by_cases hmem : k + 1 ∈ m.queryDesc.plannedstmt.rewindPlanIDs
      · rw [if_pos hmem, if_pos (himem.2 hmem)]
      · rw [if_neg hmem, if_neg (fun h => hmem (himem.1 h))]
    · rintro ⟨hne, hrew, hback, hmark, hskip⟩
      rw [subPlanEflags_eq]
      by_cases hmem : k + 1 ∈ m.queryDesc.plannedstmt.rewindPlanIDs
      · rw [if_pos (himem.2 hmem)]
        refine ⟨(masked_land_eq_zero _ _ _ _ hback).1, (masked_land_eq_zero _ _ _ _ hmark).1,
          (masked_land_eq_zero _ _ _ _ hskip).1, ?_⟩
        rw [(added_land _ _ _ hrew).1]
        exact ⟨fun _ => hmem, fun _ => hne⟩
      · rw [if_neg (fun h => hmem (himem.1 h))]
        refine ⟨(masked_land_eq_zero _ _ _ _ hback).2, (masked_land_eq_zero _ _ _ _ hmark).2,
          (masked_land_eq_zero _ _ _ _ hskip).2, ?_⟩
        rw [(added_land _ _ _ hrew).2]
        exact ⟨fun h => absurd rfl h, fun h => absurd h hmem⟩
  · rw [← hlen]
    simp

/-- C13 at a sample input: three sub-plans, the second rewindable, and a parent that asks for
explain-only, rewind, backward scan, mark/restore and skip-triggers (flags 31): the sub-plans
get the flags 1, 3 and 1 and the root gets 31. -/
theorem C13_subplan_flags_witness :
    (∃ l,
      (InitPlan sampleEnv 31 (startedMachine .CMD_SELECT subPlanStmt)).machine.trace =
        (startedMachine .CMD_SELECT subPlanStmt).trace ++ l ∧
      nodeCalls l <+:
        subPlanCalls sampleEnv subPlanStmt 31 subPlanStmt.subplans 1 ++
          [(subPlanStmt.planTree, 31)] ∧
      ((InitPlan sampleEnv 31 (startedMachine .CMD_SELECT subPlanStmt)).isOk = true →
        nodeCalls l =
          subPlanCalls sampleEnv subPlanStmt 31 subPlanStmt.subplans 1 ++
            [(subPlanStmt.planTree, 31)]) ∧
      (∀ (k : Nat) (p : Plan), subPlanStmt.subplans[k]? = some p →
        ∃ fl,
          (subPlanCalls sampleEnv subPlanStmt 31 subPlanStmt.subplans 1 ++
            [(subPlanStmt.planTree, 31)])[k]? = some (p, fl) ∧
          fl = (if k + 1 ∈ subPlanStmt.rewindPlanIDs then
              (31 &&& (sampleEnv.EXEC_FLAG_EXPLAIN_ONLY ||| sampleEnv.EXEC_FLAG_WITH_NO_DATA)) |||
                sampleEnv.EXEC_FLAG_REWIND
            else 31 &&& (sampleEnv.EXEC_FLAG_EXPLAIN_ONLY ||| sampleEnv.EXEC_FLAG_WITH_NO_DATA)) ∧
          (SubPlanFlagsDisjoint sampleEnv →
            fl &&& sampleEnv.EXEC_FLAG_BACKWARD = 0 ∧ fl &&& sampleEnv.EXEC_FLAG_MARK = 0 ∧
            fl &&& sampleEnv.EXEC_FLAG_SKIP_TRIGGERS = 0 ∧
            (fl &&& sampleEnv.EXEC_FLAG_REWIND ≠ 0 ↔ k + 1 ∈ subPlanStmt.rewindPlanIDs))) ∧
      (subPlanCalls sampleEnv subPlanStmt 31 subPlanStmt.subplans 1 ++
          [(subPlanStmt.planTree, 31)])[subPlanStmt.subplans.length]? =
        some (subPlanStmt.planTree, 31)) ∧
    SubPlanFlagsDisjoint sampleEnv ∧
    (InitPlan sampleEnv 31 (startedMachine .CMD_SELECT subPlanStmt)).isOk = true ∧
    nodeCalls (InitPlan sampleEnv 31 (startedMachine .CMD_SELECT subPlanStmt)).machine.trace =
      [({ nodeId := 1, targetlist := [] }, 1), ({ nodeId := 2, targetlist := [] }, 3),
       ({ nodeId := 3, targetlist := [] }, 1), ({ nodeId := 0, targetlist := [] }, 31)] :=
  ⟨C13_subplan_flags sampleEnv 31 (startedMachine .CMD_SELECT subPlanStmt),
    by unfold SubPlanFlagsDisjoint; decide, rfl, rfl⟩

/-! ## The write-target stage of `InitPlan` -/

theorem trace_append_nil (m : Machine) : { m with trace := m.trace ++ [] } = m := by
  cases m
  simp

/-- The loop over the targets, when it succeeds: the entries it returns and what it logs. -/
theorem buildResultRelInfos_ok (c : Env) (l : List Index) :
    ∀ (m m1 : Machine) (es : EState) (infos : List ResultRelInfo),
      m.queryDesc.estate = some es →
      buildResultRelInfos c l m = .ok infos m1 →
      m1 = { m with trace := m.trace ++ resultRelCalls infos } ∧ BuiltFrom c es l infos := by
  induction l with
  | nil =>
      intro m m1 es infos hes h
      have h1 := Res.ok.inj h
      rw [← h1.1, ← h1.2]
      exact ⟨(trace_append_nil m).symm, rfl, fun k rti hk => by simp at hk⟩
  | cons rti rest ih =>
      intro m m1 es infos hes h
      unfold buildResultRelInfos at h
      obtain ⟨rel, m2, h1, h2⟩ := bind_eq_ok.1 h
      obtain ⟨es2, hes2, hcall, hm2⟩ := callExecGetRangeTableRelation_ok c rti m m2 rel h1
      rw [hes] at hes2
      cases hes2
      obtain ⟨es3, m3, h3, h4⟩ := bind_eq_ok.1 h2
      obtain ⟨hm3, hes3⟩ := getEState_ok h3
      subst hm3
      have hes3e : es3 = es := by
        rw [hm2] at hes3
        exact (Option.some.inj (hes3.symm.trans hes)).symm ▸ rfl
      subst hes3e
      obtain ⟨u, m4, h5, h6⟩ := bind_eq_ok.1 h4
      have hm4 : m4 = { m3 with trace := m3.trace ++ [.InitResultRelInfo rti] } :=
        (Res.ok.inj h5).2.symm
      obtain ⟨rest1, m5, h7, h8⟩ := bind_eq_ok.1 h6
      have hes4 : m4.queryDesc.estate = some es3 := by rw [hm4]; exact hes3
      obtain ⟨hm5, hlen, hbuilt⟩ := ih m4 m5 es3 rest1 hes4 h7
      have h9 := Res.ok.inj h8
      rw [← h9.1, ← h9.2]
      refine ⟨?_, ?_, ?_⟩
      · rw [hm5, hm4, hm2]
        simp [resultRelCalls, InitResultRelInfo]
      · simp [hlen]
      · intro k rti1 hk
        cases k with
        | zero =>
            simp only [List.getElem?_cons_zero, Option.some.injEq] at hk
            subst hk
            exact ⟨rel, hcall, by simp⟩
        | succ k =>
            simp only [List.getElem?_cons_succ] at hk
            obtain ⟨rel1, a1, a2⟩ := hbuilt k rti1 hk
            exact ⟨rel1, a1, by simpa using a2⟩

/-- The write-target stage on a plan with write targets, when it succeeds: the entries of the
targets, then those of the partition roots, built in that order. -/
theorem initResultRelations_ok (c : Env) (plannedstmt : PlannedStmt) (m m1 : Machine)
    (es : EState) (hes : m.queryDesc.estate = some es)
    (hres : plannedstmt.resultRelations ≠ [])
    (h : initResultRelations c plannedstmt m = .ok () m1) :
    ∃ infos rootInfos,
      BuiltFrom c es plannedstmt.resultRelations infos ∧
      BuiltFrom c (targetsEState plannedstmt infos es) plannedstmt.rootResultRelations
        rootInfos ∧
      m1 = { m with
        queryDesc := { m.queryDesc with
          estate := some (rootsEState plannedstmt infos rootInfos es) }
        trace := m.trace ++ (resultRelCalls infos ++ resultRelCalls rootInfos) } := by
  unfold initResultRelations at h
  simp only [ne_eq, hres, not_false_eq_true, if_true] at h
  obtain ⟨infos, m2, h1, h2⟩ := bind_eq_ok.1 h
  obtain ⟨hm2, hb1⟩ := buildResultRelInfos_ok c _ m m2 es infos hes h1
  obtain ⟨u, m3, h3, h4⟩ := bind_eq_ok.1 h2
  obtain ⟨es2, hes2, hm3⟩ := modifyEState_ok h3
  have hes2e : es2 = es := by
    rw [hm2] at hes2
    exact Option.some.inj (hes2.symm.trans hes)
  subst hes2e
  have hes3 : m3.queryDesc.estate = some (targetsEState plannedstmt infos es2) := by
    rw [hm3]
    rfl
  by_cases hroot : plannedstmt.rootResultRelations = []
  · simp only [hroot, ne_eq, not_true_eq_false, if_false] at h4
    obtain ⟨es3, hes3a, hm1⟩ := modifyEState_ok h4
    rw [hes3] at hes3a
    have := Option.some.inj hes3a
    subst this
    refine ⟨infos, [], hb1, ⟨by simp [hroot], fun k rti hk => by simp [hroot] at hk⟩, ?_⟩
    rw [hm1, hm3, hm2]
    simp [rootsEState, targetsEState, hroot, resultRelCalls]
  · simp only [ne_eq, hroot, not_false_eq_true, if_true] at h4
    obtain ⟨rootInfos, m4, h5, h6⟩ := bind_eq_ok.1 h4
    obtain ⟨hm4, hb2⟩ := buildResultRelInfos_ok c _ m3 m4 _ rootInfos hes3 h5
    obtain ⟨es4, hes4, hm1⟩ := modifyEState_ok h6
    have hes4e : es4 = targetsEState plannedstmt infos es2 := by
      rw [hm4] at hes4
      exact Option.some.inj (hes4.symm.trans hes3)
    subst hes4e
    refine ⟨infos, rootInfos, hb1, hb2, ?_⟩
    rw [hm1, hm4, hm3, hm2]
    simp [rootsEState, targetsEState, hroot, List.append_assoc]

theorem rowMarkEvent_onward (stmt : PlannedStmt) (e : Event) (h : RowMarkEvent stmt e) :
    RowMarksOnwardEvent stmt e := by
  cases e <;> first | exact h | exact h.elim

/-- A successful `InitPlan` on a plan with write targets: the bookkeeping it leaves in the
execution state and the calls it logged for it. -/
theorem InitPlan_ok_resultRelations (c : Env) (eflags : Nat) (m m1 : Machine)
    (hres : m.queryDesc.plannedstmt.resultRelations ≠ [])
    (h : InitPlan c eflags m = .ok () m1) :
    ∃ es0 es1 infos rootInfos after,
      m.queryDesc.estate = some es0 ∧ m1.queryDesc.estate = some es1 ∧
      BuiltFrom c (rangeTableEState m.queryDesc.plannedstmt es0)
        m.queryDesc.plannedstmt.resultRelations infos ∧
      BuiltFrom c
        (targetsEState m.queryDesc.plannedstmt infos
          (rangeTableEState m.queryDesc.plannedstmt es0))
        m.queryDesc.plannedstmt.rootResultRelations rootInfos ∧
      es1.es_result_relations = some infos ∧
      es1.es_num_result_relations = m.queryDesc.plannedstmt.resultRelations.length ∧
      es1.es_result_relation_info = none ∧
      es1.es_root_result_relations =
        (if m.queryDesc.plannedstmt.rootResultRelations ≠ [] then some rootInfos else none) ∧
      es1.es_num_root_result_relations = m.queryDesc.plannedstmt.rootResultRelations.length ∧
      m1.trace = m.trace ++ ([.ExecCheckRTPerms, .ExecInitRangeTable] ++ resultRelCalls infos ++
        resultRelCalls rootInfos ++ after) ∧
      ∀ e ∈ after, RowMarksOnwardEvent m.queryDesc.plannedstmt e := by
  obtain ⟨s⟩ := InitPlan_ok_run c eflags m m1 h
  -- lines 32-34
  have hrt := s.rangeTable
  unfold ExecInitRangeTable at hrt
  obtain ⟨u, m0, h1, h2⟩ := bind_eq_ok.1 hrt
  have hm0 : m0 = { m with trace := m.trace ++ [.ExecCheckRTPerms] ++ [.ExecInitRangeTable] } :=
    (Res.ok.inj h1).2.symm
  obtain ⟨es0, hes0, hma⟩ := modifyEState_ok h2
  have hes0m : m.queryDesc.estate = some es0 := by rw [hm0] at hes0; exact hes0
  obtain ⟨esa, hesa, hmb⟩ := modifyEState_ok s.stmt
  have hesa1 : esa = { es0 with es_range_table := m.queryDesc.plannedstmt.rtable
                                es_range_table_array := m.queryDesc.plannedstmt.rtable
                                es_range_table_size := m.queryDesc.plannedstmt.rtable.length } := by
    rw [hma] at hesa
    exact (Option.some.inj hesa).symm
  have hesb : s.mb.queryDesc.estate = some (rangeTableEState m.queryDesc.plannedstmt es0) := by
    rw [hmb, hesa1]
    rfl
  have htb : s.mb.trace = m.trace ++ [.ExecCheckRTPerms, .ExecInitRangeTable] := by
    rw [hmb, hma, hm0]
    simp
  -- lines 40-108
  obtain ⟨infos, rootInfos, hb1, hb2, hmc⟩ :=
    initResultRelations_ok c _ s.mb s.mc _ hesb hres s.resultRels
  have hesc : s.mc.queryDesc.estate = some (rootsEState m.queryDesc.plannedstmt infos rootInfos
      (rangeTableEState m.queryDesc.plannedstmt es0)) := by
    rw [hmc]
  have htc : s.mc.trace = m.trace ++ ([.ExecCheckRTPerms, .ExecInitRangeTable] ++
      resultRelCalls infos ++ resultRelCalls rootInfos) := by
    rw [hmc]
    show s.mb.trace ++ _ = _
    rw [htb]
    simp
  -- nothing later writes the five fields
  have hkeep : KeepsField (fun es => (es.es_result_relations, es.es_num_result_relations,
      es.es_result_relation_info, es.es_root_result_relations,
      es.es_num_root_result_relations)) s.mc s.mf := by
    have hT := tolerant_keepsField (fun es => (es.es_result_relations,
      es.es_num_result_relations, es.es_result_relation_info, es.es_root_result_relations,
      es.es_num_root_result_relations))
    have a1 := stages_rowMarks s hT (fun _ _ => trivial) (by rintro f hf es; cases hf <;> rfl)
    have a2 := stages_toRoot s hT (fun _ _ _ => trivial)
      (by rintro f hf es; cases hf <;> rfl)
    have a3 := stages_tupType s hT trivial trivial (by rintro f hf es; cases hf <;> rfl)
    exact hT.rel.trans _ _ _ (hT.rel.trans _ _ _ a1 a2) a3
  obtain ⟨es1, hes1, hg⟩ := keepsField_some hkeep hesc
  simp only [Prod.mk.injEq] at hg
  obtain ⟨g1, g2, g3, g4, g5⟩ := hg
  -- and the later calls are those of the row marks, the nodes and the junk filter
  have htail : TraceRel (RowMarksOnwardEvent m.queryDesc.plannedstmt) s.mc s.mf := by
    have hT := tolerant_trace (RowMarksOnwardEvent m.queryDesc.plannedstmt)
    have a1 := stages_rowMarks s hT (fun e he => rowMarkEvent_onward _ e he)
      (fun _ _ => trivial)
    have a2 := stages_toRoot s hT (fun _ _ _ => trivial) (fun _ _ => trivial)
    have a3 := stages_tupType s hT trivial trivial (fun _ _ => trivial)
    exact hT.rel.trans _ _ _ (hT.rel.trans _ _ _ a1 a2) a3
  obtain ⟨after, hafter, haq⟩ := htail
  refine ⟨es0, es1, infos, rootInfos, after, hes0m, (stages_estate s).trans hes1, hb1, hb2,
    g1, g2, g3, g4, g5, ?_, haq⟩
  rw [stages_trace s, hafter, htc]
  simp

/-- A successful `standard_ExecutorStart` called `InitPlan` on an execution state that holds
the instrumentation options of the query descriptor, and ends on the machine `InitPlan` left,
up to the memory context. -/
theorem standard_ExecutorStart_ok_run (c : Env) (eflags : Nat) (m m1 : Machine)
    (h : standard_ExecutorStart c eflags m = .ok () m1) :
    ∃ mq esq m2, mq.queryDesc.plannedstmt = m.queryDesc.plannedstmt ∧
      mq.queryDesc.estate = some esq ∧
      InitPlan c (effectiveEflags c m.queryDesc eflags)
        (initPlanCallMachine c m.queryDesc (effectiveEflags c m.queryDesc eflags) mq esq) =
          .ok () m2 ∧
      m1.queryDesc = m2.queryDesc ∧ m1.trace = m2.trace := by
  cases hes : m.queryDesc.estate with
  | some es =>
      rw [standard_ExecutorStart_started c eflags m es hes] at h
      cases h
  | none =>
      rw [standard_ExecutorStart_eq c eflags m hes] at h
      obtain ⟨u, mg, hg, h2⟩ := bind_eq_ok.1 h
      obtain ⟨hgq, -, -⟩ := transactionModeGuard_ok c m.queryDesc eflags m mg hg
      obtain ⟨old, m3, h3, h4⟩ := bind_eq_ok.1 h2
      have hm1 : m1 = { m3 with CurrentMemoryContext := old } := (Res.ok.inj h4).2.symm
      rw [startAfterGuard_eq] at h3
      have hop : ∀ code, m.queryDesc.operation ≠ .other code := by
        intro code hc
        rw [bind_err (commandIdPolicy_other c _ _ _ code hc)] at h3
        cases h3
      obtain ⟨mq, esq, lc, hpol, hesq, -, -⟩ :=
        commandIdPolicy_recognized c m.queryDesc eflags (filledMachine c m.queryDesc mg) _ rfl hop
      have hstmt : mq.queryDesc.plannedstmt = m.queryDesc.plannedstmt := by
        have := frame_of_ok
          (frame_commandIdPolicy tolerant_keepsStmt c m.queryDesc eflags (fun _ => trivial)
            (fun _ _ => trivial)) hpol
        rw [this]
        exact (show (filledMachine c m.queryDesc mg).queryDesc.plannedstmt =
          mg.queryDesc.plannedstmt from rfl).trans (congrArg QueryDesc.plannedstmt hgq)
      rw [bind_ok hpol, startTail_eq c _ _ _ mq esq hesq] at h3
      obtain ⟨u2, m2, h5, h6⟩ := bind_eq_ok.1 h3
      have hm3 : m3 = m2 := (Res.ok.inj h6).2.symm
      refine ⟨mq, esq, m2, hstmt, hesq, h5, ?_, ?_⟩
      · rw [hm1, hm3]
      · rw [hm1, hm3]

/-- The entries built for a list of targets, the instrumentation options of the execution
state being `v`. -/
theorem builtFrom_entry {c : Env} {es : EState} {rtis : List Index}
    {infos : List ResultRelInfo} {v : Nat} (h : BuiltFrom c es rtis infos)
    (hv : es.es_instrument = v) (k : Nat) (rti : Index) (hk : rtis[k]? = some rti) :
    ∃ rel, infos[k]? = some (InitResultRelInfo rel rti none v) := by
  obtain ⟨rel, -, hinfo⟩ := h.2 k rti hk
  exact ⟨rel, by rw [hinfo, hv]⟩

/-- The sample INSERT with a write target and a partition root gets through
`standard_ExecutorStart`. -/
theorem writeQuery_start_ok :
    standard_ExecutorStart sampleEnv 0 writeQueryMachine =
      .ok () (standard_ExecutorStart sampleEnv 0 writeQueryMachine).machine := by
  apply ok_of_isOk
  rw [standard_ExecutorStart_need_eq sampleEnv 0 writeQueryMachine rfl rfl (by decide)]
  rfl

/-! ## C14: the bookkeeping of the write targets -/

/-- C14: when the plan declares write targets and `InitPlan` succeeds, `es_result_relations`
holds one entry per target, in list order, the `k`-th initialised from the table
`ExecGetRangeTableRelation` returned for the `k`-th index, with that index and `es_instrument`;
`es_num_result_relations` is the number of targets and `es_result_relation_info` is absent.
The entries of the partition roots are built the same way, after those of the targets, and
kept in `es_root_result_relations`, with `es_num_root_result_relations` the number of roots;
without roots that array is absent and the count is 0.  The log shows the opening and the
initialisation of each entry in that order.  After a successful `standard_ExecutorStart` the
instrumentation options of every entry are those of the query descriptor. -/
theorem C14_result_relations (c : Env) (eflags : Nat) :
    (∀ m m1, m.queryDesc.plannedstmt.resultRelations ≠ [] →
      InitPlan c eflags m = .ok () m1 →
      ∃ es0 es1 infos rootInfos after,
        m.queryDesc.estate = some es0 ∧ m1.queryDesc.estate = some es1 ∧
        es1.es_result_relations = some infos ∧
        es1.es_num_result_relations = m.queryDesc.plannedstmt.resultRelations.length ∧
        BuiltFrom c (rangeTableEState m.queryDesc.plannedstmt es0)
          m.queryDesc.plannedstmt.resultRelations infos ∧
        es1.es_result_relation_info = none ∧
        BuiltFrom c
          (targetsEState m.queryDesc.plannedstmt infos
            (rangeTableEState m.queryDesc.plannedstmt es0))
          m.queryDesc.plannedstmt.rootResultRelations rootInfos ∧
        es1.es_num_root_result_relations =
          m.queryDesc.plannedstmt.rootResultRelations.length ∧
        (m.queryDesc.plannedstmt.rootResultRelations ≠ [] →
          es1.es_root_result_relations = some rootInfos) ∧
        (m.queryDesc.plannedstmt.rootResultRelations = [] →
          es1.es_root_result_relations = none ∧ es1.es_num_root_result_relations = 0) ∧
        m1.trace = m.trace ++ ([.ExecCheckRTPerms, .ExecInitRangeTable] ++
          resultRelCalls infos ++ resultRelCalls rootInfos ++ after) ∧
        ∀ e ∈ after, RowMarksOnwardEvent m.queryDesc.plannedstmt e) ∧
    (∀ m m1, m.queryDesc.plannedstmt.resultRelations ≠ [] →
      standard_ExecutorStart c eflags m = .ok () m1 →
      ∃ es1 infos, m1.queryDesc.estate = some es1 ∧ es1.es_result_relations = some infos ∧
        infos.length = m.queryDesc.plannedstmt.resultRelations.length ∧
        (∀ (k : Nat) (rti : Index), m.queryDesc.plannedstmt.resultRelations[k]? = some rti →
          ∃ rel, infos[k]? =
            some (InitResultRelInfo rel rti none m.queryDesc.instrument_options)) ∧
        ∀ rootInfos, es1.es_root_result_relations = some rootInfos →
          ∀ (k : Nat) (rti : Index), m.queryDesc.plannedstmt.rootResultRelations[k]? = some rti →
            ∃ rel, rootInfos[k]? =
              some (InitResultRelInfo rel rti none m.queryDesc.instrument_options)) := by
  constructor
  · intro m m1 hres h
    obtain ⟨es0, es1, infos, rootInfos, after, a1, a2, b1, b2, g1, g2, g3, g4, g5, ht, hq⟩ :=
      InitPlan_ok_resultRelations c eflags m m1 hres h
    refine ⟨es0, es1, infos, rootInfos, after, a1, a2, g1, g2, b1, g3, b2, g5, ?_, ?_, ht, hq⟩
    · intro hroot
      rw [g4, if_pos hroot]
    · intro hroot
      refine ⟨?_, ?_⟩
      · rw [g4, if_neg (fun hne => hne hroot)]
      · rw [g5, hroot]
        rfl
  · intro m m1 hres h
    obtain ⟨mq, esq, m2, hstmt, hesq, hinit, hq1, -⟩ :=
      standard_ExecutorStart_ok_run c eflags m m1 h
    have hres1 : (initPlanCallMachine c m.queryDesc (effectiveEflags c m.queryDesc eflags) mq
        esq).queryDesc.plannedstmt.resultRelations ≠ [] := by
      show mq.queryDesc.plannedstmt.resultRelations ≠ []
      rw [hstmt]
      exact hres
    obtain ⟨es0, es1, infos, rootInfos, after, a1, a2, b1, b2, g1, -, -, g4, -, -, -⟩ :=
      InitPlan_ok_resultRelations c _ _ m2 hres1 hinit
    have hes0 : es0 = copiedEState c m.queryDesc (effectiveEflags c m.queryDesc eflags) esq :=
      (Option.some.inj a1).symm
    have hinstr : es0.es_instrument = m.queryDesc.instrument_options := by
      rw [hes0]
      rfl
    have hlen : infos.length = m.queryDesc.plannedstmt.resultRelations.length := by
      rw [b1.1]
      show mq.queryDesc.plannedstmt.resultRelations.length = _
      rw [hstmt]
    refine ⟨es1, infos, by rw [hq1]; exact a2, g1, hlen, ?_, ?_⟩
    · intro k rti hk
      have hk1 : mq.queryDesc.plannedstmt.resultRelations[k]? = some rti := by
        rw [hstmt]
        exact hk
      exact builtFrom_entry b1 hinstr k rti hk1
    · intro rootInfos1 hroot k rti hk
      have hk1 : mq.queryDesc.plannedstmt.rootResultRelations[k]? = some rti := by
        rw [hstmt]
        exact hk
      rw [g4] at hroot
      split at hroot
      · have := Option.some.inj hroot
        subst this
        exact builtFrom_entry b2 hinstr k rti hk1
      · cases hroot

/-- C14 at sample inputs: `InitPlan` on the INSERT that writes table 2, a partition of table 1,
and `standard_ExecutorStart` on the same statement with instrumentation options 5. -/
theorem C14_result_relations_witness :
    (∃ es0 es1 infos rootInfos after,
        (startedMachine .CMD_INSERT writeStmt).queryDesc.estate = some es0 ∧
        (InitPlan sampleEnv 0 (startedMachine .CMD_INSERT writeStmt)).machine.queryDesc.estate =
          some es1 ∧
        es1.es_result_relations = some infos ∧
        es1.es_num_result_relations =
          (startedMachine .CMD_INSERT writeStmt).queryDesc.plannedstmt.resultRelations.length ∧
        BuiltFrom sampleEnv
          (rangeTableEState (startedMachine .CMD_INSERT writeStmt).queryDesc.plannedstmt es0)
          (startedMachine .CMD_INSERT writeStmt).queryDesc.plannedstmt.resultRelations infos ∧
        es1.es_result_relation_info = none ∧
        BuiltFrom sampleEnv
          (targetsEState (startedMachine .CMD_INSERT writeStmt).queryDesc.plannedstmt infos
            (rangeTableEState (startedMachine .CMD_INSERT writeStmt).queryDesc.plannedstmt es0))
          (startedMachine .CMD_INSERT writeStmt).queryDesc.plannedstmt.rootResultRelations
          rootInfos ∧
        es1.es_num_root_result_relations =
          (startedMachine .CMD_INSERT
            writeStmt).queryDesc.plannedstmt.rootResultRelations.length ∧
        ((startedMachine .CMD_INSERT writeStmt).queryDesc.plannedstmt.rootResultRelations ≠ [] →
          es1.es_root_result_relations = some rootInfos) ∧
        ((startedMachine .CMD_INSERT writeStmt).queryDesc.plannedstmt.rootResultRelations = [] →
          es1.es_root_result_relations = none ∧ es1.es_num_root_result_relations = 0) ∧
        (InitPlan sampleEnv 0 (startedMachine .CMD_INSERT writeStmt)).machine.trace =
          (startedMachine .CMD_INSERT writeStmt).trace ++
            ([.ExecCheckRTPerms, .ExecInitRangeTable] ++
              resultRelCalls infos ++ resultRelCalls rootInfos ++ after) ∧
        ∀ e ∈ after,
          RowMarksOnwardEvent (startedMachine .CMD_INSERT writeStmt).queryDesc.plannedstmt e) ∧
    (∃ es1 infos,
        (standard_ExecutorStart sampleEnv 0 writeQueryMachine).machine.queryDesc.estate =
          some es1 ∧
        es1.es_result_relations = some infos ∧
        infos.length = writeQueryMachine.queryDesc.plannedstmt.resultRelations.length ∧
        (∀ (k : Nat) (rti : Index),
          writeQueryMachine.queryDesc.plannedstmt.resultRelations[k]? = some rti →
          ∃ rel, infos[k]? =
            some (InitResultRelInfo rel rti none
              writeQueryMachine.queryDesc.instrument_options)) ∧
        ∀ rootInfos, es1.es_root_result_relations = some rootInfos →
          ∀ (k : Nat) (rti : Index),
            writeQueryMachine.queryDesc.plannedstmt.rootResultRelations[k]? = some rti →
            ∃ rel, rootInfos[k]? =
              some (InitResultRelInfo rel rti none
                writeQueryMachine.queryDesc.instrument_options)) ∧
    (InitPlan sampleEnv 0
        (startedMachine .CMD_INSERT writeStmt)).machine.queryDesc.estate.map
      (fun es => (es.es_result_relations, es.es_num_result_relations,
        es.es_root_result_relations, es.es_num_root_result_relations)) =
      some (some [InitResultRelInfo 102 2 none 0], 1, some [InitResultRelInfo 101 1 none 0], 1) :=
  ⟨(C14_result_relations sampleEnv 0).1 (startedMachine .CMD_INSERT writeStmt)
      (InitPlan sampleEnv 0 (startedMachine .CMD_INSERT writeStmt)).machine (by decide) rfl,
    (C14_result_relations sampleEnv 0).2 writeQueryMachine
      (standard_ExecutorStart sampleEnv 0 writeQueryMachine).machine (by decide)
      writeQuery_start_ok,
    rfl⟩
end PGExecutor
